import Mathlib

/-!
libnd4j NDArray: a shallow embedding of `blas/cpu/NDArray.cpp`.

The host memory is a family of allocation blocks; a buffer pointer is a block
together with an element position inside it.  An `NDArray` is a descriptor
(buffer pointer, extents, strides, ordering, element-wise stride, data type)
over that memory.  Methods that may `throw` return an `Outcome`: the state the
call leaves behind together with either the returned value or the exception.

Helpers that `NDArray.cpp` calls but that live in other translation units
(`shape::getOffset`, `NDArray::getOffset`, `NDArray::assign`, the shape
builders, the selector macros, the reduction kernel, the broadcast kernel) are
modelled from the specification; each such definition says so in its doc comment.
The other kernels of the executor are external: an entry point of
`NativeOpExecutioner.cpp` takes the body of the kernel it dispatches to as a
parameter, and every invocation of a kernel is entered in a log, so that "no kernel
was invoked" can be stated.  The executor is embedded as built without
`__ND4J_EXPERIMENTAL__`.  What the sources at hand leave open is a parameter of the
methods that depend on it: the type and shape helpers (`pickPairwiseResultType`,
`pickFloatingType`, `cast`, `checkDimensions`, `evalReduceShapeInfo`), the conversion
between element kinds of `e<T>` and `p<T>` (`convert`), what a read before the first
entry of an offset table yields (`beforeTable`), and what the broadcast kernel takes
for tables it is not passed (`absentTad`).

Conventions.  Extents are natural numbers; indices, strides and offsets are
integers (`Nd4jLong`), so that a negative index can be written.  A logical linear
index enumerates the multi-indices in row-major order, whatever the ordering of the
array.  All the cells of one call hold values of one type `α`; a value passed to a
store is the image of the C++ argument in that type.  The parallel loops are run in
index order.  The `int` counters of the lambda transforms and of the two `repeat`
overloads are run by `forInt`: a counter that would pass `INT_MAX` ends the call in
`signed_overflow`, and the theorems about these methods state the bound under which
it does not.  The counters of the other loops range over the natural numbers below
their bound.  The width of an `int` is also modelled in the accumulator of `tile`, in
the start value `MAX_INT` of `setIdentity` and in the `int` locals of
`repeat(dimension, target)`.
-/

namespace nd4j

/-! ## Data types, exceptions, outcomes -/

/-- Modelled from the spec: the closed enumeration of element kinds (the header
`array/DataType.h` is not part of the sources at hand): the ten numeric kinds of
the `LIBND4J_TYPES` family and the UTF-8 string kind. -/
inductive DataType where
  | BOOL | HALF | BFLOAT16 | FLOAT32 | DOUBLE
  | INT8 | INT16 | INT32 | INT64 | UINT8
  | UTF8
  deriving DecidableEq, Repr

/-- Modelled from the spec: the `LIBND4J_TYPES` family of the selector macros,
the ten concrete numeric kinds. -/
def LIBND4J_TYPES : List DataType :=
  [.BFLOAT16, .HALF, .FLOAT32, .DOUBLE, .BOOL, .INT8, .UINT8, .INT16, .INT32, .INT64]

/-- Modelled from the spec: the restricted `FLOAT_TYPES` family. -/
def FLOAT_TYPES : List DataType := [.BFLOAT16, .HALF, .FLOAT32, .DOUBLE]

/-- Modelled from the spec: the restricted `BOOL_TYPES` family. -/
def BOOL_TYPES : List DataType := [.BOOL]

/-- Modelled from the spec: the restricted `LONG_TYPES` family. -/
def LONG_TYPES : List DataType := [.INT64]

/-- The C++ objects thrown by the methods embedded here. -/
inductive Exception where
  /-- A `std::invalid_argument`. -/
  | invalid_argument
  /-- A `std::runtime_error`. -/
  | runtime_error
  /-- A thrown `std::string` (as `setValueInDiagMatrix` does). -/
  | std_string
  /-- Not a C++ exception: an integer division by zero, after which the program has
  no defined behaviour. -/
  | division_by_zero
  /-- A `nd4j::datatype_exception`. -/
  | datatype_exception
  /-- Not a C++ exception: the increment of an `int` that holds `INT_MAX`, after which
  the program has no defined behaviour. -/
  | signed_overflow
  deriving DecidableEq, Repr

deriving instance DecidableEq for Except

/-- What a call leaves behind: the state after it, and the value it returned or
the exception it raised. -/
structure Outcome (σ β : Type) where
  state : σ
  value : Except Exception β

namespace Outcome

/-- A normal return. -/
def ret {σ β : Type} (s : σ) (v : β) : Outcome σ β := ⟨s, .ok v⟩

/-- A `throw`. -/
def raise {σ β : Type} (s : σ) (e : Exception) : Outcome σ β := ⟨s, .error e⟩

/-- True when the call raised. -/
def raised {σ β : Type} (r : Outcome σ β) : Bool :=
  match r.value with
  | .ok _ => false
  | .error _ => true

end Outcome

/-- Modelled from the spec: `BUILD_SINGLE_SELECTOR` / `BUILD_SINGLE_PARTIAL_SELECTOR`
(macros of `type_boilerplate.h`, not in the sources at hand): run `body` when the
runtime tag is one of `types`, otherwise fail fast. -/
def BUILD_SINGLE_SELECTOR {β : Type} (xType : DataType) (types : List DataType) (body : β) :
    Except Exception β :=
  if xType ∈ types then .ok body else .error .runtime_error

/-- Modelled from the spec: `BUILD_SINGLE_SELECTOR_THRICE(xType, NAME, SIGNATURE, TYPES)`:
the one tag it is given selects the body `NAME<T, T, T>`; a tag outside `types`
fails fast. -/
def BUILD_SINGLE_SELECTOR_THRICE {β : Type} (xType : DataType) (types : List DataType)
    (body : β) : Except Exception β :=
  if xType ∈ types then .ok body else .error .runtime_error

/-- Modelled from the spec: `BUILD_DOUBLE_SELECTOR(xType, yType, NAME, SIGNATURE, XTYPES, YTYPES)`:
the body `NAME<X, Y>` runs when the first tag is one of `xTypes` and the second one of
`yTypes`; any other combination fails fast. -/
def BUILD_DOUBLE_SELECTOR {β : Type} (xType yType : DataType) (xTypes yTypes : List DataType)
    (body : β) : Except Exception β :=
  if xType ∈ xTypes ∧ yType ∈ yTypes then .ok body else .error .runtime_error

/-! ## Memory -/

/-- A buffer pointer: an allocation block and an element position in it. -/
structure Pointer where
  block : Nat
  offset : Int
  deriving DecidableEq, Repr

/-- Host memory: the cells of every block, and the first block that `ALLOCATE`
has not handed out yet. -/
structure Memory (α : Type) where
  cells : Nat → Int → α
  next : Nat

namespace Memory

variable {α : Type}

/-- The read `buffer[i]`. -/
def read (m : Memory α) (buffer : Pointer) (i : Int) : α :=
  m.cells buffer.block (buffer.offset + i)

/-- The store `buffer[i] = v`. -/
def write (m : Memory α) (buffer : Pointer) (i : Int) (v : α) : Memory α :=
  { m with cells := fun b o =>
      if b = buffer.block ∧ o = buffer.offset + i then v else m.cells b o }

/-- The macro `ALLOCATE`: a fresh block. -/
def allocate (m : Memory α) : Pointer × Memory α :=
  (⟨m.next, 0⟩, { m with next := m.next + 1 })

end Memory

/-! ## Shape arithmetic -/

namespace shape

/-- Modelled from the spec: `shape::prodLong` / `shape::length`, the product of the
extents (`length == product(extents)`). -/
def prodLong (shape : List Nat) : Nat := shape.prod

/-- Modelled from the spec: the default stride layout of a row-major (`'c'`)
array: the stride of an axis is the product of the extents to its right. -/
def calcStridesC : List Nat → List Int
  | [] => []
  | _ :: ds => (prodLong ds : Int) :: calcStridesC ds

/-- Modelled from the spec: the default stride layout of a column-major (`'f'`)
array: the stride of an axis is the product of the extents to its left. -/
def calcStridesFortran : List Nat → List Int
  | [] => []
  | d :: ds => 1 :: (calcStridesFortran ds).map (fun (s : Int) => (d : Int) * s)

/-- Modelled from the spec: the default stride layout for an ordering. -/
def calcStrides (order : Char) (shape : List Nat) : List Int :=
  if order = 'c' then calcStridesC shape else calcStridesFortran shape

/-- Modelled from the spec: `shape::getOffset(baseOffset, shape, stride, indices, rank)`,
the offset formula `base + sum(i_k * strides[k])`. -/
def getOffset (baseOffset : Int) (stride : List Int) (indices : List Int) : Int :=
  baseOffset + (List.zipWith (fun (i s : Int) => i * s) indices stride).sum

/-- Modelled from the spec: `shape::ind2subC`, the multi-index of a logical linear
index, the axes being enumerated in row-major order; the quotient and the
remainder are those of C++ (`/` and `%` truncate). -/
def ind2subC : List Nat → Int → List Int
  | [], _ => []
  | _ :: ds, i => Int.tdiv i (prodLong ds) :: ind2subC ds (Int.tmod i (prodLong ds))

/-- Modelled from the spec: `shape::equalsSoft`, "same extents". -/
def equalsSoft (shape₁ shape₂ : List Nat) : Bool := decide (shape₁ = shape₂)

end shape

/-! ## The array descriptor -/

/-- The contents of a `shapeInfo` buffer: extents, strides, ordering, element-wise
stride, and the data type and empty flag kept in its options word. -/
structure ShapeInfo where
  shape : List Nat
  strides : List Int
  order : Char
  ews : Int
  dataType : DataType
  isEmpty : Bool := false
  deriving DecidableEq, Repr

/-- An `NDArray`: `_shapeInfo`, `_buffer`, and the flags `_isView` and
`_isBuffAlloc` (the array owns its buffer). -/
structure NDArray extends ShapeInfo where
  buffer : Pointer
  isView : Bool := false
  isBuffAlloc : Bool := true
  deriving DecidableEq, Repr

/-- The null pointer; block `0` is never handed out by `ALLOCATE`. -/
def nullptr : Pointer := ⟨0, 0⟩

namespace NDArray

variable {α : Type}

/-- `rankOf()`. -/
def rankOf (a : NDArray) : Nat := a.shape.length

/-- `lengthOf()`, the field `_length`. -/
def lengthOf (a : NDArray) : Nat := shape.prodLong a.shape

/-- `sizeAt(dim)` for a non-negative `dim`. -/
def sizeAt (a : NDArray) (dim : Nat) : Nat := a.shape.getD dim 0

/-- `isS()`: the array is string-typed. -/
def isS (a : NDArray) : Bool := decide (a.dataType = .UTF8)

/-- Modelled from the spec: `isSameShape(other)`, "equal shape": the same extents
(`NDArray.h` is not part of the sources at hand). -/
def isSameShape (a other : NDArray) : Bool := decide (a.shape = other.shape)

/-- Modelled from the spec: `NDArray::getOffset(i)` (`shape::getIndexOffset`), the
physical offset of a logical linear index: its row-major multi-index put through the
offset formula. -/
def getOffset (a : NDArray) (i : Int) : Int :=
  shape.getOffset 0 a.strides (shape.ind2subC a.shape i)

/-- The helper `templatedGet<X, T>(buffer, index)`, at `T` the element type. -/
def templatedGet (m : Memory α) (buffer : Pointer) (index : Int) : α :=
  m.read buffer index

/-- The helper `templatedSet<X, T>(buffer, offset, value)`, `value` being the image
of the argument in the element type. -/
def templatedSet (m : Memory α) (buffer : Pointer) (offset : Int) (value : α) : Memory α :=
  m.write buffer offset value

/-- `T NDArray::e<T>(const Nd4jLong i) const`. -/
def e (m : Memory α) (a : NDArray) (i : Int) : Except Exception α :=
  if i ≥ (a.lengthOf : Int) then
    .error .invalid_argument
  else
    let rp := a.getOffset i
    BUILD_SINGLE_SELECTOR a.dataType LIBND4J_TYPES (templatedGet m a.buffer rp)

/-- `void NDArray::p<T>(const Nd4jLong i, const T value)`. -/
def p (m : Memory α) (a : NDArray) (i : Int) (value : α) : Outcome (Memory α) Unit :=
  if i ≥ (a.lengthOf : Int) then
    .raise m .invalid_argument
  else
    let rp := a.getOffset i
    match BUILD_SINGLE_SELECTOR a.dataType LIBND4J_TYPES (templatedSet m a.buffer rp value) with
    | .ok m' => .ret m' ()
    | .error ex => .raise m ex

/-- `T NDArray::e<T>(const Nd4jLong i, const Nd4jLong j) const`. -/
def e2 (m : Memory α) (a : NDArray) (i j : Int) : Except Exception α :=
  if a.rankOf ≠ 2 ∨ i ≥ (a.shape.getD 0 0 : Int) ∨ j ≥ (a.shape.getD 1 0 : Int) then
    .error .invalid_argument
  else
    let coords := [i, j]
    let xOffset := shape.getOffset 0 a.strides coords
    BUILD_SINGLE_SELECTOR a.dataType LIBND4J_TYPES (templatedGet m a.buffer xOffset)

/-- `void NDArray::p<T>(const Nd4jLong i, const Nd4jLong j, const T value)`. -/
def p2 (m : Memory α) (a : NDArray) (i j : Int) (value : α) : Outcome (Memory α) Unit :=
  if a.rankOf ≠ 2 ∨ i ≥ (a.shape.getD 0 0 : Int) ∨ j ≥ (a.shape.getD 1 0 : Int) then
    .raise m .invalid_argument
  else
    let coords := [i, j]
    let xOffset := shape.getOffset 0 a.strides coords
    match BUILD_SINGLE_SELECTOR a.dataType LIBND4J_TYPES (templatedSet m a.buffer xOffset value) with
    | .ok m' => .ret m' ()
    | .error ex => .raise m ex

end NDArray

/-- A `for` loop whose body may throw: the body runs on each item in turn, on the
state the previous round left; the first exception ends the loop. -/
def forEach {σ ι : Type} (items : List ι) (body : ι → σ → Outcome σ Unit) (s : σ) :
    Outcome σ Unit :=
  match items with
  | [] => .ret s ()
  | x :: rest =>
    match (body x s).value with
    | .ok _ => forEach rest body (body x s).state
    | .error ex => .raise (body x s).state ex

/-- The largest value of an `int`. -/
def INT_MAX : Nat := 2147483647

/-- The loop `for (int e = 0; e < n; e++) body(e)` whose bound `n` is an `Nd4jLong`.
While `n ≤ INT_MAX` the counter takes the values `0 .. n - 1`.  For a larger `n` the
counter reaches `INT_MAX` with the test `e < n` still true: after the rounds
`0 .. INT_MAX` its increment overflows, which ends the model of the call in
`signed_overflow`. -/
def forInt {σ : Type} (n : Nat) (body : Nat → σ → Outcome σ Unit) (s : σ) : Outcome σ Unit :=
  if n ≤ INT_MAX then
    forEach (List.range n) body s
  else
    let r := forEach (List.range (INT_MAX + 1)) body s
    match r.value with
    | .ok _ => .raise r.state .signed_overflow
    | .error ex => .raise r.state ex

namespace NDArray

variable {α : Type}

/-- `void NDArray::setValueInDiagMatrix<T>(const T& value, const int diag, const char direction)`. -/
def setValueInDiagMatrix (m : Memory α) (a : NDArray) (value : α) (diag : Int)
    (direction : Char) : Outcome (Memory α) Unit :=
  if a.isS then
    .raise m .runtime_error
  else if a.rankOf ≠ 2 then
    .raise m .std_string
  else
    let rows := a.sizeAt 0
    let cols := a.sizeAt 1
    if direction = 'u' then
      forEach (List.range rows) (fun (i : Nat) s =>
        forEach (List.range cols) (fun (j : Nat) s' =>
          if (i : Int) + diag ≤ (j : Int) then a.p2 s' i j value else .ret s' ()) s) m
    else if direction = 'l' then
      forEach (List.range rows) (fun (i : Nat) s =>
        forEach (List.range cols) (fun (j : Nat) s' =>
          if (i : Int) + diag ≥ (j : Int) then a.p2 s' i j value else .ret s' ()) s) m
    else
      .raise m .std_string

/-- Modelled from the spec: `NDArray::assign(const T value)` ("zero-fills" when the
value is `0`): every logical element, found through the array's addressing, is set
to `value`. -/
def assignValue (m : Memory α) (a : NDArray) (value : α) : Memory α :=
  (List.range a.lengthOf).foldl (fun s (e : Nat) => s.write a.buffer (a.getOffset e) value) m

/-- Modelled from the spec: `NDArray::assign(const NDArray* other)`: the logical
element `e` of `other` is copied into the logical element `e` of the array. -/
def assign (m : Memory α) (a other : NDArray) : Memory α :=
  (List.range a.lengthOf).foldl
    (fun s (e : Nat) =>
      s.write a.buffer (a.getOffset e) (s.read other.buffer (other.getOffset e))) m

/-- The constant `MAX_INT`. -/
def MAX_INT : Int := 2147483647

/-- The overload `templatedSet<T>(buffer, xOffset, dtype, value)`, which selects on
the runtime type of the array. -/
def templatedSetDyn (m : Memory α) (buffer : Pointer) (xOffset : Int) (dtype : DataType)
    (value : α) : Outcome (Memory α) Unit :=
  match BUILD_SINGLE_SELECTOR dtype LIBND4J_TYPES (templatedSet m buffer xOffset value) with
  | .ok m' => .ret m' ()
  | .error ex => .raise m ex

/-- `void NDArray::setIdentity()`; `0` and `1` of the element type are the images
of the literals `0.` and `1.0f`. -/
def setIdentity [Zero α] [One α] (m : Memory α) (a : NDArray) : Outcome (Memory α) Unit :=
  if a.isS then
    .raise m .runtime_error
  else
    let m₀ := a.assignValue m 0
    let rank := a.rankOf
    let indices : List Int := List.replicate rank 1
    let offset := shape.getOffset 0 a.strides indices
    let minDim : Int :=
      a.shape.foldl (fun (md : Int) (s : Nat) => if md > (s : Int) then (s : Int) else md) MAX_INT
    forEach (List.range minDim.toNat) (fun (i : Nat) s =>
      templatedSetDyn s a.buffer ((i : Int) * offset) a.dataType 1) m₀

/-- `void NDArray::applyLambda<T>(const std::function<T(T)>& func, NDArray* target)`;
`T` is given by its tag `DataTypeUtils::fromT<T>()`, and `target = none` is the
null pointer.  The three loops count with `int e` against the `Nd4jLong` `_length`. -/
def applyLambda (fromT : DataType) (func : α → α) (m : Memory α) (a : NDArray)
    (target : Option NDArray) : Outcome (Memory α) Unit :=
  let target := target.getD a
  if a.dataType ≠ fromT then
    .raise m .runtime_error
  else if a.dataType ≠ target.dataType then
    .raise m .runtime_error
  else
    let f := a.buffer
    let z := target.buffer
    if a.order = target.order ∧ (a.ews = 1 ∧ target.ews = 1) then
      forInt a.lengthOf (fun (e : Nat) s => .ret (s.write z e (func (s.read f e))) ()) m
    else if f = z then
      forInt a.lengthOf
        (fun (e : Nat) s =>
          let xOffset := a.getOffset e
          .ret (s.write f xOffset (func (s.read f xOffset))) ()) m
    else
      forInt a.lengthOf
        (fun (e : Nat) s =>
          let xOffset := a.getOffset e
          let zOffset := target.getOffset e
          .ret (s.write z zOffset (func (s.read f xOffset))) ()) m

/-- `void NDArray::applyIndexedLambda<T>(const std::function<T(Nd4jLong, T)>& func, NDArray* target)`.
The three loops count with `Nd4jLong e`. -/
def applyIndexedLambda (fromT : DataType) (func : Int → α → α) (m : Memory α) (a : NDArray)
    (target : Option NDArray) : Outcome (Memory α) Unit :=
  let target := target.getD a
  if a.dataType ≠ fromT then
    .raise m .runtime_error
  else if a.dataType ≠ target.dataType then
    .raise m .runtime_error
  else
    let f := a.buffer
    let z := target.buffer
    if a.order = target.order ∧ (a.ews = 1 ∧ target.ews = 1) then
      .ret ((List.range a.lengthOf).foldl
        (fun s (e : Nat) => s.write z e (func e (s.read f e))) m) ()
    else if f = z then
      .ret ((List.range a.lengthOf).foldl
        (fun s (e : Nat) =>
          let xOffset := a.getOffset e
          s.write f xOffset (func e (s.read f xOffset))) m) ()
    else
      .ret ((List.range a.lengthOf).foldl
        (fun s (e : Nat) =>
          let xOffset := a.getOffset e
          let zOffset := target.getOffset e
          s.write z zOffset (func e (s.read f xOffset))) m) ()

/-- The slow path of `applyIndexedLambda`: the `else` branch of its test on orderings and
element-wise strides, which recomputes the offset of every logical index `e` and hands
`e` to `func`. -/
def applyIndexedLambdaSlow (func : Int → α → α) (m : Memory α) (a target : NDArray) :
    Memory α :=
  let f := a.buffer
  let z := target.buffer
  if f = z then
    (List.range a.lengthOf).foldl
      (fun s (e : Nat) =>
        let xOffset := a.getOffset e
        s.write f xOffset (func e (s.read f xOffset))) m
  else
    (List.range a.lengthOf).foldl
      (fun s (e : Nat) =>
        let xOffset := a.getOffset e
        let zOffset := target.getOffset e
        s.write z zOffset (func e (s.read f xOffset))) m

/-- The cell that the loops of `applyLambda` and `applyIndexedLambda` store into in the
round `e`, as an offset from the start of the target's buffer: `z[e]` on the fast path,
`f[xOffset]` when the two buffer pointers are equal, `z[zOffset]` otherwise. -/
def lambdaStoreOffset (a target : NDArray) (e : Int) : Int :=
  if a.order = target.order ∧ (a.ews = 1 ∧ target.ews = 1) then e
  else if a.buffer = target.buffer then a.getOffset e
  else target.getOffset e

/-- The cell that the loops of `applyLambda` and `applyIndexedLambda` read in the round
`e`, as an offset from the start of this array's buffer: `f[e]` on the fast path,
`f[xOffset]` otherwise. -/
def lambdaLoadOffset (a target : NDArray) (e : Int) : Int :=
  if a.order = target.order ∧ (a.ews = 1 ∧ target.ews = 1) then e else a.getOffset e

/-- `void NDArray::applyPairwiseLambda<T>(const NDArray* other, const std::function<T(T, T)>& func, NDArray* target)`;
`other = none` is the null pointer.  The three loops count with `int e`. -/
def applyPairwiseLambda (fromT : DataType) (func : α → α → α) (m : Memory α) (a : NDArray)
    (other : Option NDArray) (target : Option NDArray) : Outcome (Memory α) Unit :=
  let target := target.getD a
  match other with
  | none => .raise m .runtime_error
  | some other =>
    if a.dataType ≠ fromT then
      .raise m .runtime_error
    else if a.dataType ≠ other.dataType ∨ a.dataType ≠ target.dataType then
      .raise m .runtime_error
    else if a.lengthOf ≠ other.lengthOf then
      .raise m .runtime_error
    else
      let f := a.buffer
      let s := other.buffer
      let z := target.buffer
      if a.order = other.order ∧ a.order = target.order ∧ (a.ews = 1 ∧ target.ews = 1)
          ∧ a.ews = other.ews then
        forInt a.lengthOf
          (fun (e : Nat) st => .ret (st.write z e (func (st.read f e) (st.read s e))) ()) m
      else if f = z then
        forInt a.lengthOf
          (fun (e : Nat) st =>
            let xOffset := a.getOffset e
            let yOffset := other.getOffset e
            .ret (st.write f xOffset (func (st.read f xOffset) (st.read s yOffset))) ()) m
      else
        forInt a.lengthOf
          (fun (e : Nat) st =>
            let xOffset := a.getOffset e
            let yOffset := other.getOffset e
            let zOffset := target.getOffset e
            .ret (st.write z zOffset (func (st.read f xOffset) (st.read s yOffset))) ()) m

/-- `void NDArray::applyIndexedPairwiseLambda<T>(NDArray* other, const std::function<T(Nd4jLong, T, T)>& func, NDArray* target)`.
The loop of the fast path counts with `Nd4jLong e`, the two others with `int e`. -/
def applyIndexedPairwiseLambda (fromT : DataType) (func : Int → α → α → α) (m : Memory α)
    (a : NDArray) (other : Option NDArray) (target : Option NDArray) :
    Outcome (Memory α) Unit :=
  let target := target.getD a
  match other with
  | none => .raise m .runtime_error
  | some other =>
    if a.dataType ≠ fromT then
      .raise m .runtime_error
    else if a.dataType ≠ target.dataType then
      .raise m .runtime_error
    else if a.lengthOf ≠ other.lengthOf then
      .raise m .runtime_error
    else
      let f := a.buffer
      let s := other.buffer
      let z := target.buffer
      if a.order = other.order ∧ a.order = target.order ∧ (a.ews = 1 ∧ target.ews = 1)
          ∧ a.ews = other.ews then
        .ret ((List.range a.lengthOf).foldl
          (fun st (e : Nat) => st.write z e (func e (st.read f e) (st.read s e))) m) ()
      else if f = z then
        forInt a.lengthOf
          (fun (e : Nat) st =>
            let xOffset := a.getOffset e
            let yOffset := other.getOffset e
            .ret (st.write f xOffset (func e (st.read f xOffset) (st.read s yOffset))) ()) m
      else
        forInt a.lengthOf
          (fun (e : Nat) st =>
            let xOffset := a.getOffset e
            let yOffset := other.getOffset e
            let zOffset := target.getOffset e
            .ret (st.write z zOffset (func e (st.read f xOffset) (st.read s yOffset))) ()) m

/-- `void NDArray::applyTriplewiseLambda<T>(NDArray* second, NDArray *third, const std::function<T(T, T, T)>& func, NDArray* target)`.
The loop of the fast path counts with `Nd4jLong e`, the two others with `int e`. -/
def applyTriplewiseLambda (fromT : DataType) (func : α → α → α → α) (m : Memory α)
    (a : NDArray) (second third : Option NDArray) (target : Option NDArray) :
    Outcome (Memory α) Unit :=
  let target := target.getD a
  match second, third with
  | none, _ => .raise m .runtime_error
  | some _, none => .raise m .runtime_error
  | some second, some third =>
    if a.dataType ≠ fromT then
      .raise m .runtime_error
    else if a.dataType ≠ second.dataType ∨ a.dataType ≠ third.dataType
        ∨ a.dataType ≠ target.dataType then
      .raise m .runtime_error
    else if a.lengthOf ≠ second.lengthOf ∨ a.lengthOf ≠ third.lengthOf
        ∨ !a.isSameShape second ∨ !a.isSameShape third then
      .raise m .runtime_error
    else
      let f := a.buffer
      let s := second.buffer
      let t := third.buffer
      let z := target.buffer
      if a.order = second.order ∧ a.order = third.order ∧ a.order = target.order
          ∧ (a.ews = 1 ∧ target.ews = 1) ∧ a.ews = second.ews ∧ a.ews = third.ews then
        .ret ((List.range a.lengthOf).foldl
          (fun st (e : Nat) =>
            st.write z e (func (st.read f e) (st.read s e) (st.read t e))) m) ()
      else if f = z then
        forInt a.lengthOf
          (fun (e : Nat) st =>
            let tOffset := a.getOffset e
            let uOffset := second.getOffset e
            let vOffset := third.getOffset e
            .ret (st.write f tOffset
              (func (st.read f tOffset) (st.read s uOffset) (st.read t vOffset))) ()) m
      else
        forInt a.lengthOf
          (fun (e : Nat) st =>
            let tOffset := a.getOffset e
            let uOffset := second.getOffset e
            let vOffset := third.getOffset e
            let zOffset := target.getOffset e
            .ret (st.write z zOffset
              (func (st.read f tOffset) (st.read s uOffset) (st.read t vOffset))) ()) m

end NDArray

/-! ## Shape builders and the TAD helper -/

namespace ConstantShapeHelper

/-- Modelled from the spec: `ConstantShapeHelper::createShapeInfo(dataType, order, shape)`,
a contiguous descriptor with the default stride layout of `order`. -/
def createShapeInfo (dataType : DataType) (order : Char) (shape : List Nat) : ShapeInfo :=
  { shape := shape, strides := nd4j.shape.calcStrides order shape, order := order, ews := 1,
    dataType := dataType }

end ConstantShapeHelper

namespace NDArrayFactory

/-- Modelled from the spec: `NDArrayFactory::empty_(dataType)`, the empty array: no
buffer, no axes, the empty flag set. -/
def empty_ (dataType : DataType) : NDArray :=
  { shape := [], strides := [], order := 'c', ews := 1, dataType := dataType, isEmpty := true,
    buffer := nullptr }

end NDArrayFactory

namespace shape

/-- Modelled from the spec: `shape::subArrayOffset(maxIdx, maxShapeInfo, minShapeInfo)`:
the multi-index of the destination index, each axis index reduced modulo the
(right-aligned) source extent, put through the offset formula with the source strides. -/
def subArrayOffset (maxIdx : Int) (maxShapeInfo minShapeInfo : ShapeInfo) : Int :=
  let maxIdxs := ind2subC maxShapeInfo.shape maxIdx
  let aligned := maxIdxs.drop (maxShapeInfo.shape.length - minShapeInfo.shape.length)
  let minIdxs :=
    List.zipWith (fun (i : Int) (d : Nat) => Int.tmod i (d : Int)) aligned minShapeInfo.shape
  getOffset 0 minShapeInfo.strides minIdxs

end shape

namespace ShapeUtils

/-- Modelled from the spec: `ShapeUtils::evalTileShapeInfo(arr, reps)`: the extents are
the element-wise product of the source extents and `reps`, both right-aligned (the
shorter one padded with ones on the left); ordering and data type are the source's,
the strides the default layout. -/
def evalTileShapeInfo (arr : ShapeInfo) (reps : List Int) : ShapeInfo :=
  let rankOld := arr.shape.length
  let dim := reps.length
  let shapePadded : List Nat := List.replicate (dim - rankOld) 1 ++ arr.shape
  let repsPadded : List Int := List.replicate (rankOld - dim) 1 ++ reps
  let newShape :=
    List.zipWith (fun (s : Nat) (r : Int) => ((s : Int) * r).toNat) shapePadded repsPadded
  { shape := newShape, strides := shape.calcStrides arr.order newShape, order := arr.order,
    ews := 1, dataType := arr.dataType }

/-- Modelled from the spec: `ShapeUtils::evalRepeatShape(dimension, repeats, arr)`: the
extent of `dimension` is multiplied by the repeat count `repeats[0]`, every other extent
is the source's. -/
def evalRepeatShape (dimension : Nat) (repeats : List Nat) (arr : ShapeInfo) : List Nat :=
  arr.shape.modify (fun (d : Nat) => d * repeats.getD 0 1) dimension

end ShapeUtils

/-- The pack returned by the TAD helper: the descriptor of one tad and the table of
tad offsets. -/
structure TadPack where
  primaryShapeInfo : ShapeInfo
  primaryOffsets : List Int
  deriving DecidableEq, Repr

/-- `TadPack::numberOfTads()`. -/
def TadPack.numberOfTads (pack : TadPack) : Nat := pack.primaryOffsets.length

namespace ConstantTadHelper

/-- The entries of a per-axis list (extents or strides) whose axis, counted from `k`,
is one of `dimensions`. -/
def keepAxes {β : Type} (dimensions : List Nat) : Nat → List β → List β
  | _, [] => []
  | k, x :: xs =>
    if k ∈ dimensions then x :: keepAxes dimensions (k + 1) xs
    else keepAxes dimensions (k + 1) xs

/-- The entries of a per-axis list whose axis, counted from `k`, is none of
`dimensions`. -/
def dropAxes {β : Type} (dimensions : List Nat) : Nat → List β → List β
  | _, [] => []
  | k, x :: xs =>
    if k ∈ dimensions then dropAxes dimensions (k + 1) xs
    else x :: dropAxes dimensions (k + 1) xs

/-- Modelled from the spec: `ConstantTadHelper::tadForDimensions(shapeInfo, dimensions)`:
the tad keeps the extents and strides of the axes in `dimensions`, and there is one
offset per multi-index of the remaining axes, enumerated in row-major order. -/
def tadForDimensions (shapeInfo : ShapeInfo) (dimensions : List Nat) : TadPack :=
  let outerShape := dropAxes dimensions 0 shapeInfo.shape
  let outerStrides := dropAxes dimensions 0 shapeInfo.strides
  let tadShape := keepAxes dimensions 0 shapeInfo.shape
  let tadStrides := keepAxes dimensions 0 shapeInfo.strides
  { primaryShapeInfo :=
      { shape := tadShape, strides := tadStrides, order := shapeInfo.order,
        ews := if tadStrides = shape.calcStrides shapeInfo.order tadShape then 1 else 0,
        dataType := shapeInfo.dataType }
    primaryOffsets := (List.range (shape.prodLong outerShape)).map
      (fun (t : Nat) => shape.getOffset 0 outerStrides (shape.ind2subC outerShape t)) }

end ConstantTadHelper

/-- What the broadcast kernel takes for tables it is not passed (a null pointer), which
neither the specification nor the sources at hand state: `x` gives the tables of the
array `x` from its descriptor and the axes; `z` gives those of the destination from the
descriptors of `x` and of the destination, the axes and the tables of `x`. -/
structure AbsentTad where
  x : ShapeInfo → List Nat → TadPack
  z : ShapeInfo → ShapeInfo → List Nat → TadPack → TadPack

/-! ## Executor -/

/-- The kernels the executor dispatches to. -/
inductive Kernel where
  /-- The kernel `functions::reduce3::Reduce3<X, Z>::execScalar`. -/
  | Reduce3_execScalar
  /-- The kernels `functions::reduce3::Reduce3<X, Z>::exec`. -/
  | Reduce3_exec
  /-- The kernel `functions::reduce3::Reduce3<X, Z>::execAll`. -/
  | Reduce3_execAll
  /-- The kernel `functions::broadcast::Broadcast<X, Y, Z>::exec`. -/
  | Broadcast_exec
  /-- The kernel `functions::broadcast::BroadcastBool<X, Z>::exec`. -/
  | BroadcastBool_exec
  /-- The kernel `functions::pairwise_transforms::PairWiseTransform<X, Y, Z>::exec`. -/
  | PairWiseTransform_exec
  /-- The kernel `functions::pairwise_transforms::PairWiseBoolTransform<X, Z>::exec`. -/
  | PairWiseBoolTransform_exec
  /-- The kernel `functions::reduce::ReduceFloatFunction<X, Z>::exec`. -/
  | ReduceFloatFunction_exec
  /-- The kernel `functions::reduce::ReduceFloatFunction<X, Z>::execScalar`. -/
  | ReduceFloatFunction_execScalar
  /-- The kernel `functions::reduce::ReduceBoolFunction<X, Z>::exec`. -/
  | ReduceBoolFunction_exec
  /-- The kernel `functions::reduce::ReduceBoolFunction<X, Z>::execScalar`. -/
  | ReduceBoolFunction_execScalar
  /-- The kernel `functions::reduce::ReduceLongFunction<X, Z>::exec`. -/
  | ReduceLongFunction_exec
  /-- The kernel `functions::reduce::ReduceLongFunction<X, Z>::execScalar`. -/
  | ReduceLongFunction_execScalar
  /-- The kernels `functions::scalar::ScalarTransform<X, Y, Z>::transform`. -/
  | ScalarTransform_transform
  /-- The kernels `functions::scalar::ScalarBoolTransform<X, Z>::transform`. -/
  | ScalarBoolTransform_transform
  /-- The kernels `functions::summarystats::SummaryStatsReduce<X, Z>::exec`. -/
  | SummaryStatsReduce_exec
  /-- The kernel `functions::summarystats::SummaryStatsReduce<X, Z>::execScalar`. -/
  | SummaryStatsReduce_execScalar
  /-- The kernel `functions::transform::TransformFloat<X, Z>::exec`. -/
  | TransformFloat_exec
  /-- The kernel `functions::transform::TransformBool<X, Z>::exec`. -/
  | TransformBool_exec
  /-- The kernel `functions::transform::TransformStrict<X>::exec`. -/
  | TransformStrict_exec
  /-- The kernels `functions::random::RandomFunction<X>::execTransform`. -/
  | RandomFunction_execTransform
  /-- The kernel `functions::transform::TransformAny<X, Z>::exec`. -/
  | TransformAny_exec
  /-- The kernel `functions::transform::TransformSame<X>::exec`. -/
  | TransformSame_exec
  /-- The kernel `functions::indexreduce::IndexReduce<X>::execScalar`. -/
  | IndexReduce_execScalar
  /-- The kernel `functions::indexreduce::IndexReduce<X>::exec`. -/
  | IndexReduce_exec
  /-- The kernel `functions::reduce::ReduceSameFunction<X>::exec`. -/
  | ReduceSameFunction_exec
  /-- The kernel `functions::reduce::ReduceSameFunction<X>::execScalar`. -/
  | ReduceSameFunction_execScalar
  deriving DecidableEq, Repr

/-- The opcodes `nd4j::broadcast::Ops` that `NDArray.cpp` names. -/
inductive broadcast.Ops where
  | Add | Subtract | Multiply | Divide | ReverseDivide | FloorDiv | FloorMod
  deriving DecidableEq, Repr

/-- The floor division and the floor remainder of an element type, which the opcodes
`FloorDiv` and `FloorMod` name. -/
class FloorOps (α : Type) where
  /-- The floor of the quotient. -/
  floorDiv : α → α → α
  /-- The remainder of the floor division. -/
  floorMod : α → α → α

instance : FloorOps Int := ⟨Int.fdiv, Int.fmod⟩

/-- The operation an opcode of `nd4j::broadcast::Ops` names, on the element type. -/
def broadcast.applyOp {α : Type} [Add α] [Sub α] [Mul α] [Div α] [FloorOps α] :
    broadcast.Ops → α → α → α
  | .Add, x, y => x + y
  | .Subtract, x, y => x - y
  | .Multiply, x, y => x * y
  | .Divide, x, y => x / y
  | .ReverseDivide, x, y => y / x
  | .FloorDiv, x, y => FloorOps.floorDiv x y
  | .FloorMod, x, y => FloorOps.floorMod x y

/-- What the executor works on: the host memory and the log of the kernels invoked. -/
abbrev Host (α : Type) : Type := Memory α × List Kernel

namespace functions.broadcast

/-- The offset of the element `f` of a tad: its row-major multi-index in the tad shape
put through the offset formula with the tad strides. -/
def tadElementOffset (tad : ShapeInfo) (f : Int) : Int :=
  shape.getOffset 0 tad.strides (shape.ind2subC tad.shape f)

/-- Modelled from the spec: the kernel `functions::broadcast::Broadcast<X, Y, Z>::exec`
(`loops/broadcasting.h` is not part of the sources at hand).  The array `x` is
decomposed into its tads along `dimension` by the tables `tadX`, the destination `z` by
the tables `tadZ`; the smaller operand `y` is virtually repeated: the element `f` of the
tad `t` of `z` receives the operation applied to the element `f` of the tad `t` of `x`
and the element `f` of `y`.  The tables are optional (`none` is a null pointer); what
the kernel takes for tables it is not passed is the parameter `absentTad`. -/
def exec {α : Type} [Add α] [Sub α] [Mul α] [Div α] [FloorOps α] (absentTad : AbsentTad)
    (opNum : broadcast.Ops) (m : Memory α)
    (x y z : NDArray) (dimension : List Nat) (tadX tadZ : Option TadPack) : Memory α :=
  let packX := tadX.getD (absentTad.x x.toShapeInfo dimension)
  let packZ := tadZ.getD (absentTad.z x.toShapeInfo z.toShapeInfo dimension packX)
  let tadLength := shape.prodLong packX.primaryShapeInfo.shape
  (List.range packX.numberOfTads).foldl (fun s (t : Nat) =>
    (List.range tadLength).foldl (fun s₁ (f : Nat) =>
      s₁.write z.buffer
        (packZ.primaryOffsets.getD t 0 + tadElementOffset packZ.primaryShapeInfo f)
        (broadcast.applyOp opNum
          (s₁.read x.buffer
            (packX.primaryOffsets.getD t 0 + tadElementOffset packX.primaryShapeInfo f))
          (s₁.read y.buffer (y.getOffset f)))) s) m

end functions.broadcast

namespace NativeOpExecutioner

section Dispatch

variable {α : Type}

/-- A kernel invocation: the body of the kernel acts on the memory and the name of the
kernel enters the log. -/
def invoke (name : Kernel) (kernel : Memory α → Memory α) (s : Host α) : Host α :=
  (kernel s.1, s.2 ++ [name])

/-- A selector statement in an entry point of return type `void`: the state the selected
body leaves, or the exception of the selector, thrown before anything has run. -/
def runSelector (s : Host α) (selected : Except Exception (Host α)) : Outcome (Host α) Unit :=
  match selected with
  | .ok s₁ => .ret s₁ ()
  | .error ex => .raise s ex

/-- `NativeOpExecutioner::execBroadcast`, in the build without `__ND4J_EXPERIMENTAL__`.
The tables are handed to the kernel as they come (`none` is a null pointer);
`absentTad` is the parameter of the kernel. -/
def execBroadcast [Add α] [Sub α] [Mul α] [Div α] [FloorOps α] (absentTad : AbsentTad)
    (opNum : broadcast.Ops) (s : Host α)
    (x y z : NDArray) (dimension : List Nat) (tadOnlyShapeInfo tadOnlyShapeInfoZ : Option TadPack) :
    Outcome (Host α) Unit :=
  let xType := x.dataType
  runSelector s (BUILD_SINGLE_SELECTOR_THRICE xType LIBND4J_TYPES
    (invoke .Broadcast_exec
      (fun m => functions.broadcast.exec absentTad opNum m x y z dimension tadOnlyShapeInfo
        tadOnlyShapeInfoZ) s))

/-- `NativeOpExecutioner::execBroadcastBool`; the kernels other than the numeric
broadcast are external, and an entry point takes the body of the one it dispatches to
as `kernel`, and the tags read from the shape descriptors as `xType`, `yType`, `zType`. -/
def execBroadcastBool (kernel : Memory α → Memory α) (s : Host α) (xType zType : DataType) :
    Outcome (Host α) Unit :=
  runSelector s (BUILD_DOUBLE_SELECTOR xType zType LIBND4J_TYPES BOOL_TYPES
    (invoke .BroadcastBool_exec kernel s))

/-- `NativeOpExecutioner::execPairwiseTransform`, in the build without
`__ND4J_EXPERIMENTAL__`. -/
def execPairwiseTransform (kernel : Memory α → Memory α) (s : Host α)
    (xType yType zType : DataType) : Outcome (Host α) Unit :=
  runSelector s (BUILD_SINGLE_SELECTOR_THRICE xType LIBND4J_TYPES
    (invoke .PairWiseTransform_exec kernel s))

/-- `NativeOpExecutioner::execPairwiseBoolTransform`. -/
def execPairwiseBoolTransform (kernel : Memory α → Memory α) (s : Host α)
    (xType zType : DataType) : Outcome (Host α) Unit :=
  runSelector s (BUILD_DOUBLE_SELECTOR xType zType LIBND4J_TYPES BOOL_TYPES
    (invoke .PairWiseBoolTransform_exec kernel s))

/-- `NativeOpExecutioner::execReduceFloat`. -/
def execReduceFloat (kernel : Memory α → Memory α) (s : Host α) (xType zType : DataType) :
    Outcome (Host α) Unit :=
  runSelector s (BUILD_DOUBLE_SELECTOR xType zType LIBND4J_TYPES FLOAT_TYPES
    (invoke .ReduceFloatFunction_exec kernel s))

/-- `NativeOpExecutioner::execReduceBool`. -/
def execReduceBool (kernel : Memory α → Memory α) (s : Host α) (xType zType : DataType) :
    Outcome (Host α) Unit :=
  runSelector s (BUILD_DOUBLE_SELECTOR xType zType LIBND4J_TYPES BOOL_TYPES
    (invoke .ReduceBoolFunction_exec kernel s))

/-- `NativeOpExecutioner::execReduceLong`. -/
def execReduceLong (kernel : Memory α → Memory α) (s : Host α) (xType zType : DataType) :
    Outcome (Host α) Unit :=
  runSelector s (BUILD_DOUBLE_SELECTOR xType zType LIBND4J_TYPES LONG_TYPES
    (invoke .ReduceLongFunction_exec kernel s))

/-- `NativeOpExecutioner::execReduceFloatScalar`. -/
def execReduceFloatScalar (kernel : Memory α → Memory α) (s : Host α)
    (xType zType : DataType) : Outcome (Host α) Unit :=
  runSelector s (BUILD_DOUBLE_SELECTOR xType zType LIBND4J_TYPES FLOAT_TYPES
    (invoke .ReduceFloatFunction_execScalar kernel s))

/-- `NativeOpExecutioner::execReduceBoolScalar`. -/
def execReduceBoolScalar (kernel : Memory α → Memory α) (s : Host α)
    (xType zType : DataType) : Outcome (Host α) Unit :=
  runSelector s (BUILD_DOUBLE_SELECTOR xType zType LIBND4J_TYPES BOOL_TYPES
    (invoke .ReduceBoolFunction_execScalar kernel s))

/-- `NativeOpExecutioner::execReduceLongScalar`. -/
def execReduceLongScalar (kernel : Memory α → Memory α) (s : Host α)
    (xType zType : DataType) : Outcome (Host α) Unit :=
  runSelector s (BUILD_DOUBLE_SELECTOR xType zType LIBND4J_TYPES LONG_TYPES
    (invoke .ReduceLongFunction_execScalar kernel s))

/-- `NativeOpExecutioner::execReduce3`, the overload without a dimension argument. -/
def execReduce3 (kernel : Memory α → Memory α) (s : Host α) (xType zType : DataType) :
    Outcome (Host α) Unit :=
  runSelector s (BUILD_DOUBLE_SELECTOR xType zType LIBND4J_TYPES FLOAT_TYPES
    (invoke .Reduce3_exec kernel s))

/-- `NativeOpExecutioner::execReduce3`, the overload with `dimension` and TAD tables. -/
def execReduce3Dimensional (kernel : Memory α → Memory α) (s : Host α)
    (xType zType : DataType) : Outcome (Host α) Unit :=
  runSelector s (BUILD_DOUBLE_SELECTOR xType zType LIBND4J_TYPES FLOAT_TYPES
    (invoke .Reduce3_exec kernel s))

/-- `NativeOpExecutioner::execReduce3All`. -/
def execReduce3All (kernel : Memory α → Memory α) (s : Host α) (xType zType : DataType) :
    Outcome (Host α) Unit :=
  runSelector s (BUILD_DOUBLE_SELECTOR xType zType LIBND4J_TYPES FLOAT_TYPES
    (invoke .Reduce3_execAll kernel s))

/-- `NativeOpExecutioner::execReduce3TAD`. -/
def execReduce3TAD (kernel : Memory α → Memory α) (s : Host α) (xType zType : DataType) :
    Outcome (Host α) Unit :=
  runSelector s (BUILD_DOUBLE_SELECTOR xType zType LIBND4J_TYPES FLOAT_TYPES
    (invoke .Reduce3_exec kernel s))

/-- `NativeOpExecutioner::execScalar`, the overload without a dimension argument, in the
build without `__ND4J_EXPERIMENTAL__`. -/
def execScalar (kernel : Memory α → Memory α) (s : Host α) (xType yType zType : DataType) :
    Outcome (Host α) Unit :=
  if xType ≠ yType ∨ xType ≠ zType then
    .raise s .datatype_exception
  else
    runSelector s (BUILD_SINGLE_SELECTOR_THRICE xType LIBND4J_TYPES
      (invoke .ScalarTransform_transform kernel s))

/-- `NativeOpExecutioner::execScalar`, the overload with `dimension` and TAD tables, in
the build without `__ND4J_EXPERIMENTAL__`. -/
def execScalarDimensional (kernel : Memory α → Memory α) (s : Host α)
    (xType yType zType : DataType) : Outcome (Host α) Unit :=
  if xType ≠ yType ∨ xType ≠ zType then
    .raise s .datatype_exception
  else
    runSelector s (BUILD_SINGLE_SELECTOR_THRICE xType LIBND4J_TYPES
      (invoke .ScalarTransform_transform kernel s))

/-- `NativeOpExecutioner::execScalarBool`, the overload without a dimension argument. -/
def execScalarBool (kernel : Memory α → Memory α) (s : Host α) (xType yType zType : DataType) :
    Outcome (Host α) Unit :=
  if xType ≠ yType then
    .raise s .datatype_exception
  else if zType ≠ .BOOL then
    .raise s .datatype_exception
  else
    runSelector s (BUILD_DOUBLE_SELECTOR xType zType LIBND4J_TYPES BOOL_TYPES
      (invoke .ScalarBoolTransform_transform kernel s))

/-- `NativeOpExecutioner::execScalarBool`, the overload with `dimension` and TAD tables. -/
def execScalarBoolDimensional (kernel : Memory α → Memory α) (s : Host α)
    (xType yType zType : DataType) : Outcome (Host α) Unit :=
  if xType ≠ yType then
    .raise s .datatype_exception
  else if zType ≠ .BOOL then
    .raise s .datatype_exception
  else
    runSelector s (BUILD_DOUBLE_SELECTOR xType zType LIBND4J_TYPES BOOL_TYPES
      (invoke .ScalarBoolTransform_transform kernel s))

/-- `NativeOpExecutioner::execSummaryStats`, the overload without a dimension argument. -/
def execSummaryStats (kernel : Memory α → Memory α) (s : Host α) (xType zType : DataType) :
    Outcome (Host α) Unit :=
  runSelector s (BUILD_DOUBLE_SELECTOR xType zType LIBND4J_TYPES FLOAT_TYPES
    (invoke .SummaryStatsReduce_exec kernel s))

/-- `NativeOpExecutioner::execSummaryStatsScalar`. -/
def execSummaryStatsScalar (kernel : Memory α → Memory α) (s : Host α)
    (xType zType : DataType) : Outcome (Host α) Unit :=
  runSelector s (BUILD_DOUBLE_SELECTOR xType zType LIBND4J_TYPES FLOAT_TYPES
    (invoke .SummaryStatsReduce_execScalar kernel s))

/-- `NativeOpExecutioner::execSummaryStats`, the overload with `dimension` and TAD
tables. -/
def execSummaryStatsDimensional (kernel : Memory α → Memory α) (s : Host α)
    (xType zType : DataType) : Outcome (Host α) Unit :=
  runSelector s (BUILD_DOUBLE_SELECTOR xType zType LIBND4J_TYPES FLOAT_TYPES
    (invoke .SummaryStatsReduce_exec kernel s))

/-- `NativeOpExecutioner::execTransformFloat`. -/
def execTransformFloat (kernel : Memory α → Memory α) (s : Host α) (xType zType : DataType) :
    Outcome (Host α) Unit :=
  runSelector s (BUILD_DOUBLE_SELECTOR xType zType LIBND4J_TYPES FLOAT_TYPES
    (invoke .TransformFloat_exec kernel s))

/-- `NativeOpExecutioner::execTransformBool`. -/
def execTransformBool (kernel : Memory α → Memory α) (s : Host α) (xType zType : DataType) :
    Outcome (Host α) Unit :=
  runSelector s (BUILD_DOUBLE_SELECTOR xType zType LIBND4J_TYPES BOOL_TYPES
    (invoke .TransformBool_exec kernel s))

/-- `NativeOpExecutioner::execTransformStrict`; the selector is given `xType` only. -/
def execTransformStrict (kernel : Memory α → Memory α) (s : Host α) (xType zType : DataType) :
    Outcome (Host α) Unit :=
  runSelector s (BUILD_SINGLE_SELECTOR xType FLOAT_TYPES
    (invoke .TransformStrict_exec kernel s))

/-- `NativeOpExecutioner::execRandom`, the overload without a source array. -/
def execRandom (kernel : Memory α → Memory α) (s : Host α) (zType : DataType) :
    Outcome (Host α) Unit :=
  runSelector s (BUILD_SINGLE_SELECTOR zType FLOAT_TYPES
    (invoke .RandomFunction_execTransform kernel s))

/-- `NativeOpExecutioner::execRandom`, the overload with one source array `hX`. -/
def execRandomX (kernel : Memory α → Memory α) (s : Host α) (zType : DataType) :
    Outcome (Host α) Unit :=
  runSelector s (BUILD_SINGLE_SELECTOR zType FLOAT_TYPES
    (invoke .RandomFunction_execTransform kernel s))

/-- `NativeOpExecutioner::execRandom`, the overload with two source arrays `hX` and
`hY`; the tag it calls `xType` is read from `hZShapeInfo`. -/
def execRandomXY (kernel : Memory α → Memory α) (s : Host α) (zType : DataType) :
    Outcome (Host α) Unit :=
  let xType := zType
  runSelector s (BUILD_SINGLE_SELECTOR xType FLOAT_TYPES
    (invoke .RandomFunction_execTransform kernel s))

/-- `NativeOpExecutioner::execIndexReduceScalar`. -/
def execIndexReduceScalar (kernel : Memory α → Memory α) (s : Host α) (xType : DataType) :
    Outcome (Host α) Unit :=
  runSelector s (BUILD_SINGLE_SELECTOR xType LIBND4J_TYPES
    (invoke .IndexReduce_execScalar kernel s))

/-- `NativeOpExecutioner::execIndexReduce`. -/
def execIndexReduce (kernel : Memory α → Memory α) (s : Host α) (xType : DataType) :
    Outcome (Host α) Unit :=
  runSelector s (BUILD_SINGLE_SELECTOR xType LIBND4J_TYPES
    (invoke .IndexReduce_exec kernel s))

/-- `NativeOpExecutioner::execReduceSame`; the selector is given `xType` only. -/
def execReduceSame (kernel : Memory α → Memory α) (s : Host α) (xType zType : DataType) :
    Outcome (Host α) Unit :=
  runSelector s (BUILD_SINGLE_SELECTOR xType LIBND4J_TYPES
    (invoke .ReduceSameFunction_exec kernel s))

/-- `NativeOpExecutioner::execReduceSameScalar`. -/
def execReduceSameScalar (kernel : Memory α → Memory α) (s : Host α) (xType : DataType) :
    Outcome (Host α) Unit :=
  runSelector s (BUILD_SINGLE_SELECTOR xType LIBND4J_TYPES
    (invoke .ReduceSameFunction_execScalar kernel s))

/-- `NativeOpExecutioner::execReduce3Scalar` for an arbitrary opcode, the body of the
kernel being the parameter `kernel`. -/
def execReduce3ScalarKernel (kernel : Memory α → Memory α) (s : Host α)
    (xType zType : DataType) : Outcome (Host α) Unit :=
  runSelector s (BUILD_DOUBLE_SELECTOR xType zType LIBND4J_TYPES FLOAT_TYPES
    (invoke .Reduce3_execScalar kernel s))

/-- `NativeOpExecutioner::execTransformAny`. -/
def execTransformAny (kernel : Memory α → Memory α) (s : Host α) (xType zType : DataType) :
    Outcome (Host α) Unit :=
  runSelector s (BUILD_DOUBLE_SELECTOR xType zType LIBND4J_TYPES LIBND4J_TYPES
    (invoke .TransformAny_exec kernel s))

/-- `NativeOpExecutioner::execTransformSame`; the selector is given `xType` only. -/
def execTransformSame (kernel : Memory α → Memory α) (s : Host α) (xType zType : DataType) :
    Outcome (Host α) Unit :=
  runSelector s (BUILD_SINGLE_SELECTOR xType LIBND4J_TYPES
    (invoke .TransformSame_exec kernel s))

end Dispatch

/-- Modelled from the spec: the `reduce3::EqualsWithEps` kernel, the count of the
element pairs (taken at equal logical indices) that differ by more than `eps`. -/
def EqualsWithEps (m : Memory Int) (x y : NDArray) (eps : ℚ) : Nat :=
  ((List.range x.lengthOf).filter (fun (e : Nat) =>
    decide (|((m.read x.buffer (x.getOffset e) : Int) : ℚ)
      - ((m.read y.buffer (y.getOffset e) : Int) : ℚ)| > eps))).length

/-- `NativeOpExecutioner::execReduce3Scalar` at `opNum = reduce3::EqualsWithEps`: the
selector over `(xType, zType)` in `LIBND4J_TYPES × FLOAT_TYPES`, then the kernel; the
state is the log of kernels invoked, the value is what the kernel leaves in `hZ`. -/
def execReduce3Scalar (log : List Kernel) (m : Memory Int) (x y : NDArray) (eps : ℚ)
    (zType : DataType) : Outcome (List Kernel) Nat :=
  let xType := x.dataType
  if xType ∈ LIBND4J_TYPES ∧ zType ∈ FLOAT_TYPES then
    .ret (log ++ [.Reduce3_execScalar]) (EqualsWithEps m x y eps)
  else
    .raise log .runtime_error

end NativeOpExecutioner

namespace NDArray

variable {α : Type}

/-- `bufferWithOffset(offset)`. -/
def bufferWithOffset (a : NDArray) (offset : Int) : Pointer :=
  ⟨a.buffer.block, a.buffer.offset + offset⟩

/-- `NDArray* NDArray::dup(const char newOrder)`.  A string array is copied element
by element into the array `NDArrayFactory::string_` builds; both branches leave the
logical elements of the source in a fresh buffer laid out in `order`. -/
def dup (m : Memory α) (a : NDArray) (newOrder : Char) : Outcome (Memory α) NDArray :=
  if a.isEmpty then
    .ret m (NDArrayFactory.empty_ a.dataType)
  else
    let order := if newOrder = 'a' then a.order else newOrder
    if a.dataType = .UTF8 then
      let strings : Nat → α := fun (e : Nat) => m.read a.buffer (a.getOffset e)
      let (buffer, m₁) := m.allocate
      let result : NDArray :=
        { toShapeInfo := ConstantShapeHelper.createShapeInfo a.dataType order a.shape,
          buffer := buffer }
      .ret ((List.range a.lengthOf).foldl
        (fun s (e : Nat) => s.write buffer (result.getOffset e) (strings e)) m₁)
        result
    else
      let outShapeInfo := ConstantShapeHelper.createShapeInfo a.dataType order a.shape
      let (outBuffer, m₁) := m.allocate
      let result : NDArray := { toShapeInfo := outShapeInfo, buffer := outBuffer }
      .ret (result.assign m₁ a) result

/-- `bool NDArray::equalsTo(const NDArray* other, double eps) const`, on integer
cells; the state of the outcome is the log of the kernels invoked. -/
def equalsTo (m : Memory Int) (a other : NDArray) (eps : ℚ) : Outcome (List Kernel) Bool :=
  let reduce : Outcome (List Kernel) Bool :=
    let r := NativeOpExecutioner.execReduce3Scalar [] m a other eps .FLOAT32
    match r.value with
    | .ok tmp => if tmp > 0 then .ret r.state false else .ret r.state true
    | .error ex => .raise r.state ex
  if a.dataType ≠ other.dataType ∨ a.lengthOf ≠ other.lengthOf then
    .ret [] false
  else if (a.rankOf = 1 ∧ other.rankOf = 2) ∨ (a.rankOf = 2 ∧ other.rankOf = 1) then
    reduce
  else if !shape.equalsSoft a.shape other.shape then
    .ret [] false
  else
    reduce

/-- `NDArray* NDArray::tensorAlongDimension(Nd4jLong index, const std::vector<int>& dimensions) const`.
The helper `shape::checkDimensions(rankOf(), copy)`, which is not part of the sources at
hand, is the parameter `checkDimensions`: it throws, or leaves the checked list of axes
in `copy`.  The read `packX.primaryOffsets()[index]` at a negative `index` lies before
the offset table; what such a read yields is the parameter `beforeTable`. -/
def tensorAlongDimension (checkDimensions : Nat → List Nat → Except Exception (List Nat))
    (beforeTable : Int → Int) (a : NDArray) (index : Int) (dimensions : List Nat) :
    Except Exception NDArray :=
  match checkDimensions a.rankOf dimensions with
  | .error ex => .error ex
  | .ok copy =>
    let packX := ConstantTadHelper.tadForDimensions a.toShapeInfo copy
    let numTads := packX.numberOfTads
    if index ≥ (numTads : Int) then
      .error .runtime_error
    else
      let offset :=
        if index < 0 then beforeTable index else packX.primaryOffsets.getD index.toNat 0
      .ok { toShapeInfo := packX.primaryShapeInfo
            buffer := a.bufferWithOffset offset
            isView := true
            isBuffAlloc := false }

/-- Modelled from the spec: `NDArray::tensorsAlongDimension(dimensions)`, the number
of tads. -/
def tensorsAlongDimension (a : NDArray) (dimensions : List Nat) : Nat :=
  (ConstantTadHelper.tadForDimensions a.toShapeInfo dimensions).numberOfTads

end NDArray

/-! ## Row and column vector methods -/

namespace NDArray

variable {α : Type}

/-- Modelled from the spec: `isB()`, the array is boolean-typed. -/
def isB (a : NDArray) : Bool := decide (a.dataType = .BOOL)

/-- Modelled from the spec: `isR()`, the array is of a floating-point kind. -/
def isR (a : NDArray) : Bool := decide (a.dataType ∈ FLOAT_TYPES)

/-- Modelled from the spec: `rows()`, the row count of a matrix, its extent along
axis 0. -/
def rows (a : NDArray) : Nat := a.sizeAt 0

/-- Modelled from the spec: `columns()`, the column count of a matrix, its extent along
axis 1. -/
def columns (a : NDArray) : Nat := a.sizeAt 1

/-- Modelled from the spec: `isRowVector()`, "an exact row-vector": a matrix of one
row. -/
def isRowVector (a : NDArray) : Bool := decide (a.rankOf = 2 ∧ a.sizeAt 0 = 1)

/-- Modelled from the spec: `isColumnVector()`, "an exact column-vector": a matrix of
one column. -/
def isColumnVector (a : NDArray) : Bool := decide (a.rankOf = 2 ∧ a.sizeAt 1 = 1)

section VectorOps

variable [Add α] [Sub α] [Mul α] [Div α] [FloorOps α]

/-- `void NDArray::addRowVector(const NDArray *row, NDArray *target) const`.  The
helper `DataTypeUtils::pickPairwiseResultType`, which is not part of the sources at
hand, is the parameter `pickPairwiseResultType`; `absentTad` is the parameter of the
broadcast kernel, to which the row and column vector methods pass no tables for the
target. -/
def addRowVector (pickPairwiseResultType : DataType → DataType → DataType)
    (absentTad : AbsentTad) (m : Memory α)
    (a row target : NDArray) : Outcome (Host α) Unit :=
  if a.isS then
    .raise (m, []) .runtime_error
  else if a.rankOf ≠ 2 ∨ target.rankOf ≠ 2 ∨ a.rows ≠ target.rows
      ∨ a.columns ≠ target.columns ∨ !row.isRowVector ∨ a.columns ≠ row.lengthOf then
    .raise (m, []) .invalid_argument
  else if target.dataType ≠ pickPairwiseResultType a.dataType row.dataType
      ∧ !(a.isR && row.isR && target.isR) then
    .raise (m, []) .invalid_argument
  else
    let dimension : Nat := 1
    let packX := ConstantTadHelper.tadForDimensions a.toShapeInfo [dimension]
    NativeOpExecutioner.execBroadcast absentTad .Add (m, []) a row target [dimension]
      (some packX) none

/-- `void NDArray::subRowVector(const NDArray *row, NDArray * target) const`. -/
def subRowVector (pickPairwiseResultType : DataType → DataType → DataType)
    (absentTad : AbsentTad) (m : Memory α)
    (a row target : NDArray) : Outcome (Host α) Unit :=
  if a.isS then
    .raise (m, []) .runtime_error
  else if a.rankOf ≠ 2 ∨ target.rankOf ≠ 2 ∨ a.rows ≠ target.rows
      ∨ a.columns ≠ target.columns ∨ !row.isRowVector ∨ a.columns ≠ row.columns then
    .raise (m, []) .invalid_argument
  else if target.dataType ≠ pickPairwiseResultType a.dataType row.dataType then
    .raise (m, []) .invalid_argument
  else
    let dimension : Nat := 1
    let packX := ConstantTadHelper.tadForDimensions a.toShapeInfo [dimension]
    NativeOpExecutioner.execBroadcast absentTad .Subtract (m, []) a row target [dimension]
      (some packX) none

/-- `void NDArray::mulRowVector(const NDArray *row, NDArray *target) const`. -/
def mulRowVector (pickPairwiseResultType : DataType → DataType → DataType)
    (absentTad : AbsentTad) (m : Memory α)
    (a row target : NDArray) : Outcome (Host α) Unit :=
  if a.isS then
    .raise (m, []) .runtime_error
  else if a.rankOf ≠ 2 ∨ target.rankOf ≠ 2 ∨ a.rows ≠ target.rows
      ∨ a.columns ≠ target.columns ∨ !row.isRowVector ∨ a.columns ≠ row.columns then
    .raise (m, []) .invalid_argument
  else if target.dataType ≠ pickPairwiseResultType a.dataType row.dataType then
    .raise (m, []) .invalid_argument
  else
    let dimension : Nat := 1
    let packX := ConstantTadHelper.tadForDimensions a.toShapeInfo [dimension]
    NativeOpExecutioner.execBroadcast absentTad .Multiply (m, []) a row target [dimension]
      (some packX) none

/-- `void NDArray::divRowVector(const NDArray *row, NDArray *target) const`. -/
def divRowVector (pickPairwiseResultType : DataType → DataType → DataType)
    (absentTad : AbsentTad) (m : Memory α)
    (a row target : NDArray) : Outcome (Host α) Unit :=
  if a.isS then
    .raise (m, []) .runtime_error
  else if row.isB then
    .raise (m, []) .runtime_error
  else if a.rankOf ≠ 2 ∨ target.rankOf ≠ 2 ∨ a.rows ≠ target.rows
      ∨ a.columns ≠ target.columns ∨ !row.isRowVector ∨ a.columns ≠ row.columns then
    .raise (m, []) .invalid_argument
  else if target.dataType ≠ pickPairwiseResultType a.dataType row.dataType then
    .raise (m, []) .invalid_argument
  else
    let dimension : Nat := 1
    let packX := ConstantTadHelper.tadForDimensions a.toShapeInfo [dimension]
    NativeOpExecutioner.execBroadcast absentTad .Divide (m, []) a row target [dimension]
      (some packX) none

/-- `void NDArray::addColumnVector(const NDArray *column, NDArray *target) const`. -/
def addColumnVector (pickPairwiseResultType : DataType → DataType → DataType)
    (absentTad : AbsentTad) (m : Memory α)
    (a column target : NDArray) : Outcome (Host α) Unit :=
  if a.isS then
    .raise (m, []) .runtime_error
  else if a.rankOf ≠ 2 ∨ target.rankOf ≠ 2 ∨ a.rows ≠ target.rows
      ∨ a.columns ≠ target.columns ∨ !column.isColumnVector ∨ a.rows ≠ column.lengthOf then
    .raise (m, []) .invalid_argument
  else if target.dataType ≠ pickPairwiseResultType a.dataType column.dataType then
    .raise (m, []) .invalid_argument
  else
    let dimension : Nat := 0
    let packX := ConstantTadHelper.tadForDimensions a.toShapeInfo [dimension]
    NativeOpExecutioner.execBroadcast absentTad .Add (m, []) a column target [dimension]
      (some packX) none

end VectorOps

end NDArray

/-! ## Transforms, scalar operations, broadcasts and reductions

The kernels are external: each method takes the body of the kernel its executor call
dispatches to as `kernel`.  Extra parameters only feed the kernel and are not
represented; `registerSpecialUse` concerns the device mirror and is a no-op here.  A
list of axes is given non-negative. -/

/-- Modelled from the spec: `shape::shapeEquals`, "identical shape": the same extents. -/
def shape.shapeEquals (shape₁ shape₂ : List Nat) : Bool := decide (shape₁ = shape₂)

/-- Modelled from the spec: `ConstantShapeHelper::scalarShapeInfo(dataType)`, the
descriptor of a scalar: rank 0. -/
def ConstantShapeHelper.scalarShapeInfo (dataType : DataType) : ShapeInfo :=
  ConstantShapeHelper.createShapeInfo dataType 'c' []

namespace NDArray

variable {α : Type}

/-- Modelled from the spec: `isScalar()`, "rank 0 (scalar)". -/
def isScalar (a : NDArray) : Bool := decide (a.rankOf = 0)

/-- `void NDArray::applyTransform(nd4j::transform::FloatOps op, NDArray *target, ExtraArguments *extraParams)`. -/
def applyTransformFloat (kernel : Memory α → Memory α) (m : Memory α) (a : NDArray)
    (target : Option NDArray) : Outcome (Host α) Unit :=
  if a.isS then
    .raise (m, []) .runtime_error
  else
    let target := target.getD a
    if !target.isR then
      .raise (m, []) .runtime_error
    else
      NativeOpExecutioner.execTransformFloat kernel (m, []) a.dataType target.dataType

/-- `void NDArray::applyTransform(nd4j::transform::AnyOps op, NDArray *target, ExtraArguments *extraParams)`. -/
def applyTransformAny (kernel : Memory α → Memory α) (m : Memory α) (a : NDArray)
    (target : Option NDArray) : Outcome (Host α) Unit :=
  if a.isS then
    .raise (m, []) .runtime_error
  else
    let target := target.getD a
    NativeOpExecutioner.execTransformAny kernel (m, []) a.dataType target.dataType

/-- `void NDArray::applyTransform(nd4j::transform::SameOps op, NDArray *target, ExtraArguments *extraParams)`. -/
def applyTransformSame (kernel : Memory α → Memory α) (m : Memory α) (a : NDArray)
    (target : Option NDArray) : Outcome (Host α) Unit :=
  if a.isS then
    .raise (m, []) .runtime_error
  else
    let target := target.getD a
    if target.dataType ≠ a.dataType then
      .raise (m, []) .runtime_error
    else
      NativeOpExecutioner.execTransformSame kernel (m, []) a.dataType target.dataType

/-- `void NDArray::applyTransform(nd4j::transform::BoolOps op, NDArray *target, ExtraArguments *extraParams)`. -/
def applyTransformBool (kernel : Memory α → Memory α) (m : Memory α) (a : NDArray)
    (target : Option NDArray) : Outcome (Host α) Unit :=
  if a.isS then
    .raise (m, []) .runtime_error
  else
    let target := target.getD a
    if !target.isB then
      .raise (m, []) .runtime_error
    else
      NativeOpExecutioner.execTransformBool kernel (m, []) a.dataType target.dataType

/-- `void NDArray::applyTransform(nd4j::transform::StrictOps op, NDArray *target, ExtraArguments *extraParams)`. -/
def applyTransformStrict (kernel : Memory α → Memory α) (m : Memory α) (a : NDArray)
    (target : Option NDArray) : Outcome (Host α) Unit :=
  if a.isS then
    .raise (m, []) .runtime_error
  else
    let target := target.getD a
    if !a.isR ∨ !target.isR ∨ a.dataType ≠ target.dataType then
      .raise (m, []) .runtime_error
    else
      NativeOpExecutioner.execTransformStrict kernel (m, []) a.dataType target.dataType

/-- `void NDArray::applyScalarArr(nd4j::scalar::BoolOps op, const NDArray* scalar, NDArray *target, ExtraArguments *extraParams) const`. -/
def applyScalarArrBool (kernel : Memory α → Memory α) (m : Memory α) (a scalar : NDArray)
    (target : Option NDArray) : Outcome (Host α) Unit :=
  if a.isS then
    .raise (m, []) .runtime_error
  else
    match target with
    | none => .raise (m, []) .invalid_argument
    | some target =>
      if !target.isB then
        .raise (m, []) .invalid_argument
      else if a.dataType ≠ scalar.dataType then
        .raise (m, []) .invalid_argument
      else
        NativeOpExecutioner.execScalarBool kernel (m, []) a.dataType scalar.dataType
          target.dataType

/-- `void NDArray::applyScalarArr(nd4j::scalar::Ops op, const NDArray* scalar, NDArray* target, ExtraArguments *extraParams)`.
The helpers `DataTypeUtils::pickPairwiseResultType` and `NDArray::cast`, which are not
part of the sources at hand, are the parameters `pickPairwiseResultType` and `cast`;
`cast` may allocate and may throw. -/
def applyScalarArr (pickPairwiseResultType : DataType → DataType → DataType)
    (cast : NDArray → DataType → Memory α → Outcome (Memory α) NDArray)
    (kernel : Memory α → Memory α) (m : Memory α) (a scalar : NDArray)
    (target : Option NDArray) : Outcome (Host α) Unit :=
  if a.isS then
    .raise (m, []) .runtime_error
  else if !scalar.isScalar then
    .raise (m, []) .invalid_argument
  else
    let target := target.getD a
    if target.dataType ≠ pickPairwiseResultType a.dataType scalar.dataType
        ∧ ¬ (target.dataType = a.dataType ∨ target.dataType = scalar.dataType) then
      .raise (m, []) .invalid_argument
    else if a.dataType ≠ scalar.dataType then
      let tmp := cast scalar a.dataType m
      match tmp.value with
      | .ok tmp₁ =>
        NativeOpExecutioner.execScalar kernel (tmp.state, []) a.dataType tmp₁.dataType
          target.dataType
      | .error ex => .raise (tmp.state, []) ex
    else
      NativeOpExecutioner.execScalar kernel (m, []) a.dataType scalar.dataType target.dataType

/-- `void NDArray::applyBroadcast(nd4j::broadcast::Ops op, const std::vector<int>& dimensions, const NDArray* tadArray, NDArray* target, ExtraArguments* extraArgs)`;
`absentTad` is the parameter of the broadcast kernel (this method passes the tables of
the target). -/
def applyBroadcast [Add α] [Sub α] [Mul α] [Div α] [FloorOps α]
    (pickPairwiseResultType : DataType → DataType → DataType)
    (absentTad : AbsentTad) (op : broadcast.Ops)
    (m : Memory α) (a : NDArray) (dimensions : List Nat) (tadArray : NDArray)
    (target : Option NDArray) : Outcome (Host α) Unit :=
  if a.isS then
    .raise (m, []) .runtime_error
  else if ((op = .Divide ∨ op = .FloorDiv ∨ op = .FloorMod) ∧ tadArray.isB)
      ∨ (op = .ReverseDivide ∧ a.isB) then
    .raise (m, []) .runtime_error
  else if dimensions.length = 0 then
    .ret (m, []) ()
  else
    let result := target.getD a
    if result.dataType ≠ pickPairwiseResultType a.dataType tadArray.dataType then
      .raise (m, []) .invalid_argument
    else if !result.isSameShape a then
      .raise (m, []) .invalid_argument
    else
      let pack := ConstantTadHelper.tadForDimensions a.toShapeInfo dimensions
      let packZ := ConstantTadHelper.tadForDimensions result.toShapeInfo dimensions
      let tadLength := shape.prodLong pack.primaryShapeInfo.shape
      if tadLength ≠ tadArray.lengthOf then
        .raise (m, []) .runtime_error
      else
        NativeOpExecutioner.execBroadcast absentTad op (m, []) a tadArray result dimensions
          (some pack) (some packZ)

/-- `void NDArray::applyBroadcast(nd4j::broadcast::BoolOps op, const std::vector<int>& dimensions, const NDArray* tadArray, NDArray* target, ExtraArguments* extraArgs)`. -/
def applyBroadcastBool (kernel : Memory α → Memory α) (m : Memory α) (a : NDArray)
    (dimensions : List Nat) (tadArray : NDArray) (target : Option NDArray) :
    Outcome (Host α) Unit :=
  if a.isS then
    .raise (m, []) .runtime_error
  else if dimensions.length = 0 then
    .ret (m, []) ()
  else
    let result := target.getD a
    if result.dataType ≠ .BOOL then
      .raise (m, []) .invalid_argument
    else if !result.isSameShape a then
      .raise (m, []) .invalid_argument
    else if a.dataType ≠ tadArray.dataType then
      .raise (m, []) .invalid_argument
    else
      let pack := ConstantTadHelper.tadForDimensions a.toShapeInfo dimensions
      let tadLength := shape.prodLong pack.primaryShapeInfo.shape
      if tadLength ≠ tadArray.lengthOf then
        .raise (m, []) .runtime_error
      else
        NativeOpExecutioner.execBroadcastBool kernel (m, []) a.dataType result.dataType

/-- `void NDArray::applyIndexReduce(nd4j::indexreduce::Ops op, NDArray* target, const std::vector<int>& dimensions, const ExtraArguments *extraParams) const`. -/
def applyIndexReduce (kernel : Memory α → Memory α) (m : Memory α) (a target : NDArray)
    (dimensions : List Nat) : Outcome (Host α) Unit :=
  if a.isS then
    .raise (m, []) .runtime_error
  else if target.dataType ≠ .INT64 then
    .raise (m, []) .runtime_error
  else if target.isScalar then
    NativeOpExecutioner.execIndexReduceScalar kernel (m, []) a.dataType
  else
    let _pack := ConstantTadHelper.tadForDimensions a.toShapeInfo dimensions
    NativeOpExecutioner.execIndexReduce kernel (m, []) a.dataType

/-- `NDArray* NDArray::applyIndexReduce(nd4j::indexreduce::Ops op, const std::vector<int>& dimensions, const ExtraArguments* extraParams) const`.
The helper `ShapeUtils::evalReduceShapeInfo`, which is not part of the sources at hand
and may throw, is the parameter `evalReduceShapeInfo`, given the ordering, the axes, the
array, the data type of the result, `keepDims` and `supportOldShapes`. -/
def applyIndexReduceDims
    (evalReduceShapeInfo :
      Char → List Nat → NDArray → DataType → Bool → Bool → Except Exception ShapeInfo)
    (kernel : Memory α → Memory α) (m : Memory α) (a : NDArray) (dimensions : List Nat) :
    Outcome (Host α) NDArray :=
  if a.isS then
    .raise (m, []) .runtime_error
  else
    match evalReduceShapeInfo 'c' dimensions a .INT64 false false with
    | .error ex => .raise (m, []) ex
    | .ok newShape =>
      let (buffer, m₁) := m.allocate
      let result : NDArray := { toShapeInfo := newShape, buffer := buffer }
      let r :=
        if a.rankOf = dimensions.length then
          NativeOpExecutioner.execIndexReduceScalar kernel (m₁, []) a.dataType
        else
          NativeOpExecutioner.execIndexReduce kernel (m₁, []) a.dataType
      match r.value with
      | .ok _ => .ret r.state result
      | .error ex => .raise r.state ex

/-- `NDArray* NDArray::applyReduce3(nd4j::reduce3::Ops op, const NDArray* other, const ExtraArguments* extraParams) const`.
The helper `DataTypeUtils::pickFloatingType` is the parameter `pickFloatingType`. -/
def applyReduce3 (pickFloatingType : DataType → DataType) (kernel : Memory α → Memory α)
    (m : Memory α) (a other : NDArray) : Outcome (Host α) NDArray :=
  if a.isS then
    .raise (m, []) .runtime_error
  else if a.dataType ≠ other.dataType then
    .raise (m, []) .runtime_error
  else if !a.isSameShape other then
    .raise (m, []) .runtime_error
  else
    let newShape := ConstantShapeHelper.scalarShapeInfo (pickFloatingType a.dataType)
    let (buffer, m₁) := m.allocate
    let result : NDArray := { toShapeInfo := newShape, buffer := buffer }
    let r := NativeOpExecutioner.execReduce3ScalarKernel kernel (m₁, []) a.dataType
      result.dataType
    match r.value with
    | .ok _ => .ret r.state result
    | .error ex => .raise r.state ex

/-- `NDArray* NDArray::applyAllReduce3(nd4j::reduce3::Ops op, const NDArray *other, const std::vector<int>& dimensions, const ExtraArguments* extraParams) const`.
The helper `shape::checkDimensions`, which may throw, is the parameter
`checkDimensions`: it is given the rank and the axes and returns the axes it leaves. -/
def applyAllReduce3 (pickFloatingType : DataType → DataType)
    (checkDimensions : Nat → List Nat → Except Exception (List Nat))
    (kernel : Memory α → Memory α) (m : Memory α) (a other : NDArray) (dimensions : List Nat) :
    Outcome (Host α) NDArray :=
  if a.isS then
    .raise (m, []) .runtime_error
  else if a.dataType ≠ other.dataType then
    .raise (m, []) .runtime_error
  else
    match checkDimensions a.rankOf dimensions with
    | .error ex => .raise (m, []) ex
    | .ok copy₁ =>
      match checkDimensions other.rankOf copy₁ with
      | .error ex => .raise (m, []) ex
      | .ok copy =>
        let packX := ConstantTadHelper.tadForDimensions a.toShapeInfo copy
        let packY := ConstantTadHelper.tadForDimensions other.toShapeInfo copy
        if !shape.equalsSoft packX.primaryShapeInfo.shape packY.primaryShapeInfo.shape then
          .raise (m, []) .runtime_error
        else
          let newShape := ConstantShapeHelper.createShapeInfo (pickFloatingType a.dataType) 'c'
            [packX.numberOfTads, packY.numberOfTads]
          let (buffer, m₁) := m.allocate
          let result : NDArray := { toShapeInfo := newShape, buffer := buffer }
          let r := NativeOpExecutioner.execReduce3All kernel (m₁, []) a.dataType
            result.dataType
          match r.value with
          | .ok _ => .ret r.state result
          | .error ex => .raise r.state ex

/-- `NDArray* NDArray::applyReduce3(nd4j::reduce3::Ops op, const NDArray* other, const std::vector<int>& dimensions, const ExtraArguments* extraParams) const`. -/
def applyReduce3Dims (pickFloatingType : DataType → DataType)
    (checkDimensions : Nat → List Nat → Except Exception (List Nat))
    (evalReduceShapeInfo :
      Char → List Nat → NDArray → DataType → Bool → Bool → Except Exception ShapeInfo)
    (kernel : Memory α → Memory α) (m : Memory α) (a other : NDArray) (dimensions : List Nat) :
    Outcome (Host α) NDArray :=
  if a.isS then
    .raise (m, []) .runtime_error
  else if a.dataType ≠ other.dataType then
    .raise (m, []) .runtime_error
  else
    match checkDimensions a.rankOf dimensions with
    | .error ex => .raise (m, []) ex
    | .ok copy₁ =>
      match checkDimensions other.rankOf copy₁ with
      | .error ex => .raise (m, []) ex
      | .ok copy =>
        match evalReduceShapeInfo 'c' copy a (pickFloatingType a.dataType) false false with
        | .error ex => .raise (m, []) ex
        | .ok newShape =>
          let (buffer, m₁) := m.allocate
          let result : NDArray := { toShapeInfo := newShape, buffer := buffer }
          let r :=
            if a.rankOf = copy.length ∧ other.rankOf = copy.length then
              NativeOpExecutioner.execReduce3ScalarKernel kernel (m₁, []) a.dataType
                result.dataType
            else
              NativeOpExecutioner.execReduce3Dimensional kernel (m₁, []) a.dataType
                result.dataType
          match r.value with
          | .ok _ => .ret r.state result
          | .error ex => .raise r.state ex

/-- The check of the target shape that the four `reduceAlongDimension` overloads make
when `checkTargetShape` is set: `none` when it passes, the exception otherwise. -/
def reduceTargetShapeCheck
    (evalReduceShapeInfo :
      Char → List Nat → NDArray → DataType → Bool → Bool → Except Exception ShapeInfo)
    (a target : NDArray) (copy : List Nat) (keepDims supportOldShapes checkTargetShape : Bool) :
    Option Exception :=
  if checkTargetShape then
    match evalReduceShapeInfo target.order copy a a.dataType keepDims supportOldShapes with
    | .error ex => some ex
    | .ok newShape =>
      if !shape.shapeEquals newShape.shape target.shape then some .runtime_error else none
  else
    none

/-- `void NDArray::reduceAlongDimension(nd4j::reduce::FloatOps op, NDArray* target, const std::vector<int>& dimensions, const bool keepDims, const bool supportOldShapes, const bool checkTargetShape) const`. -/
def reduceAlongDimensionFloat
    (evalReduceShapeInfo :
      Char → List Nat → NDArray → DataType → Bool → Bool → Except Exception ShapeInfo)
    (kernel : Memory α → Memory α) (m : Memory α) (a : NDArray) (target : Option NDArray)
    (dimensions : List Nat) (keepDims supportOldShapes checkTargetShape : Bool) :
    Outcome (Host α) Unit :=
  if a.isS then
    .raise (m, []) .runtime_error
  else
    match target with
    | none => .raise (m, []) .invalid_argument
    | some target =>
      if !target.isR then
        .raise (m, []) .invalid_argument
      else
        let copy := dimensions
        match reduceTargetShapeCheck evalReduceShapeInfo a target copy keepDims
            supportOldShapes checkTargetShape with
        | some ex => .raise (m, []) ex
        | none =>
          if a.rankOf = copy.length ∨ copy.isEmpty then
            NativeOpExecutioner.execReduceFloatScalar kernel (m, []) a.dataType target.dataType
          else
            NativeOpExecutioner.execReduceFloat kernel (m, []) a.dataType target.dataType

/-- `void NDArray::reduceAlongDimension(nd4j::reduce::SameOps op, NDArray* target, const std::vector<int>& dimensions, const bool keepDims, const bool supportOldShapes, const bool checkTargetShape) const`. -/
def reduceAlongDimensionSame
    (evalReduceShapeInfo :
      Char → List Nat → NDArray → DataType → Bool → Bool → Except Exception ShapeInfo)
    (kernel : Memory α → Memory α) (m : Memory α) (a : NDArray) (target : Option NDArray)
    (dimensions : List Nat) (keepDims supportOldShapes checkTargetShape : Bool) :
    Outcome (Host α) Unit :=
  if a.isS then
    .raise (m, []) .runtime_error
  else
    match target with
    | none => .raise (m, []) .runtime_error
    | some target =>
      if target.dataType ≠ a.dataType then
        .raise (m, []) .runtime_error
      else
        let copy := dimensions
        match reduceTargetShapeCheck evalReduceShapeInfo a target copy keepDims
            supportOldShapes checkTargetShape with
        | some ex => .raise (m, []) ex
        | none =>
          if a.rankOf = copy.length ∨ copy.isEmpty then
            NativeOpExecutioner.execReduceSameScalar kernel (m, []) a.dataType
          else
            NativeOpExecutioner.execReduceSame kernel (m, []) a.dataType target.dataType

/-- `void NDArray::reduceAlongDimension(nd4j::reduce::BoolOps op, NDArray* target, const std::vector<int>& dimensions, const bool keepDims, const bool supportOldShapes, const bool checkTargetShape) const`. -/
def reduceAlongDimensionBool
    (evalReduceShapeInfo :
      Char → List Nat → NDArray → DataType → Bool → Bool → Except Exception ShapeInfo)
    (kernel : Memory α → Memory α) (m : Memory α) (a : NDArray) (target : Option NDArray)
    (dimensions : List Nat) (keepDims supportOldShapes checkTargetShape : Bool) :
    Outcome (Host α) Unit :=
  if a.isS then
    .raise (m, []) .runtime_error
  else
    match target with
    | none => .raise (m, []) .invalid_argument
    | some target =>
      if !target.isB then
        .raise (m, []) .invalid_argument
      else
        let copy := dimensions
        match reduceTargetShapeCheck evalReduceShapeInfo a target copy keepDims
            supportOldShapes checkTargetShape with
        | some ex => .raise (m, []) ex
        | none =>
          if a.rankOf = copy.length ∨ copy.isEmpty then
            NativeOpExecutioner.execReduceBoolScalar kernel (m, []) a.dataType target.dataType
          else
            NativeOpExecutioner.execReduceBool kernel (m, []) a.dataType target.dataType

/-- `void NDArray::reduceAlongDimension(nd4j::reduce::LongOps op, NDArray* target, const std::vector<int>& dimensions, const bool keepDims, const bool supportOldShapes, const bool checkTargetShape) const`. -/
def reduceAlongDimensionLong
    (evalReduceShapeInfo :
      Char → List Nat → NDArray → DataType → Bool → Bool → Except Exception ShapeInfo)
    (kernel : Memory α → Memory α) (m : Memory α) (a : NDArray) (target : Option NDArray)
    (dimensions : List Nat) (keepDims supportOldShapes checkTargetShape : Bool) :
    Outcome (Host α) Unit :=
  if a.isS then
    .raise (m, []) .runtime_error
  else
    match target with
    | none => .raise (m, []) .runtime_error
    | some target =>
      if target.dataType ≠ .INT64 then
        .raise (m, []) .runtime_error
      else
        let copy := dimensions
        match reduceTargetShapeCheck evalReduceShapeInfo a target copy keepDims
            supportOldShapes checkTargetShape with
        | some ex => .raise (m, []) ex
        | none =>
          if a.rankOf = copy.length ∨ copy.isEmpty then
            NativeOpExecutioner.execReduceLongScalar kernel (m, []) a.dataType target.dataType
          else
            NativeOpExecutioner.execReduceLong kernel (m, []) a.dataType target.dataType

section InPlaceVectorOps

variable [Add α] [Sub α] [Mul α] [Div α] [FloorOps α]

/-- `void NDArray::addiRowVector(const NDArray *row)`. -/
def addiRowVector (absentTad : AbsentTad)
    (m : Memory α) (a row : NDArray) : Outcome (Host α) Unit :=
  if a.isS then
    .raise (m, []) .runtime_error
  else if a.rankOf ≠ 2 ∨ !row.isRowVector ∨ a.columns ≠ row.lengthOf then
    .raise (m, []) .invalid_argument
  else
    let dimension : Nat := 1
    let packX := ConstantTadHelper.tadForDimensions a.toShapeInfo [dimension]
    NativeOpExecutioner.execBroadcast absentTad .Add (m, []) a row a [dimension]
      (some packX) none

/-- `void NDArray::addiColumnVector(const NDArray *column)`. -/
def addiColumnVector (absentTad : AbsentTad)
    (m : Memory α) (a column : NDArray) : Outcome (Host α) Unit :=
  if a.isS then
    .raise (m, []) .runtime_error
  else if a.rankOf ≠ 2 ∨ !column.isColumnVector ∨ a.rows ≠ column.lengthOf then
    .raise (m, []) .invalid_argument
  else
    let dimension : Nat := 0
    let packX := ConstantTadHelper.tadForDimensions a.toShapeInfo [dimension]
    NativeOpExecutioner.execBroadcast absentTad .Add (m, []) a column a [dimension]
      (some packX) none

/-- `void NDArray::muliColumnVector(const NDArray *column)`. -/
def muliColumnVector (absentTad : AbsentTad)
    (m : Memory α) (a column : NDArray) : Outcome (Host α) Unit :=
  if a.isS then
    .raise (m, []) .runtime_error
  else if a.rankOf ≠ 2 ∨ !column.isColumnVector ∨ a.rows ≠ column.lengthOf then
    .raise (m, []) .invalid_argument
  else
    let dimension : Nat := 0
    let packX := ConstantTadHelper.tadForDimensions a.toShapeInfo [dimension]
    NativeOpExecutioner.execBroadcast absentTad .Multiply (m, []) a column a [dimension]
      (some packX) none

end InPlaceVectorOps

end NDArray

/-! ## tile and repeat -/

/-- The conversion of an integer value to `int` (32 bits, two's complement). -/
def toInt32 (x : Int) : Int := (x + 2147483648) % 4294967296 - 2147483648

namespace NDArray

variable {α : Type}

/-- Modelled from the spec: the copy constructor `NDArray(const NDArray&)`, a deep copy
in a fresh buffer with the extents and ordering of the source. -/
def copy (m : Memory α) (a : NDArray) : NDArray × Memory α :=
  let (buffer, m₁) := m.allocate
  let result : NDArray :=
    { toShapeInfo := ConstantShapeHelper.createShapeInfo a.dataType a.order a.shape,
      buffer := buffer }
  (result, result.assign m₁ a)

/-- Modelled from the spec: `NDArray::reshapei(order, shape)` on a contiguous array:
the extents are replaced, the element count must not change. -/
def reshapei (a : NDArray) (order : Char) (shapeNew : List Nat) : Except Exception NDArray :=
  if shape.prodLong shapeNew ≠ a.lengthOf then
    .error .runtime_error
  else
    .ok { a with shape := shapeNew, strides := shape.calcStrides order shapeNew, order := order }

/-- `void NDArray::templatedAssign<T>(xBuffer, xOffset, yBuffer, yOffset) const`. -/
def templatedAssign (m : Memory α) (xBuffer : Pointer) (xOffset : Int) (yBuffer : Pointer)
    (yOffset : Int) : Memory α :=
  if xBuffer ≠ nullptr ∧ yBuffer ≠ nullptr then
    m.write xBuffer xOffset (m.read yBuffer yOffset)
  else
    m

/-- `NDArray NDArray::tile(const std::vector<Nd4jLong>& reps) const`; the accumulator
`product` is an `int`. -/
def tile (m : Memory α) (a : NDArray) (reps : List Int) : Outcome (Memory α) NDArray :=
  let dim : Int := reps.length
  let product : Int := reps.foldl (fun (product item : Int) => toInt32 (product * item)) 1
  if product = 0 then
    .raise m .runtime_error
  else
    let rankOld : Int := a.rankOf
    let diff : Int := rankOld - dim
    if product = 1 then
      let (result, m₁) := a.copy m
      if diff < 0 then
        let shapeNew : List Nat := (reps.take (-diff).toNat).map Int.toNat ++ result.shape
        match result.reshapei a.order shapeNew with
        | .ok reshaped => .ret m₁ reshaped
        | .error ex => .raise m₁ ex
      else
        .ret m₁ result
    else
      let newShapeInfo := ShapeUtils.evalTileShapeInfo a.toShapeInfo reps
      let (newBuff, m₁) := m.allocate
      let result : NDArray := { toShapeInfo := newShapeInfo, buffer := newBuff }
      let resultLen := result.lengthOf
      let xType := a.dataType
      let filled :=
        if result.order = 'c' then
          forEach (List.range resultLen) (fun (i : Nat) s =>
            let yOffset := shape.subArrayOffset i newShapeInfo a.toShapeInfo
            match BUILD_SINGLE_SELECTOR xType LIBND4J_TYPES
                (templatedAssign s newBuff i a.buffer yOffset) with
            | .ok s' => .ret s' ()
            | .error ex => .raise s ex) m₁
        else
          forEach (List.range resultLen) (fun (i : Nat) s =>
            let xOffset := result.getOffset i
            let yOffset := shape.subArrayOffset i newShapeInfo a.toShapeInfo
            match BUILD_SINGLE_SELECTOR xType LIBND4J_TYPES
                (templatedAssign s newBuff xOffset a.buffer yOffset) with
            | .ok s' => .ret s' ()
            | .error ex => .raise s ex) m₁
      match filled.value with
      | .ok _ => .ret filled.state result
      | .error ex => .raise filled.state ex

/-- `NDArray NDArray::e(const Nd4jLong i) const`; the scalar array it returns is
represented by the value it holds. -/
def eScalar (m : Memory α) (a : NDArray) (i : Int) : Except Exception α :=
  if i ≥ (a.lengthOf : Int) then
    .error .invalid_argument
  else
    BUILD_SINGLE_SELECTOR a.dataType LIBND4J_TYPES (m.read a.buffer (a.getOffset i))

/-- `void NDArray::p(const Nd4jLong i, const NDArray& scalar)`; the scalar array is
given by its data type and the value it holds. -/
def pScalar (m : Memory α) (a : NDArray) (i : Int) (scalarType : DataType) (scalar : α) :
    Outcome (Memory α) Unit :=
  if i ≥ (a.lengthOf : Int) then
    .raise m .invalid_argument
  else
    let rp := a.getOffset i
    match BUILD_SINGLE_SELECTOR scalarType LIBND4J_TYPES () with
    | .ok _ => templatedSetDyn m a.buffer rp scalarType scalar
    | .error ex => .raise m ex

/-- `NDArray* NDArray::repeat(int dimension, const std::vector<Nd4jLong>& repeats) const`,
for a non-negative `dimension`.  The outer loop counts with `int i` against the
`Nd4jLong` `numTads`; the two inner loops and `retIdx` are `Nd4jLong`, and their state is
the memory together with the counter `retIdx`.  `checkDimensions` and `beforeTable` are
the parameters of `tensorAlongDimension`. -/
def repeat_ (checkDimensions : Nat → List Nat → Except Exception (List Nat))
    (beforeTable : Int → Int) (m : Memory α) (a : NDArray) (dimension : Nat)
    (repeats : List Nat) : Outcome (Memory α) NDArray :=
  let outShape := ShapeUtils.evalRepeatShape dimension repeats a.toShapeInfo
  let rank := a.rankOf
  let newShape := (List.range rank).map (fun (i : Nat) => outShape.getD i 0)
  let (retBuffer, m₁) := m.allocate
  let ret : NDArray :=
    { toShapeInfo := ConstantShapeHelper.createShapeInfo a.dataType 'c' outShape,
      buffer := retBuffer }
  if a.lengthOf = 0 then
    .raise m₁ .division_by_zero
  else
    let repeatDelta := shape.prodLong newShape / a.lengthOf
    let numTads := a.tensorsAlongDimension [dimension]
    let filled := forInt numTads (fun (i : Nat) s =>
      match a.tensorAlongDimension checkDimensions beforeTable i [dimension],
        ret.tensorAlongDimension checkDimensions beforeTable i [dimension] with
      | .ok thisTensor, .ok retTensor =>
        let inner := forEach (List.range thisTensor.lengthOf)
          (fun (k : Nat) (st : Memory α × Int) =>
            match thisTensor.eScalar st.1 k with
            | .ok sv =>
              forEach (List.range repeatDelta) (fun (_ : Nat) (st' : Memory α × Int) =>
                let w := retTensor.pScalar st'.1 st'.2 thisTensor.dataType sv
                ⟨(w.state, st'.2 + 1), w.value⟩) st
            | .error ex => .raise st ex) (s, 0)
        ⟨inner.state.1, inner.value⟩
      | .error ex, _ => .raise s ex
      | .ok _, .error ex => .raise s ex) m₁
    match filled.value with
    | .ok _ => .ret filled.state ret
    | .error ex => .raise filled.state ex

end NDArray

/-! ## `repeat` into a given target -/

namespace ShapeUtils

/-- Modelled from the spec: `ShapeUtils::evalDimsToExclude(rank, dimensions)`: the axes
`0 .. rank - 1` that are not in `dimensions`, in increasing order. -/
def evalDimsToExclude (rank : Nat) (dimensions : List Nat) : List Nat :=
  (List.range rank).filter (fun (d : Nat) => decide (d ∉ dimensions))

/-- Modelled from the spec: `ShapeUtils::getNumOfSubArrs(shapeInfo, dimsToExclude)`: the
number of sub-arrays, the product of the extents of the axes in `dimsToExclude`. -/
def getNumOfSubArrs (shapeInfo : ShapeInfo) (dimsToExclude : List Nat) : Nat :=
  shape.prodLong (ConstantTadHelper.keepAxes dimsToExclude 0 shapeInfo.shape)

end ShapeUtils

namespace NDArray

variable {α : Type}

/-- Modelled from the spec: `NDArray::operator()(subArrIdx, dimsToExclude)`, the
sub-array number `subArrIdx`: a view that keeps the extents and strides of the axes
outside `dimsToExclude` and starts at the offset of the multi-index number `subArrIdx`,
in row-major order, of the axes in `dimsToExclude`. -/
def subArray (a : NDArray) (subArrIdx : Nat) (dimsToExclude : List Nat) : NDArray :=
  let outerShape := ConstantTadHelper.keepAxes dimsToExclude 0 a.shape
  let outerStrides := ConstantTadHelper.keepAxes dimsToExclude 0 a.strides
  let subShape := ConstantTadHelper.dropAxes dimsToExclude 0 a.shape
  let subStrides := ConstantTadHelper.dropAxes dimsToExclude 0 a.strides
  { shape := subShape, strides := subStrides, order := a.order,
    ews := if subStrides = shape.calcStrides a.order subShape then 1 else 0,
    dataType := a.dataType,
    buffer := a.bufferWithOffset
      (shape.getOffset 0 outerStrides (shape.ind2subC outerShape subArrIdx)),
    isView := true, isBuffAlloc := false }

/-- `T NDArray::e<T>(const Nd4jLong i) const` at a type `T` that need not be the element
type, given by its tag: the helper `templatedGet<X, T>` returns the cell converted to
`T`.  The conversion of a value from one kind to another, which the sources at hand do
not contain, is the parameter `convert`. -/
def eAs (convert : DataType → DataType → α → α) (T : DataType) (m : Memory α) (a : NDArray)
    (i : Int) : Except Exception α :=
  if i ≥ (a.lengthOf : Int) then
    .error .invalid_argument
  else
    let rp := a.getOffset i
    BUILD_SINGLE_SELECTOR a.dataType LIBND4J_TYPES
      (convert a.dataType T (templatedGet m a.buffer rp))

/-- `void NDArray::p<T>(const Nd4jLong i, const T value)` at a type `T` that need not be
the element type: the helper `templatedSet<X, T>` stores the value converted to the
element type. -/
def pAs (convert : DataType → DataType → α → α) (T : DataType) (m : Memory α) (a : NDArray)
    (i : Int) (value : α) : Outcome (Memory α) Unit :=
  if i ≥ (a.lengthOf : Int) then
    .raise m .invalid_argument
  else
    let rp := a.getOffset i
    match BUILD_SINGLE_SELECTOR a.dataType LIBND4J_TYPES
        (templatedSet m a.buffer rp (convert T a.dataType value)) with
    | .ok m' => .ret m' ()
    | .error ex => .raise m ex

/-- The body of the outer loop of `repeat(int dimension, NDArray& target)` after the two
sub-arrays are taken, at the type `T` of the branch (`double` when `isR()`, `Nd4jLong`
otherwise): `int tensorLength = thisTensor.lengthOf()` narrows the length, `int k` runs
against it, `int j` runs against the `Nd4jLong` `repeatDelta`, and `retIdx++` increments
an `int` before every store.  The state of the loops is the memory together with
`retIdx`. -/
def repeatIntoTensor (convert : DataType → DataType → α → α) (T : DataType) (repeatDelta : Nat)
    (thisTensor retTensor : NDArray) (s : Memory α) : Outcome (Memory α) Unit :=
  let tensorLength : Int := toInt32 thisTensor.lengthOf
  let inner := forEach (List.range tensorLength.toNat)
    (fun (k : Nat) (st : Memory α × Int) =>
      match thisTensor.eAs convert T st.1 k with
      | .ok sv =>
        forInt repeatDelta (fun (_ : Nat) (st' : Memory α × Int) =>
          if st'.2 = (INT_MAX : Int) then
            .raise st' .signed_overflow
          else
            let w := retTensor.pAs convert T st'.1 st'.2 sv
            ⟨(w.state, st'.2 + 1), w.value⟩) st
      | .error ex => .raise st ex) (s, 0)
  ⟨inner.state.1, inner.value⟩

/-- `void NDArray::repeat(int dimension, NDArray& target) const`, for a non-negative
`dimension`.  The outer loop counts with `int i` against the `Nd4jLong` `numTads`; the
division by an extent `0` is the exception `division_by_zero`. -/
def repeatInto (convert : DataType → DataType → α → α) (m : Memory α) (a : NDArray)
    (dimension : Nat) (target : NDArray) : Outcome (Memory α) Unit :=
  if a.rankOf ≠ target.rankOf then
    .raise m .invalid_argument
  else if a.sizeAt dimension = 0 then
    .raise m .division_by_zero
  else
    let repeatDelta := target.sizeAt dimension / a.sizeAt dimension
    if repeatDelta = 0 then
      .raise m .invalid_argument
    else
      let dimsToExclude := ShapeUtils.evalDimsToExclude a.rankOf [dimension]
      let numTads := ShapeUtils.getNumOfSubArrs a.toShapeInfo dimsToExclude
      forInt numTads (fun (i : Nat) s =>
        let thisTensor := a.subArray i dimsToExclude
        let retTensor := target.subArray i dimsToExclude
        if a.isR then
          repeatIntoTensor convert .DOUBLE repeatDelta thisTensor retTensor s
        else
          repeatIntoTensor convert .INT64 repeatDelta thisTensor retTensor s) m

end NDArray

/-! ## Row-major index arithmetic on natural numbers -/

namespace shape

/-- The row-major multi-index of a linear index, on natural numbers (`ind2subC` at a
non-negative index). -/
def unravel : List Nat → Nat → List Nat
  | [], _ => []
  | _ :: ds, n => n / prodLong ds :: unravel ds (n % prodLong ds)

/-- The row-major linear index of a multi-index. -/
def ravel : List Nat → List Nat → Nat
  | _ :: ds, i :: idx => i * prodLong ds + ravel ds idx
  | _, _ => 0

/-- The column-major linear index of a multi-index. -/
def ravelF : List Nat → List Nat → Nat
  | d :: ds, i :: idx => i + d * ravelF ds idx
  | _, _ => 0

/-- The buffer position that the default stride layout of `order` gives to the
logical index `n`. -/
def defaultPosition (order : Char) (shape : List Nat) (n : Nat) : Nat :=
  if order = 'c' then n else ravelF shape (unravel shape n)

/-- A destination multi-index brought back to the source: the axes are right-aligned
with the source extents and each index is reduced modulo its extent. -/
def alignedMod (idx : List Nat) (shape : List Nat) : List Nat :=
  List.zipWith (fun (i d : Nat) => i % d) (idx.drop (idx.length - shape.length)) shape

/-- A multi-index of natural numbers that lies within the extents. -/
def validNat (shape : List Nat) (idx : List Nat) : Prop :=
  List.Forall₂ (fun i d => i < d) idx shape

end shape

/-! ## The stores of `repeat` on one tad -/

namespace NDArray

/-- The stores the two inner loops of `repeat` make for one pair of tads: the
element `k` of the source tad goes to the elements `k * repeatDelta + j`,
`j < repeatDelta`, of the destination tad. -/
def repeatTad {α : Type} (repeatDelta : Nat) (thisTensor retTensor : NDArray) (s : Memory α) :
    Memory α :=
  (List.range thisTensor.lengthOf).foldl (fun s₁ (k : Nat) =>
    (List.range repeatDelta).foldl (fun s₂ (j : Nat) =>
      s₂.write retTensor.buffer (retTensor.getOffset ((k * repeatDelta + j : Nat) : Int))
        (s₁.read thisTensor.buffer (thisTensor.getOffset (k : Int)))) s₁) s

/-- The stores the two inner loops of `repeat(dimension, target)` make for one pair of
sub-arrays, `g` being the conversion of the value read into the type of the branch
and from there into the element type of the destination. -/
def repeatTadAs {α : Type} (g : α → α) (repeatDelta : Nat) (thisTensor retTensor : NDArray)
    (s : Memory α) : Memory α :=
  (List.range thisTensor.lengthOf).foldl (fun s₁ (k : Nat) =>
    (List.range repeatDelta).foldl (fun s₂ (j : Nat) =>
      s₂.write retTensor.buffer (retTensor.getOffset ((k * repeatDelta + j : Nat) : Int))
        (g (s₁.read thisTensor.buffer (thisTensor.getOffset (k : Int))))) s₁) s

/-- The tad `tensorAlongDimension(t, {dimension})` returns for an index `t` in range. -/
def tadAt (a : NDArray) (dimension : Nat) (t : Nat) : NDArray :=
  { toShapeInfo :=
      (ConstantTadHelper.tadForDimensions a.toShapeInfo [dimension]).primaryShapeInfo
    buffer := a.bufferWithOffset
      ((ConstantTadHelper.tadForDimensions a.toShapeInfo [dimension]).primaryOffsets.getD t 0)
    isView := true
    isBuffAlloc := false }

/-- The array the copy constructor builds: the source descriptor in its default
layout, over the block `next`. -/
def copyTarget (a : NDArray) (next : Nat) : NDArray :=
  { toShapeInfo := ConstantShapeHelper.createShapeInfo a.dataType a.order a.shape
    buffer := ⟨next, 0⟩ }

/-- The array `tile` builds for its result on the general path: the tile descriptor
over the block `next`. -/
def tileTarget (a : NDArray) (next : Nat) (reps : List Int) : NDArray :=
  { toShapeInfo := ShapeUtils.evalTileShapeInfo a.toShapeInfo reps
    buffer := ⟨next, 0⟩ }

/-- The array `repeat` allocates for its result: row-major, in the block `next`. -/
def repeatTarget (a : NDArray) (next : Nat) (outShape : List Nat) : NDArray :=
  { toShapeInfo := ConstantShapeHelper.createShapeInfo a.dataType 'c' outShape
    buffer := ⟨next, 0⟩ }

end NDArray

/-! ## Predicates on descriptors -/

namespace shape

/-- A multi-index that lies within the extents. -/
def validIndex (shape : List Nat) (idx : List Int) : Prop :=
  List.Forall₂ (fun i d => 0 ≤ i ∧ i < (d : Int)) idx shape

end shape

namespace NDArray

/-- The strides send distinct multi-indices to distinct offsets. -/
def DistinctOffsets (a : NDArray) : Prop :=
  ∀ idx idx', shape.validIndex a.shape idx → shape.validIndex a.shape idx' →
    shape.getOffset 0 a.strides idx = shape.getOffset 0 a.strides idx' → idx = idx'

/-- The invariant of the element-wise stride: `ews == 1` says that the array is
contiguous in its ordering: the offset of every logical index in range is the position
the default stride layout of the ordering gives it. -/
def EwsInvariant (a : NDArray) : Prop :=
  a.ews = 1 → ∀ e : Nat, e < a.lengthOf →
    a.getOffset (e : Int) = (shape.defaultPosition a.order a.shape e : Int)

/-- The addressing sends distinct logical linear indices to distinct offsets. -/
def DistinctLinearOffsets (a : NDArray) : Prop :=
  ∀ e e' : Nat, e < a.lengthOf → e' < a.lengthOf →
    a.getOffset (e : Int) = a.getOffset (e' : Int) → e = e'

/-- No element of `a` lies in the same buffer cell as an element of `z`. -/
def SharesNoCell (a z : NDArray) : Prop :=
  ∀ e e' : Nat, e < a.lengthOf → e' < z.lengthOf →
    ¬ (a.buffer.block = z.buffer.block ∧
      a.buffer.offset + a.getOffset (e : Int) = z.buffer.offset + z.getOffset (e' : Int))

end NDArray

/-! ## Concrete arrays used as test inputs -/

/-- A rank-1 array of three `INT32` cells at the start of block 1. -/
def vec3 : NDArray :=
  { buffer := ⟨1, 0⟩, shape := [3], strides := [1], order := 'c', ews := 1, dataType := .INT32 }

/-- A row-major 2×2 `INT32` matrix at the start of block 1. -/
def mat22 : NDArray :=
  { buffer := ⟨1, 0⟩, shape := [2, 2], strides := [2, 1], order := 'c', ews := 1,
    dataType := .INT32 }

/-- A 2×2 `INT32` view that shows the same row of two cells twice (stride 0 along
the rows). -/
def rowTwice : NDArray :=
  { buffer := ⟨1, 0⟩, shape := [2, 2], strides := [0, 1], order := 'c', ews := 0,
    dataType := .INT32, isView := true, isBuffAlloc := false }

/-- A rank-1 array of one `INT8` cell at the start of block 1. -/
def byte1 : NDArray :=
  { buffer := ⟨1, 0⟩, shape := [1], strides := [1], order := 'c', ews := 1, dataType := .INT8 }

/-- A memory whose every cell holds `0`. -/
def zeroMemory : Memory Int := { cells := fun _ _ => 0, next := 2 }

/-- A memory holding `1, 2, 3` at the start of block 1, and `0` elsewhere. -/
def mem123 : Memory Int :=
  { cells := fun b o =>
      if b = 1 then (if o = 0 then 1 else if o = 1 then 2 else if o = 2 then 3 else 0) else 0
    next := 2 }

/-- A rank-1 array of six `INT32` cells at the start of block 1. -/
def vec6 : NDArray :=
  { buffer := ⟨1, 0⟩, shape := [6], strides := [1], order := 'c', ews := 1, dataType := .INT32 }

/-- A row-major 2×3 `INT32` matrix at the start of block 1. -/
def mat23 : NDArray :=
  { buffer := ⟨1, 0⟩, shape := [2, 3], strides := [3, 1], order := 'c', ews := 1,
    dataType := .INT32 }

/-- A row-major 3×2 `INT32` matrix at the start of block 2. -/
def mat32 : NDArray :=
  { buffer := ⟨2, 0⟩, shape := [3, 2], strides := [2, 1], order := 'c', ews := 1,
    dataType := .INT32 }

/-- A row vector of three `INT32` cells (shape `[1, 3]`) at the start of block 2. -/
def row3 : NDArray :=
  { buffer := ⟨2, 0⟩, shape := [1, 3], strides := [3, 1], order := 'c', ews := 1,
    dataType := .INT32 }

/-- A row-major 2×3 `INT32` matrix at the start of block 3. -/
def out23 : NDArray :=
  { buffer := ⟨3, 0⟩, shape := [2, 3], strides := [3, 1], order := 'c', ews := 1,
    dataType := .INT32 }

/-- A rank-1 array of one `INT32` cell at the start of block 3. -/
def one32 : NDArray :=
  { buffer := ⟨3, 0⟩, shape := [1], strides := [1], order := 'c', ews := 1, dataType := .INT32 }

/-- A rank-1 array of three `FLOAT32` cells at the start of block 2. -/
def float3 : NDArray :=
  { buffer := ⟨2, 0⟩, shape := [3], strides := [1], order := 'c', ews := 1,
    dataType := .FLOAT32 }

/-- A rank-1 array of three strings at the start of block 1. -/
def str3 : NDArray :=
  { buffer := ⟨1, 0⟩, shape := [3], strides := [1], order := 'c', ews := 1, dataType := .UTF8 }

/-- A row vector of three `BOOL` cells (shape `[1, 3]`) at the start of block 2. -/
def boolRow3 : NDArray :=
  { buffer := ⟨2, 0⟩, shape := [1, 3], strides := [3, 1], order := 'c', ews := 1,
    dataType := .BOOL }

/-- A row-major 2×2 array of strings at the start of block 1. -/
def strMat22 : NDArray :=
  { buffer := ⟨1, 0⟩, shape := [2, 2], strides := [2, 1], order := 'c', ews := 1,
    dataType := .UTF8 }

/-- A scalar (rank 0) `INT32` array at the start of block 2. -/
def scalar32 : NDArray :=
  { buffer := ⟨2, 0⟩, shape := [], strides := [], order := 'c', ews := 1, dataType := .INT32 }

/-- A rank-1 array of three `INT64` cells at the start of block 3. -/
def long3 : NDArray :=
  { buffer := ⟨3, 0⟩, shape := [3], strides := [1], order := 'c', ews := 1, dataType := .INT64 }

/-- A column-major 2×2 `INT32` matrix at the start of block 1, contiguous in its
ordering. -/
def matF22 : NDArray :=
  { buffer := ⟨1, 0⟩, shape := [2, 2], strides := [1, 2], order := 'f', ews := 1,
    dataType := .INT32 }

/-- A column-major 2×2 `INT32` matrix at the start of block 3, contiguous in its
ordering. -/
def outF22 : NDArray :=
  { buffer := ⟨3, 0⟩, shape := [2, 2], strides := [1, 2], order := 'f', ews := 1,
    dataType := .INT32 }

/-- A row-major 2×7 `INT32` matrix at the start of block 3. -/
def out27 : NDArray :=
  { buffer := ⟨3, 0⟩, shape := [2, 7], strides := [7, 1], order := 'c', ews := 1,
    dataType := .INT32 }

/-- A rank-1 `INT32` view of six elements at the start of block 3 that shows the same
cell six times (stride 0). -/
def sameCell6 : NDArray :=
  { buffer := ⟨3, 0⟩, shape := [6], strides := [0], order := 'c', ews := 0,
    dataType := .INT32, isView := true, isBuffAlloc := false }

/-- A rank-1 array of six strings at the start of block 3. -/
def str6 : NDArray :=
  { buffer := ⟨3, 0⟩, shape := [6], strides := [1], order := 'c', ews := 1, dataType := .UTF8 }

/-- The conversion `static_cast` on integer-valued cells: into a signed integer kind the
value modulo `2^w` in two's complement, into `UINT8` the value modulo `2^8`, into `BOOL`
the test against zero; the conversions into the other kinds are taken exact. -/
def staticCast (_source target : DataType) (v : Int) : Int :=
  match target with
  | .INT8 => (v + 128) % 256 - 128
  | .INT16 => (v + 32768) % 65536 - 32768
  | .INT32 => toInt32 v
  | .UINT8 => v % 256
  | .BOOL => if v = 0 then 0 else 1
  | _ => v

/-- A rank-1 array of six `INT8` cells at the start of block 3. -/
def bytes6 : NDArray :=
  { buffer := ⟨3, 0⟩, shape := [6], strides := [1], order := 'c', ews := 1, dataType := .INT8 }

/-- A memory holding `300, 301, 302` at the start of block 1, and `0` elsewhere. -/
def mem300 : Memory Int :=
  { cells := fun b o => if b = 1 then (if 0 ≤ o ∧ o < 3 then o + 300 else 0) else 0
    next := 4 }

/-- A choice of the broadcast kernel for the tables it is not passed: for `x` those of
the TAD helper, for the destination the tables of `x`. -/
def tablesOfX : AbsentTad :=
  { x := fun xShapeInfo dimension => ConstantTadHelper.tadForDimensions xShapeInfo dimension,
    z := fun _ _ _ tadX => tadX }

/-- An axis check that accepts every list of axes and leaves it as it is. -/
def acceptAxes : Nat → List Nat → Except Exception (List Nat) := fun _ dimensions => .ok dimensions

/-- Zeros before an offset table. -/
def zerosBefore : Int → Int := fun _ => 0

/-- A contiguous rank-1 array of `2^31` cells of type `INT8` at the start of block 1. -/
def bytes2G : NDArray :=
  { buffer := ⟨1, 0⟩, shape := [2147483648], strides := [1], order := 'c', ews := 1,
    dataType := .INT8 }

/-- A rank-2 array of `2^31` rows of one `INT8` cell at the start of block 1. -/
def rows2G : NDArray :=
  { buffer := ⟨1, 0⟩, shape := [2147483648, 1], strides := [1, 1], order := 'c', ews := 1,
    dataType := .INT8 }

/-- A memory holding `1, 2, 3, 4, 5, 6` at the start of block 1, `1, 1, 1` at the start
of block 2, and `0` elsewhere. -/
def mem123456 : Memory Int :=
  { cells := fun b o =>
      if b = 1 then (if 0 ≤ o ∧ o < 6 then o + 1 else 0)
      else if b = 2 then (if 0 ≤ o ∧ o < 3 then 1 else 0)
      else 0
    next := 4 }

/-! ## Loops and stores -/

section Loops

variable {α σ ι : Type}

/-- A loop whose body never throws on the items it meets is a fold of the states. -/
theorem forEach_eq_foldl (items : List ι) (body : ι → σ → Outcome σ Unit) (step : σ → ι → σ)
    (h : ∀ x ∈ items, ∀ s, body x s = .ret (step s x) ()) (s : σ) :
    forEach items body s = .ret (items.foldl step s) () := by
  induction items generalizing s with
  | nil => rfl
  | cons x rest ih =>
    have hx := h x (List.mem_cons_self x rest) s
    simp only [forEach, hx, Outcome.ret, List.foldl_cons]
    exact ih (fun y hy => h y (List.mem_cons_of_mem x hy)) (step s x)

/-- A loop with an `int` counter whose bound fits an `int` runs over `0 .. n - 1`. -/
theorem forInt_of_le (n : Nat) (body : Nat → σ → Outcome σ Unit) (s : σ) (h : n ≤ INT_MAX) :
    forInt n body s = forEach (List.range n) body s := by
  unfold forInt
  rw [if_pos h]

/-- A loop with an `int` counter whose bound fits an `int` and whose body never throws
is a fold of the states. -/
theorem forInt_ret (n : Nat) (body : Nat → σ → Outcome σ Unit) (step : σ → Nat → σ) (s : σ)
    (h : n ≤ INT_MAX) (hbody : ∀ e s, body e s = .ret (step s e) ()) :
    forInt n body s = .ret ((List.range n).foldl step s) () := by
  rw [forInt_of_le n body s h]
  exact forEach_eq_foldl _ body step (fun x _ s₁ => hbody x s₁) s

/-- A loop with an `int` counter whose bound exceeds `INT_MAX` and whose body never
throws ends in the overflow of the counter. -/
theorem forInt_overflow (n : Nat) (body : Nat → σ → Outcome σ Unit) (step : σ → Nat → σ) (s : σ)
    (h : INT_MAX < n) (hbody : ∀ e s, body e s = .ret (step s e) ()) :
    forInt n body s
      = .raise ((List.range (INT_MAX + 1)).foldl step s) .signed_overflow := by
  have hn : ¬ n ≤ INT_MAX := by omega
  have hr := forEach_eq_foldl (List.range (INT_MAX + 1)) body step (fun x _ s₁ => hbody x s₁) s
  unfold forInt
  rw [if_neg hn]
  generalize (List.range (INT_MAX + 1)) = l at hr ⊢
  rw [hr]
  rfl

/-- A loop with an `int` counter whose bound exceeds `INT_MAX` does not end normally. -/
theorem forInt_gt (n : Nat) (body : Nat → σ → Outcome σ Unit) (s : σ) (h : INT_MAX < n) :
    ∃ ex, (forInt n body s).value = .error ex := by
  have hn : ¬ n ≤ INT_MAX := Nat.not_le.mpr h
  unfold forInt
  rw [if_neg hn]
  generalize (List.range (INT_MAX + 1)) = l
  generalize forEach l body s = r
  cases r with
  | mk st v =>
    cases v with
    | ok u => exact ⟨.signed_overflow, rfl⟩
    | error ex => exact ⟨ex, rfl⟩

theorem Memory.cells_write (m : Memory α) (buf : Pointer) (i : Int) (v : α) (b : Nat) (o : Int) :
    (m.write buf i v).cells b o = if b = buf.block ∧ o = buf.offset + i then v else m.cells b o :=
  rfl

theorem Memory.read_write_self (m : Memory α) (buf : Pointer) (i : Int) (v : α) :
    (m.write buf i v).read buf i = v := by
  simp [Memory.read, Memory.write]

/-- Stores do not move the allocation frontier. -/
theorem foldl_write_next (items : List ι) (buf : Pointer) (w : ι → Int)
    (val : Memory α → ι → α) (m : Memory α) :
    (items.foldl (fun s x => s.write buf (w x) (val s x)) m).next = m.next := by
  induction items generalizing m with
  | nil => rfl
  | cons x rest ih => simp only [List.foldl_cons]; rw [ih]; rfl

/-- Frame: a cell that no store of the loop addresses keeps its content. -/
theorem foldl_write_frame (items : List ι) (buf : Pointer) (w : ι → Int)
    (val : Memory α → ι → α) (m : Memory α) (b : Nat) (o : Int)
    (h : ∀ x ∈ items, ¬ (b = buf.block ∧ o = buf.offset + w x)) :
    (items.foldl (fun s x => s.write buf (w x) (val s x)) m).cells b o = m.cells b o := by
  induction items generalizing m with
  | nil => rfl
  | cons x rest ih =>
    simp only [List.foldl_cons]
    rw [ih _ (fun y hy => h y (List.mem_cons_of_mem x hy))]
    rw [Memory.cells_write, if_neg (h x (List.mem_cons_self x rest))]

/-- A loop of stores whose values do not depend on the state: the cell of an item
holds the item's value, provided every item addressing the same cell stores the same
value. -/
theorem foldl_write_consistent (items : List ι) (buf : Pointer) (w : ι → Int) (val : ι → α)
    (m : Memory α) (x : ι) (hx : x ∈ items) (hc : ∀ y ∈ items, w y = w x → val y = val x) :
    (items.foldl (fun s y => s.write buf (w y) (val y)) m).read buf (w x) = val x := by
  induction items generalizing m x with
  | nil => cases hx
  | cons y rest ih =>
    simp only [List.foldl_cons]
    by_cases hrest : ∃ y' ∈ rest, w y' = w x
    · obtain ⟨y', hy', hw⟩ := hrest
      have h1 := ih (m.write buf (w y) (val y)) y' hy'
        (fun t ht htw => by
          rw [hc t (List.mem_cons_of_mem y ht) (htw.trans hw),
            hc y' (List.mem_cons_of_mem y hy') hw])
      rw [hw, hc y' (List.mem_cons_of_mem y hy') hw] at h1
      exact h1
    · have hfr := foldl_write_frame rest buf w (fun _ t => val t) (m.write buf (w y) (val y))
        buf.block (buf.offset + w x)
        (fun t ht hcon => hrest ⟨t, ht, by have := hcon.2; omega⟩)
      have hxy : x = y := by
        rcases List.mem_cons.mp hx with h | h
        · exact h
        · exact absurd ⟨x, h, rfl⟩ hrest
      simp only [Memory.read]
      rw [hfr, hxy]
      exact Memory.read_write_self m buf (w y) (val y)

/-- A loop that stores, for each item, a function of a cell it reads: if the items
are distinct, address distinct cells, and no item's store hits the cell another item
reads, then each item's cell ends up holding the function of the initial content of
the cell it read. -/
theorem foldl_write_read (items : List ι) (z f : Pointer) (w r : ι → Int) (g : ι → α → α)
    (m : Memory α) (hnd : items.Nodup)
    (hw : ∀ x ∈ items, ∀ y ∈ items, x ≠ y → w x ≠ w y)
    (hr : ∀ x ∈ items, ∀ y ∈ items, x ≠ y →
      ¬ (f.block = z.block ∧ f.offset + r x = z.offset + w y))
    (x : ι) (hx : x ∈ items) :
    (items.foldl (fun s y => s.write z (w y) (g y (s.read f (r y)))) m).read z (w x)
      = g x (m.read f (r x)) := by
  induction items generalizing m with
  | nil => cases hx
  | cons y rest ih =>
    simp only [List.foldl_cons]
    have hnd' := List.nodup_cons.mp hnd
    rcases List.mem_cons.mp hx with h | h
    · subst h
      have hfr := foldl_write_frame rest z w (fun s t => g t (s.read f (r t)))
        (m.write z (w x) (g x (m.read f (r x)))) z.block (z.offset + w x)
        (fun t ht hcon => by
          have hne : t ≠ x := fun hEq => hnd'.1 (hEq ▸ ht)
          exact hw t (List.mem_cons_of_mem x ht) x (List.mem_cons_self x rest) hne
            (by have := hcon.2; omega))
      exact hfr.trans (Memory.read_write_self m z (w x) _)
    · have hne : x ≠ y := fun hEq => hnd'.1 (hEq ▸ h)
      rw [ih (m.write z (w y) (g y (m.read f (r y)))) hnd'.2
        (fun a ha b hb => hw a (List.mem_cons_of_mem y ha) b (List.mem_cons_of_mem y hb))
        (fun a ha b hb => hr a (List.mem_cons_of_mem y ha) b (List.mem_cons_of_mem y hb)) h]
      congr 1
      simp only [Memory.read, Memory.cells_write]
      rw [if_neg]
      exact hr x hx y (List.mem_cons_self y rest) hne

end Loops

section Loops

variable {σ ι κ : Type}

theorem foldl_product (xs : List ι) (ys : List κ) (f : σ → ι × κ → σ) (s : σ) :
    (xs.product ys).foldl f s
      = xs.foldl (fun s x => ys.foldl (fun s' y => f s' (x, y)) s) s := by
  induction xs generalizing s with
  | nil => rfl
  | cons x rest ih =>
    have h : (x :: rest).product ys = ys.map (Prod.mk x) ++ rest.product ys := by
      simp [List.product]
    rw [h, List.foldl_append, List.foldl_map, ih]
    rfl

theorem foldl_ite_eq_filter (xs : List ι) (c : ι → Bool) (f : σ → ι → σ) (s : σ) :
    xs.foldl (fun s x => if c x then f s x else s) s = (xs.filter c).foldl f s := by
  induction xs generalizing s with
  | nil => rfl
  | cons x rest ih =>
    cases hx : c x
    · simp only [List.foldl_cons, hx, List.filter_cons, Bool.false_eq_true, if_false]
      exact ih _
    · simp only [List.foldl_cons, hx, List.filter_cons, if_true]
      exact ih _

end Loops

theorem mem_LIBND4J_TYPES_of_not_isS (a : NDArray) (h : a.isS = false) :
    a.dataType ∈ LIBND4J_TYPES := by
  have h' : a.dataType ≠ .UTF8 := by simpa [NDArray.isS] using h
  cases hd : a.dataType <;> simp_all [LIBND4J_TYPES]

theorem validIndex_pair (r c i j : Nat) (hi : i < r) (hj : j < c) :
    shape.validIndex [r, c] [(i : Int), (j : Int)] := by
  refine List.Forall₂.cons ⟨by omega, by omega⟩ (List.Forall₂.cons ⟨by omega, by omega⟩ ?_)
  exact List.Forall₂.nil

/-! ## Row-major indexing -/

section RowMajor

open shape

theorem ind2subC_natCast (sh : List Nat) (n : Nat) :
    ind2subC sh (n : Int) = (unravel sh n).map (fun (k : Nat) => (k : Int)) := by
  induction sh generalizing n with
  | nil => rfl
  | cons d ds ih =>
    simp only [ind2subC, unravel, List.map_cons]
    have h1 : Int.tdiv (n : Int) ((prodLong ds : Nat) : Int) = ((n / prodLong ds : Nat) : Int) := rfl
    have h2 : Int.tmod (n : Int) ((prodLong ds : Nat) : Int) = ((n % prodLong ds : Nat) : Int) := rfl
    rw [h1, h2, ih]

theorem prodLong_cons (d : Nat) (ds : List Nat) : prodLong (d :: ds) = d * prodLong ds := by
  simp [prodLong]

theorem ravel_lt (sh idx : List Nat) (h : validNat sh idx) : ravel sh idx < prodLong sh := by
  induction h with
  | nil => simp [ravel, prodLong]
  | cons hid hrest ih =>
    rename_i i d idx ds
    simp only [ravel, prodLong_cons]
    calc i * prodLong ds + ravel ds idx < i * prodLong ds + prodLong ds := by omega
      _ = (i + 1) * prodLong ds := by ring
      _ ≤ d * prodLong ds := Nat.mul_le_mul_right _ hid

theorem unravel_ravel (sh idx : List Nat) (h : validNat sh idx) :
    unravel sh (ravel sh idx) = idx := by
  induction h with
  | nil => rfl
  | cons hid hrest ih =>
    rename_i i d idx ds
    have hlt : ravel ds idx < prodLong ds := ravel_lt ds idx hrest
    have hpos : 0 < prodLong ds := by omega
    simp only [ravel, unravel]
    have hdiv : (i * prodLong ds + ravel ds idx) / prodLong ds = i := by
      rw [Nat.add_comm, Nat.add_mul_div_right _ _ hpos, Nat.div_eq_of_lt hlt, Nat.zero_add]
    have hmod : (i * prodLong ds + ravel ds idx) % prodLong ds = ravel ds idx := by
      rw [Nat.add_comm, Nat.add_mul_mod_self_right, Nat.mod_eq_of_lt hlt]
    rw [hdiv, hmod, ih]

theorem unravel_valid (sh : List Nat) (n : Nat) (h : n < prodLong sh) :
    validNat sh (unravel sh n) := by
  induction sh generalizing n with
  | nil => exact List.Forall₂.nil
  | cons d ds ih =>
    rw [prodLong_cons] at h
    have hpos : 0 < prodLong ds := by
      rcases Nat.eq_zero_or_pos (prodLong ds) with h0 | h0
      · rw [h0] at h; omega
      · exact h0
    refine List.Forall₂.cons ?_ (ih _ (Nat.mod_lt _ hpos))
    exact Nat.div_lt_of_lt_mul (by rw [Nat.mul_comm]; exact h)

theorem ravel_unravel (sh : List Nat) (n : Nat) (h : n < prodLong sh) :
    ravel sh (unravel sh n) = n := by
  induction sh generalizing n with
  | nil =>
    simp only [prodLong, List.prod_nil] at h
    simp only [unravel, ravel]
    omega
  | cons d ds ih =>
    rw [prodLong_cons] at h
    have hpos : 0 < prodLong ds := by
      rcases Nat.eq_zero_or_pos (prodLong ds) with h0 | h0
      · rw [h0] at h; omega
      · exact h0
    simp only [unravel, ravel]
    rw [ih _ (Nat.mod_lt _ hpos)]
    exact Nat.div_add_mod' n (prodLong ds)

/-- The offset of a logical linear index, through its multi-index of natural numbers. -/
theorem getOffset_natCast (a : NDArray) (n : Nat) :
    a.getOffset (n : Int)
      = shape.getOffset 0 a.strides ((unravel a.shape n).map (fun (k : Nat) => (k : Int))) := by
  simp only [NDArray.getOffset, ind2subC_natCast]

end RowMajor

/-! ## Contiguous layouts -/

section Contiguous

open shape

theorem sum_zipWith_map_mul (idx fs : List Int) (d : Int) :
    (List.zipWith (fun (i s : Int) => i * s) idx (fs.map (fun (s : Int) => d * s))).sum
      = d * (List.zipWith (fun (i s : Int) => i * s) idx fs).sum := by
  induction idx generalizing fs with
  | nil => simp
  | cons i rest ih =>
    cases fs with
    | nil => simp
    | cons f fs' =>
      simp only [List.map_cons, List.zipWith_cons_cons, List.sum_cons, ih]
      ring

theorem getOffset_calcStridesC (sh idx : List Nat) (h : validNat sh idx) :
    shape.getOffset 0 (calcStridesC sh) (idx.map (fun (k : Nat) => (k : Int)))
      = (ravel sh idx : Int) := by
  induction h with
  | nil => simp [shape.getOffset, calcStridesC, ravel]
  | cons hid hrest ih =>
    rename_i i d idx ds
    simp only [shape.getOffset, calcStridesC, ravel, List.map_cons, List.zipWith_cons_cons,
      List.sum_cons, zero_add] at ih ⊢
    rw [ih]
    push_cast
    ring

theorem getOffset_calcStridesFortran (sh idx : List Nat) (h : validNat sh idx) :
    shape.getOffset 0 (calcStridesFortran sh) (idx.map (fun (k : Nat) => (k : Int)))
      = (ravelF sh idx : Int) := by
  induction h with
  | nil => simp [shape.getOffset, calcStridesFortran, ravelF]
  | cons hid hrest ih =>
    rename_i i d idx ds
    simp only [shape.getOffset, calcStridesFortran, ravelF, List.map_cons,
      List.zipWith_cons_cons, List.sum_cons, zero_add, sum_zipWith_map_mul] at ih ⊢
    rw [ih]
    push_cast
    ring

theorem ravelF_lt (sh idx : List Nat) (h : validNat sh idx) : ravelF sh idx < prodLong sh := by
  induction h with
  | nil => simp [ravelF, prodLong]
  | cons hid hrest ih =>
    rename_i i d idx ds
    simp only [ravelF, prodLong_cons]
    calc i + d * ravelF ds idx < d + d * ravelF ds idx := by omega
      _ = d * (ravelF ds idx + 1) := by ring
      _ ≤ d * prodLong ds := Nat.mul_le_mul_left _ ih

theorem ravelF_injective (sh idx idx' : List Nat) (h : validNat sh idx) (h' : validNat sh idx')
    (heq : ravelF sh idx = ravelF sh idx') : idx = idx' := by
  induction h generalizing idx' with
  | nil => cases h'; rfl
  | cons hid hrest ih =>
    rename_i i d idx ds
    cases h' with
    | cons hid' hrest' =>
      rename_i i' idx''
      simp only [ravelF] at heq
      have hmod : (i + d * ravelF ds idx) % d = (i' + d * ravelF ds idx'') % d := by rw [heq]
      rw [Nat.add_mul_mod_self_left, Nat.add_mul_mod_self_left, Nat.mod_eq_of_lt hid,
        Nat.mod_eq_of_lt hid'] at hmod
      subst hmod
      have hmul : d * ravelF ds idx = d * ravelF ds idx'' := by omega
      have hpos : 0 < d := by omega
      rw [ih idx'' hrest' (Nat.eq_of_mul_eq_mul_left hpos hmul)]

theorem unravel_injective (sh : List Nat) (n n' : Nat) (h : n < prodLong sh)
    (h' : n' < prodLong sh) (heq : unravel sh n = unravel sh n') : n = n' := by
  rw [← ravel_unravel sh n h, ← ravel_unravel sh n' h', heq]

/-- On a contiguous layout the offset of a logical index is its default position. -/
theorem getOffset_of_default (a : NDArray) (hstr : a.strides = calcStrides a.order a.shape)
    (n : Nat) (hn : n < a.lengthOf) :
    a.getOffset (n : Int) = (defaultPosition a.order a.shape n : Int) := by
  have hv := unravel_valid a.shape n hn
  rw [getOffset_natCast, hstr]
  unfold calcStrides defaultPosition
  by_cases hc : a.order = 'c'
  · rw [if_pos hc, if_pos hc, getOffset_calcStridesC _ _ hv, ravel_unravel _ _ hn]
  · rw [if_neg hc, if_neg hc, getOffset_calcStridesFortran _ _ hv]

theorem defaultPosition_lt (order : Char) (sh : List Nat) (n : Nat) (hn : n < prodLong sh) :
    defaultPosition order sh n < prodLong sh := by
  unfold defaultPosition
  split_ifs
  · exact hn
  · exact ravelF_lt sh _ (unravel_valid sh n hn)

theorem defaultPosition_injective (order : Char) (sh : List Nat) (n n' : Nat)
    (hn : n < prodLong sh) (hn' : n' < prodLong sh)
    (heq : defaultPosition order sh n = defaultPosition order sh n') : n = n' := by
  unfold defaultPosition at heq
  split_ifs at heq
  · exact heq
  · exact unravel_injective sh n n' hn hn'
      (ravelF_injective sh _ _ (unravel_valid sh n hn) (unravel_valid sh n' hn') heq)

/-- Every position below the length is the default position of some logical index. -/
theorem defaultPosition_surjective (order : Char) (sh : List Nat) (k : Nat)
    (hk : k < prodLong sh) : ∃ n, n < prodLong sh ∧ defaultPosition order sh n = k := by
  have himg : (Finset.range (prodLong sh)).image (defaultPosition order sh)
      = Finset.range (prodLong sh) := by
    apply Finset.eq_of_subset_of_card_le
    · intro x hx
      obtain ⟨n, hn, rfl⟩ := Finset.mem_image.mp hx
      exact Finset.mem_range.mpr (defaultPosition_lt order sh n (Finset.mem_range.mp hn))
    · rw [Finset.card_image_of_injOn]
      intro n hn n' hn' heq
      exact defaultPosition_injective order sh n n' (Finset.mem_range.mp hn)
        (Finset.mem_range.mp hn') heq
  have hmem : k ∈ (Finset.range (prodLong sh)).image (defaultPosition order sh) := by
    rw [himg]; exact Finset.mem_range.mpr hk
  obtain ⟨n, hn, hnk⟩ := Finset.mem_image.mp hmem
  exact ⟨n, Finset.mem_range.mp hn, hnk⟩

/-- A contiguous layout sends distinct logical indices to distinct offsets. -/
theorem distinctLinearOffsets_of_default (a : NDArray)
    (hstr : a.strides = calcStrides a.order a.shape) : a.DistinctLinearOffsets := by
  intro e e' he he' heq
  rw [getOffset_of_default a hstr e he, getOffset_of_default a hstr e' he'] at heq
  exact defaultPosition_injective a.order a.shape e e' he he' (by exact_mod_cast heq)

theorem getOffset_zero (a : NDArray) : a.getOffset ((0 : Nat) : Int) = 0 := by
  rw [getOffset_natCast]
  have h : ∀ (sh : List Nat) (st : List Int),
      shape.getOffset 0 st ((unravel sh 0).map (fun (k : Nat) => (k : Int))) = 0 := by
    intro sh
    induction sh with
    | nil => intro st; simp [unravel, shape.getOffset]
    | cons d ds ih =>
      intro st
      cases st with
      | nil => simp [unravel, shape.getOffset]
      | cons s0 st' =>
        have := ih st'
        simp only [unravel, shape.getOffset, Nat.zero_div, Nat.zero_mod, List.map_cons,
          List.zipWith_cons_cons, List.sum_cons, Nat.cast_zero, zero_mul, zero_add] at this ⊢
        exact this
  exact h a.shape a.strides

end Contiguous

/-! ## Element access: `e(i)` and `p(i, value)` -/

section Access

variable {α : Type}

/-- C2: on a numeric array of length `n ≥ 1`, `e<T>(i)` raises the out-of-range
`std::invalid_argument` for every `i ≥ n`, in particular for `i = n`, and for
`i = n - 1` it returns, without error, the cell the addressing gives for `n - 1`. -/
theorem e_raises_from_length_on (m : Memory α) (a : NDArray)
    (hnum : a.dataType ∈ LIBND4J_TYPES) (hlen : 1 ≤ a.lengthOf) :
    (∀ i : Int, 0 ≤ i → (a.lengthOf : Int) ≤ i → a.e m i = .error .invalid_argument) ∧
    a.e m (a.lengthOf : Int) = .error .invalid_argument ∧
    a.e m ((a.lengthOf - 1 : Nat) : Int)
      = .ok (m.read a.buffer (a.getOffset ((a.lengthOf - 1 : Nat) : Int))) := by
  refine ⟨?_, ?_, ?_⟩
  · intro i _ hi
    simp [NDArray.e, hi]
  · simp [NDArray.e]
  · have h : ¬ (((a.lengthOf - 1 : Nat) : Int) ≥ (a.lengthOf : Int)) := by omega
    simp only [NDArray.e, h, if_false, BUILD_SINGLE_SELECTOR, hnum, if_true, NDArray.templatedGet]

/-- Witness of C2 on the three-element vector: index 3 raises, index 2 returns. -/
theorem e_raises_from_length_on_witness :
    vec3.e zeroMemory 3 = .error .invalid_argument ∧ vec3.e zeroMemory 2 = .ok 0 := by
  have h := e_raises_from_length_on zeroMemory vec3 (by decide) (by decide)
  exact ⟨h.2.1, h.2.2⟩

/-- C3 (counterexample): on the three-element vector the index `-1` is not rejected:
`e(-1)` returns a value, `p(-1, 5)` returns normally and has stored `5` in the cell
before the buffer, which held `0`. -/
theorem negative_index_not_rejected :
    vec3.e zeroMemory (-1) = .ok 0 ∧
    (vec3.p zeroMemory (-1) 5).value = .ok () ∧
    zeroMemory.read vec3.buffer (-1) = 0 ∧
    (vec3.p zeroMemory (-1) 5).state.read vec3.buffer (-1) = 5 := by
  decide

/-- C3 (amended): `e<T>(i)` and `p<T>(i, value)` raise the out-of-range
`std::invalid_argument` exactly when `i ≥ length`; whenever `p` raises, the memory is
unchanged; a negative `i` is not rejected: on a numeric array `e` returns the cell at
`getOffset(i)` and `p` stores the value there. -/
theorem index_rejected_iff_ge_length (m : Memory α) (a : NDArray) (i : Int) (v : α) :
    (a.e m i = .error .invalid_argument ↔ (a.lengthOf : Int) ≤ i) ∧
    ((a.p m i v).value = .error .invalid_argument ↔ (a.lengthOf : Int) ≤ i) ∧
    ((a.p m i v).raised = true → (a.p m i v).state = m) ∧
    (i < 0 → a.dataType ∈ LIBND4J_TYPES →
      a.e m i = .ok (m.read a.buffer (a.getOffset i)) ∧
      (a.p m i v).value = .ok () ∧
      (a.p m i v).state = m.write a.buffer (a.getOffset i) v) := by
  by_cases hi : (a.lengthOf : Int) ≤ i
  · have hneg : ¬ i < 0 := by omega
    simp [NDArray.e, NDArray.p, hi, hneg, Outcome.raise, Outcome.raised]
  · by_cases hnum : a.dataType ∈ LIBND4J_TYPES
    · simp [NDArray.e, NDArray.p, hi, hnum, BUILD_SINGLE_SELECTOR, Outcome.raise, Outcome.ret,
        Outcome.raised, NDArray.templatedGet, NDArray.templatedSet]
    · simp [NDArray.e, NDArray.p, hi, hnum, BUILD_SINGLE_SELECTOR, Outcome.raise, Outcome.ret,
        Outcome.raised]

/-- Witness of C3 (amended) at index `-1` of the three-element vector. -/
theorem index_rejected_iff_ge_length_witness :
    vec3.e zeroMemory (-1) = .ok (zeroMemory.read vec3.buffer (vec3.getOffset (-1))) ∧
    (vec3.p zeroMemory (-1) 5).value = .ok () ∧
    (vec3.p zeroMemory (-1) 5).state = zeroMemory.write vec3.buffer (vec3.getOffset (-1)) 5 :=
  (index_rejected_iff_ge_length zeroMemory vec3 (-1) 5).2.2.2 (by decide) (by decide)

end Access

/-! ## Equality -/

/-- C10: when the two arrays differ in data type or in length, `equalsTo` returns
`false` and the log of invoked kernels is empty. -/
theorem equalsTo_false_on_type_or_length_mismatch (m : Memory Int) (a other : NDArray) (eps : ℚ)
    (h : a.dataType ≠ other.dataType ∨ a.lengthOf ≠ other.lengthOf) :
    a.equalsTo m other eps = .ret [] false := by
  simp only [NDArray.equalsTo, h, if_true]

/-- Witness of C10: an `INT32` vector against the same vector tagged `FLOAT32`. -/
theorem equalsTo_false_on_type_or_length_mismatch_witness :
    vec3.equalsTo zeroMemory { vec3 with dataType := .FLOAT32 } 0 = .ret [] false :=
  equalsTo_false_on_type_or_length_mismatch zeroMemory vec3 { vec3 with dataType := .FLOAT32 } 0
    (Or.inl (by decide))

/-! ## Matrices: `p(i, j, value)`, `setValueInDiagMatrix`, `setIdentity` -/

section Matrix

variable {α : Type}

theorem p2_in_range (s : Memory α) (a : NDArray) (r c i j : Nat) (v : α)
    (hshape : a.shape = [r, c]) (hnum : a.dataType ∈ LIBND4J_TYPES) (hi : i < r) (hj : j < c) :
    a.p2 s i j v
      = .ret (s.write a.buffer (shape.getOffset 0 a.strides [(i : Int), (j : Int)]) v) () := by
  have h : ¬ (a.rankOf ≠ 2 ∨ (i : Int) ≥ ((a.shape.getD 0 0 : Nat) : Int)
      ∨ (j : Int) ≥ ((a.shape.getD 1 0 : Nat) : Int)) := by
    simp only [NDArray.rankOf, hshape, List.length_cons, List.length_nil, List.getD_cons_zero,
      List.getD_cons_succ]
    omega
  simp only [NDArray.p2, h, if_false, BUILD_SINGLE_SELECTOR, hnum, if_true, NDArray.templatedSet]

theorem e2_in_range (s : Memory α) (a : NDArray) (r c i j : Nat)
    (hshape : a.shape = [r, c]) (hnum : a.dataType ∈ LIBND4J_TYPES) (hi : i < r) (hj : j < c) :
    a.e2 s i j = .ok (s.read a.buffer (shape.getOffset 0 a.strides [(i : Int), (j : Int)])) := by
  have h : ¬ (a.rankOf ≠ 2 ∨ (i : Int) ≥ ((a.shape.getD 0 0 : Nat) : Int)
      ∨ (j : Int) ≥ ((a.shape.getD 1 0 : Nat) : Int)) := by
    simp only [NDArray.rankOf, hshape, List.length_cons, List.length_nil, List.getD_cons_zero,
      List.getD_cons_succ]
    omega
  simp only [NDArray.e2, h, if_false, BUILD_SINGLE_SELECTOR, hnum, if_true, NDArray.templatedGet]

/-- The two nested loops of `setValueInDiagMatrix`, for any test on `(i, j)`: they
store `v` at the offsets of the pairs that pass the test, in row-major order. -/
theorem forEach_p2_where (m : Memory α) (a : NDArray) (r c : Nat) (v : α)
    (cond : Nat → Nat → Prop) [∀ i j, Decidable (cond i j)]
    (hshape : a.shape = [r, c]) (hnum : a.dataType ∈ LIBND4J_TYPES) :
    forEach (List.range r) (fun (i : Nat) s =>
        forEach (List.range c) (fun (j : Nat) s' =>
          if cond i j then a.p2 s' i j v else .ret s' ()) s) m
      = .ret ((((List.range r).product (List.range c)).filter
            (fun (q : Nat × Nat) => decide (cond q.1 q.2))).foldl
          (fun s (q : Nat × Nat) => s.write a.buffer
            (shape.getOffset 0 a.strides [(q.1 : Int), (q.2 : Int)]) v) m) () := by
  rw [← foldl_ite_eq_filter, foldl_product]
  apply forEach_eq_foldl
  intro i hi s
  apply forEach_eq_foldl
  intro j hj s'
  by_cases hc : cond i j
  · simp only [hc, if_true, decide_True]
    exact p2_in_range s' a r c i j v hshape hnum (List.mem_range.mp hi) (List.mem_range.mp hj)
  · simp only [hc, if_false, decide_False, Bool.false_eq_true]

/-- After the nested loops, the element at `(i, j)` is `v` where the test holds and is
untouched elsewhere, provided distinct multi-indices have distinct offsets. -/
theorem e2_after_forEach_p2_where (m : Memory α) (a : NDArray) (r c : Nat) (v : α)
    (cond : Nat → Nat → Prop) [∀ i j, Decidable (cond i j)]
    (hshape : a.shape = [r, c]) (hnum : a.dataType ∈ LIBND4J_TYPES)
    (hdist : a.DistinctOffsets) (i j : Nat) (hi : i < r) (hj : j < c) :
    a.e2 ((((List.range r).product (List.range c)).filter
            (fun (q : Nat × Nat) => decide (cond q.1 q.2))).foldl
          (fun s (q : Nat × Nat) => s.write a.buffer
            (shape.getOffset 0 a.strides [(q.1 : Int), (q.2 : Int)]) v) m) i j
      = if cond i j then .ok v else a.e2 m i j := by
  rw [e2_in_range _ a r c i j hshape hnum hi hj, e2_in_range _ a r c i j hshape hnum hi hj]
  by_cases hc : cond i j
  · rw [if_pos hc]
    congr 1
    exact foldl_write_consistent _ a.buffer
      (fun q : Nat × Nat => shape.getOffset 0 a.strides [(q.1 : Int), (q.2 : Int)])
      (fun _ => v) m (i, j)
      (List.mem_filter.mpr ⟨List.pair_mem_product.mpr
        ⟨List.mem_range.mpr hi, List.mem_range.mpr hj⟩, by simpa using hc⟩)
      (fun _ _ _ => rfl)
  · rw [if_neg hc]
    congr 1
    refine foldl_write_frame _ a.buffer
      (fun q : Nat × Nat => shape.getOffset 0 a.strides [(q.1 : Int), (q.2 : Int)])
      (fun _ _ => v) m a.buffer.block _ ?_
    rintro ⟨i', j'⟩ hq ⟨_, hoff⟩
    obtain ⟨hmem, hcq⟩ := List.mem_filter.mp hq
    obtain ⟨hi', hj'⟩ := List.pair_mem_product.mp hmem
    have hEq := hdist [(i : Int), (j : Int)] [(i' : Int), (j' : Int)]
      (hshape ▸ validIndex_pair r c i j hi hj)
      (hshape ▸ validIndex_pair r c i' j' (List.mem_range.mp hi') (List.mem_range.mp hj'))
      (by simpa using hoff)
    simp only [List.cons.injEq, Nat.cast_inj, and_true] at hEq
    apply hc
    rw [hEq.1, hEq.2]
    simpa using hcq

/-- C5 (counterexample): on the 2×2 view that shows one row twice, filling the upper
triangle (`diag = 0`) with `9` also changes the element at `(1, 0)`, which lies below
the diagonal and held `0`. -/
theorem setValueInDiagMatrix_overwrites_aliased_element :
    (1 : Int) + 0 > 0 ∧
    rowTwice.e2 zeroMemory 1 0 = .ok 0 ∧
    (rowTwice.setValueInDiagMatrix zeroMemory (9 : Int) 0 'u').value = .ok () ∧
    rowTwice.e2 (rowTwice.setValueInDiagMatrix zeroMemory (9 : Int) 0 'u').state 1 0 = .ok 9 := by
  decide

/-- C5 (amended): for a non-string rank-2 array with extents `(r, c)` whose strides
send distinct multi-indices to distinct offsets, `setValueInDiagMatrix(v, diag, 'u')`
returns normally and afterwards the element at `(i, j)` is `v` when `i + diag ≤ j` and
its previous value otherwise; with `'l'` the same holds for the test `i + diag ≥ j`. -/
theorem setValueInDiagMatrix_fills_triangle (m : Memory α) (a : NDArray) (r c : Nat) (v : α)
    (diag : Int) (hns : a.isS = false) (hshape : a.shape = [r, c])
    (hdist : a.DistinctOffsets) :
    ((a.setValueInDiagMatrix m v diag 'u').value = .ok () ∧
      ∀ i j : Nat, i < r → j < c →
        a.e2 (a.setValueInDiagMatrix m v diag 'u').state i j
          = if (i : Int) + diag ≤ (j : Int) then .ok v else a.e2 m i j) ∧
    ((a.setValueInDiagMatrix m v diag 'l').value = .ok () ∧
      ∀ i j : Nat, i < r → j < c →
        a.e2 (a.setValueInDiagMatrix m v diag 'l').state i j
          = if (i : Int) + diag ≥ (j : Int) then .ok v else a.e2 m i j) := by
  have hnum := mem_LIBND4J_TYPES_of_not_isS a hns
  have hrank : ¬ a.rankOf ≠ 2 := by simp [NDArray.rankOf, hshape]
  have hrows : a.sizeAt 0 = r := by simp [NDArray.sizeAt, hshape]
  have hcols : a.sizeAt 1 = c := by simp [NDArray.sizeAt, hshape]
  have hu : a.setValueInDiagMatrix m v diag 'u' = _ :=
    (by simp only [NDArray.setValueInDiagMatrix, hns, hrank, if_false, hrows, hcols, if_true,
          Bool.false_eq_true] : a.setValueInDiagMatrix m v diag 'u' = _).trans
      (forEach_p2_where m a r c v (fun i j => (i : Int) + diag ≤ (j : Int)) hshape hnum)
  have hl : a.setValueInDiagMatrix m v diag 'l' = _ :=
    (by simp only [NDArray.setValueInDiagMatrix, hns, hrank, if_false, hrows, hcols, if_true,
          Bool.false_eq_true, show ¬ ('l' = 'u') by decide] :
        a.setValueInDiagMatrix m v diag 'l' = _).trans
      (forEach_p2_where m a r c v (fun i j => (i : Int) + diag ≥ (j : Int)) hshape hnum)
  refine ⟨⟨?_, ?_⟩, ⟨?_, ?_⟩⟩
  · rw [hu]; rfl
  · intro i j hi hj
    rw [hu]
    exact e2_after_forEach_p2_where m a r c v (fun i j => (i : Int) + diag ≤ (j : Int))
      hshape hnum hdist i j hi hj
  · rw [hl]; rfl
  · intro i j hi hj
    rw [hl]
    exact e2_after_forEach_p2_where m a r c v (fun i j => (i : Int) + diag ≥ (j : Int))
      hshape hnum hdist i j hi hj

theorem getOffset_diagonal (st : List Int) (k : Int) :
    k * shape.getOffset 0 st [1, 1] = shape.getOffset 0 st [k, k] := by
  rcases st with _ | ⟨s0, _ | ⟨s1, rest⟩⟩
  · simp [shape.getOffset]
  · simp [shape.getOffset]
  · simp only [shape.getOffset, List.zipWith_cons_cons, List.zipWith_nil_left, List.sum_cons,
      List.sum_nil]
    ring

theorem getOffset_of_pair (a : NDArray) (r c i j : Nat) (hshape : a.shape = [r, c])
    (hi : i < r) (hj : j < c) :
    a.getOffset ((i * c + j : Nat) : Int)
      = shape.getOffset 0 a.strides [(i : Int), (j : Int)] := by
  have hv : shape.validNat [r, c] [i, j] :=
    List.Forall₂.cons hi (List.Forall₂.cons hj List.Forall₂.nil)
  have hr : shape.ravel [r, c] [i, j] = i * c + j := by
    simp [shape.ravel, shape.prodLong]
  rw [getOffset_natCast, hshape, ← hr, unravel_ravel _ _ hv]
  rfl

theorem minDim_eq (r c : Nat) (bound : Int) (hfit : ((min r c : Nat) : Int) ≤ bound) :
    ([r, c].foldl (fun (md : Int) (s : Nat) => if md > (s : Int) then (s : Int) else md)
      bound).toNat = min r c := by
  simp only [List.foldl_cons, List.foldl_nil]
  split_ifs <;> omega

/-- The state `setIdentity` leaves on a numeric matrix: the zero fill, then the stores
of `1` at the multiples of the diagonal step. -/
theorem setIdentity_eq [Zero α] [One α] (m : Memory α) (a : NDArray) (r c : Nat)
    (hns : a.isS = false) (hshape : a.shape = [r, c]) (hfit : ((min r c : Nat) : Int) ≤ NDArray.MAX_INT) :
    a.setIdentity m
      = .ret ((List.range (min r c)).foldl
          (fun s (k : Nat) => s.write a.buffer (shape.getOffset 0 a.strides [(k : Int), (k : Int)]) 1)
          (a.assignValue m 0)) () := by
  have hnum := mem_LIBND4J_TYPES_of_not_isS a hns
  unfold NDArray.setIdentity
  rw [if_neg (by simp [hns])]
  simp only [hshape]
  rw [minDim_eq r c NDArray.MAX_INT hfit]
  apply forEach_eq_foldl
  intro k _ s
  simp only [NDArray.templatedSetDyn, BUILD_SINGLE_SELECTOR, hnum, if_true, NDArray.templatedSet,
    NDArray.rankOf, hshape, List.length_cons, List.length_nil, List.replicate]
  rw [getOffset_diagonal]

/-- After the zero fill every element of the matrix is `0`. -/
theorem assignValue_read (m : Memory α) (a : NDArray) (r c i j : Nat) (v : α)
    (hshape : a.shape = [r, c]) (hi : i < r) (hj : j < c) :
    (a.assignValue m v).read a.buffer (shape.getOffset 0 a.strides [(i : Int), (j : Int)]) = v := by
  have hlt : i * c + j < a.lengthOf := by
    simp only [NDArray.lengthOf, hshape, shape.prodLong, List.prod_cons, List.prod_nil, Nat.mul_one]
    calc i * c + j < i * c + c := by omega
      _ = (i + 1) * c := by ring
      _ ≤ r * c := Nat.mul_le_mul_right _ hi
  have h := foldl_write_consistent (List.range a.lengthOf) a.buffer
    (fun (e : Nat) => a.getOffset (e : Int)) (fun _ => v) m (i * c + j)
    (List.mem_range.mpr hlt) (fun _ _ _ => rfl)
  beta_reduce at h
  rw [getOffset_of_pair a r c i j hshape hi hj] at h
  unfold NDArray.assignValue
  exact h

/-- The elements of the matrix after `setIdentity`. -/
theorem setIdentity_read [Zero α] [One α] (m : Memory α) (a : NDArray) (r c : Nat)
    (hns : a.isS = false) (hshape : a.shape = [r, c]) (hdist : a.DistinctOffsets)
    (hfit : ((min r c : Nat) : Int) ≤ NDArray.MAX_INT) (i j : Nat) (hi : i < r) (hj : j < c) :
    (a.setIdentity m).state.read a.buffer (shape.getOffset 0 a.strides [(i : Int), (j : Int)])
      = if i = j then 1 else 0 := by
  rw [setIdentity_eq m a r c hns hshape hfit]
  simp only [Outcome.ret]
  by_cases hij : i = j
  · subst hij
    rw [if_pos rfl]
    exact foldl_write_consistent (List.range (min r c)) a.buffer
      (fun (k : Nat) => shape.getOffset 0 a.strides [(k : Int), (k : Int)]) (fun _ => (1 : α))
      (a.assignValue m 0) i (List.mem_range.mpr (by omega)) (fun _ _ _ => rfl)
  · rw [if_neg hij]
    refine (foldl_write_frame (List.range (min r c)) a.buffer
      (fun (k : Nat) => shape.getOffset 0 a.strides [(k : Int), (k : Int)]) (fun _ _ => (1 : α))
      (a.assignValue m 0) a.buffer.block _ ?_).trans (assignValue_read m a r c i j 0 hshape hi hj)
    rintro k hk ⟨_, hoff⟩
    have hk' : k < min r c := List.mem_range.mp hk
    have hEq := hdist [(i : Int), (j : Int)] [(k : Int), (k : Int)]
      (hshape ▸ validIndex_pair r c i j hi hj)
      (hshape ▸ validIndex_pair r c k k (by omega) (by omega))
      (by simpa using hoff)
    simp only [List.cons.injEq, Nat.cast_inj, and_true] at hEq
    omega

theorem card_diagonal (r c : Nat) :
    ((Finset.range r ×ˢ Finset.range c).filter (fun q : Nat × Nat => q.1 = q.2)).card
      = min r c := by
  have h : (Finset.range r ×ˢ Finset.range c).filter (fun q : Nat × Nat => q.1 = q.2)
      = (Finset.range (min r c)).image (fun k => (k, k)) := by
    ext ⟨x, y⟩
    simp only [Finset.mem_filter, Finset.mem_product, Finset.mem_range, Finset.mem_image,
      Prod.mk.injEq]
    constructor
    · rintro ⟨⟨hx, hy⟩, hxy⟩
      exact ⟨x, by omega, rfl, hxy⟩
    · rintro ⟨k, hk, rfl, rfl⟩
      exact ⟨⟨by omega, by omega⟩, rfl⟩
  rw [h, Finset.card_image_of_injective _ (fun x y hxy => (Prod.mk.inj hxy).1), Finset.card_range]

/-- C4: on a non-string rank-2 array with extents `(r, c)` whose strides send distinct
multi-indices to distinct offsets (the smaller extent fitting the `int` counter),
`setIdentity()` returns normally, afterwards the element at `(i, j)` is `1` when
`i = j` and `0` otherwise, and exactly `min(r, c)` elements are `1`. -/
theorem setIdentity_writes_identity [Zero α] [One α] [DecidableEq α] (m : Memory α)
    (a : NDArray) (r c : Nat) (hns : a.isS = false) (hshape : a.shape = [r, c])
    (hdist : a.DistinctOffsets) (hfit : ((min r c : Nat) : Int) ≤ NDArray.MAX_INT) (h10 : (1 : α) ≠ 0) :
    (a.setIdentity m).value = .ok () ∧
    (∀ i j : Nat, i < r → j < c →
      a.e2 (a.setIdentity m).state i j = .ok (if i = j then 1 else 0)) ∧
    ((Finset.range r ×ˢ Finset.range c).filter (fun q : Nat × Nat =>
      a.e2 (a.setIdentity m).state q.1 q.2 = .ok 1)).card = min r c := by
  have hnum := mem_LIBND4J_TYPES_of_not_isS a hns
  have hel : ∀ i j : Nat, i < r → j < c →
      a.e2 (a.setIdentity m).state i j = .ok (if i = j then 1 else 0) := by
    intro i j hi hj
    rw [e2_in_range _ a r c i j hshape hnum hi hj,
      setIdentity_read m a r c hns hshape hdist hfit i j hi hj]
  refine ⟨by rw [setIdentity_eq m a r c hns hshape hfit]; rfl, hel, ?_⟩
  rw [← card_diagonal r c]
  congr 1
  apply Finset.filter_congr
  rintro ⟨i, j⟩ hq
  simp only [Finset.mem_product, Finset.mem_range] at hq
  rw [hel i j hq.1 hq.2]
  by_cases hij : i = j
  · simp [hij]
  · simp only [hij, if_false, Except.ok.injEq, iff_false]
    exact fun h => h10 h.symm

theorem mat22_distinctOffsets : mat22.DistinctOffsets := by
  intro idx idx' h h' hoff
  have hform : ∀ l : List Int, shape.validIndex mat22.shape l →
      ∃ i j : Int, l = [i, j] ∧ 0 ≤ i ∧ i < 2 ∧ 0 ≤ j ∧ j < 2 := by
    intro l hl
    cases hl with
    | cons h0 hl' =>
      cases hl' with
      | cons h1 hl'' =>
        cases hl''
        exact ⟨_, _, rfl, h0.1, by simpa using h0.2, h1.1, by simpa using h1.2⟩
  obtain ⟨i, j, rfl, hi0, hi1, hj0, hj1⟩ := hform idx h
  obtain ⟨i', j', rfl, hi0', hi1', hj0', hj1'⟩ := hform idx' h'
  simp only [shape.getOffset, mat22, List.zipWith_cons_cons, List.zipWith_nil_left, List.sum_cons,
    List.sum_nil] at hoff
  have h1 : i = i' := by omega
  have h2 : j = j' := by omega
  rw [h1, h2]

/-- Witness of C4 on the row-major 2×2 matrix. -/
theorem setIdentity_writes_identity_witness :
    (mat22.setIdentity zeroMemory).value = .ok () ∧
    mat22.e2 (mat22.setIdentity zeroMemory).state 0 0 = .ok 1 ∧
    mat22.e2 (mat22.setIdentity zeroMemory).state 0 1 = .ok 0 ∧
    mat22.e2 (mat22.setIdentity zeroMemory).state 1 0 = .ok 0 ∧
    mat22.e2 (mat22.setIdentity zeroMemory).state 1 1 = .ok 1 := by
  have h := setIdentity_writes_identity zeroMemory mat22 2 2 rfl rfl mat22_distinctOffsets
    (by decide) (by decide)
  exact ⟨h.1, h.2.1 0 0 (by decide) (by decide), h.2.1 0 1 (by decide) (by decide),
    h.2.1 1 0 (by decide) (by decide), h.2.1 1 1 (by decide) (by decide)⟩

/-- Witness of C5 (amended) on the row-major 2×2 matrix, upper triangle, `diag = 0`. -/
theorem setValueInDiagMatrix_fills_triangle_witness :
    (mat22.setValueInDiagMatrix zeroMemory (9 : Int) 0 'u').value = .ok () ∧
    mat22.e2 (mat22.setValueInDiagMatrix zeroMemory (9 : Int) 0 'u').state 0 1 = .ok 9 ∧
    mat22.e2 (mat22.setValueInDiagMatrix zeroMemory (9 : Int) 0 'u').state 1 0
      = mat22.e2 zeroMemory 1 0 := by
  have h := setValueInDiagMatrix_fills_triangle zeroMemory mat22 2 2 (9 : Int) 0 rfl rfl
    mat22_distinctOffsets
  exact ⟨h.1.1, h.1.2 0 1 (by decide) (by decide), h.1.2 1 0 (by decide) (by decide)⟩

end Matrix

/-! ## Lambda transforms -/

section Lambda

variable {α : Type}

theorem getOffset_congr (a z : NDArray) (hs : z.shape = a.shape) (hst : z.strides = a.strides)
    (i : Int) : z.getOffset i = a.getOffset i := by
  simp only [NDArray.getOffset, hs, hst]

/-- The contiguous loop `z[e] = func(f[e])`. -/
theorem applyLambda_fast (func : α → α) (m : Memory α) (a z : NDArray)
    (hlen : z.lengthOf = a.lengthOf)
    (hoffA : ∀ e : Nat, e < a.lengthOf →
      a.getOffset (e : Int) = (shape.defaultPosition a.order a.shape e : Int))
    (hoffZ : ∀ e : Nat, e < a.lengthOf →
      z.getOffset (e : Int) = (shape.defaultPosition a.order a.shape e : Int))
    (halias : z.buffer = a.buffer ∨ a.SharesNoCell z) (e : Nat) (he : e < a.lengthOf) :
    ((List.range a.lengthOf).foldl
        (fun s (k : Nat) => s.write z.buffer k (func (s.read a.buffer k))) m).read
        z.buffer (z.getOffset e)
      = func (m.read a.buffer (a.getOffset e)) := by
  rw [hoffZ e he, hoffA e he]
  refine foldl_write_read (List.range a.lengthOf) z.buffer a.buffer
    (fun (k : Nat) => (k : Int)) (fun (k : Nat) => (k : Int)) (fun _ => func) m
    (List.nodup_range _) (fun x _ y _ hxy h => hxy (by simpa using h)) ?_
    (shape.defaultPosition a.order a.shape e)
    (List.mem_range.mpr (defaultPosition_lt a.order a.shape e he))
  intro x hx y hy hxy hcon
  beta_reduce at hcon
  rcases halias with hbuf | hno
  · rw [hbuf] at hcon
    exact hxy (by have := hcon.2; omega)
  · obtain ⟨e₁, he₁, hx'⟩ := defaultPosition_surjective a.order a.shape x (List.mem_range.mp hx)
    obtain ⟨e₂, he₂, hy'⟩ := defaultPosition_surjective a.order a.shape y (List.mem_range.mp hy)
    apply hno e₁ e₂ he₁ (by rw [hlen]; exact he₂)
    rw [hoffZ e₂ he₂, hoffA e₁ he₁, hx', hy']
    exact hcon

/-- The loop `z[zOffset] = func(f[xOffset])` over recomputed offsets. -/
theorem applyLambda_slow (func : α → α) (m : Memory α) (a z : NDArray)
    (hlen : z.lengthOf = a.lengthOf) (hinj : z.DistinctLinearOffsets)
    (halias : (z.buffer = a.buffer ∧ ∀ n : Nat, z.getOffset (n : Int) = a.getOffset (n : Int))
      ∨ a.SharesNoCell z) (e : Nat) (he : e < a.lengthOf) :
    ((List.range a.lengthOf).foldl
        (fun s (k : Nat) =>
          s.write z.buffer (z.getOffset k) (func (s.read a.buffer (a.getOffset k)))) m).read
        z.buffer (z.getOffset e)
      = func (m.read a.buffer (a.getOffset e)) := by
  refine foldl_write_read (List.range a.lengthOf) z.buffer a.buffer
    (fun (k : Nat) => z.getOffset (k : Int)) (fun (k : Nat) => a.getOffset (k : Int))
    (fun _ => func) m (List.nodup_range _) ?_ ?_ e (List.mem_range.mpr he)
  · intro x hx y hy hxy h
    exact hxy (hinj x y (by rw [hlen]; exact List.mem_range.mp hx)
      (by rw [hlen]; exact List.mem_range.mp hy) h)
  · intro x hx y hy hxy hcon
    beta_reduce at hcon
    rcases halias with ⟨hbuf, hoff⟩ | hno
    · rw [hbuf, ← hoff x] at hcon
      exact hxy (hinj x y (by rw [hlen]; exact List.mem_range.mp hx)
        (by rw [hlen]; exact List.mem_range.mp hy) (by have := hcon.2; omega))
    · exact hno x y (List.mem_range.mp hx) (by rw [hlen]; exact List.mem_range.mp hy) hcon

theorem applyLambda_some (fromT : DataType) (func : α → α) (m : Memory α) (a z : NDArray)
    (hT : a.dataType = fromT) (hZT : z.dataType = fromT) (hshape : z.shape = a.shape)
    (hewsA : a.EwsInvariant) (hewsZ : z.EwsInvariant) (hinj : z.DistinctLinearOffsets)
    (halias : (z.buffer = a.buffer ∧ z.strides = a.strides) ∨ a.SharesNoCell z)
    (hfit : a.lengthOf ≤ INT_MAX) :
    (a.applyLambda fromT func m (some z)).value = .ok () ∧
    ∀ e : Nat, e < a.lengthOf →
      (a.applyLambda fromT func m (some z)).state.read z.buffer (z.getOffset e)
        = func (m.read a.buffer (a.getOffset e)) := by
  have hlen : z.lengthOf = a.lengthOf := by simp only [NDArray.lengthOf, hshape]
  have h1 : ¬ a.dataType ≠ fromT := not_not.mpr hT
  have h2 : ¬ a.dataType ≠ z.dataType := not_not.mpr (hT.trans hZT.symm)
  by_cases hfast : a.order = z.order ∧ (a.ews = 1 ∧ z.ews = 1)
  · have hoffA := hewsA hfast.2.1
    have hoffZ : ∀ e : Nat, e < a.lengthOf →
        z.getOffset (e : Int) = (shape.defaultPosition a.order a.shape e : Int) := by
      intro e he
      rw [hewsZ hfast.2.2 e (by rw [hlen]; exact he), hfast.1, hshape]
    have hst : a.applyLambda fromT func m (some z)
        = .ret ((List.range a.lengthOf).foldl
            (fun s (k : Nat) => s.write z.buffer k (func (s.read a.buffer k))) m) () := by
      simp only [NDArray.applyLambda, Option.getD_some, h1, h2, if_false, hfast, and_self,
        if_true]
      exact forInt_ret _ _ _ m hfit (fun _ _ => rfl)
    rw [hst]
    exact ⟨rfl, fun e he =>
      applyLambda_fast func m a z hlen hoffA hoffZ (halias.imp (fun h => h.1) id) e he⟩
  · by_cases hfz : a.buffer = z.buffer
    · have hst : a.applyLambda fromT func m (some z)
          = .ret ((List.range a.lengthOf).foldl
              (fun s (k : Nat) =>
                s.write a.buffer (a.getOffset k) (func (s.read a.buffer (a.getOffset k)))) m)
              () := by
        simp only [NDArray.applyLambda, Option.getD_some, h1, h2, if_false, hfast, hfz, if_true]
        exact forInt_ret _ _ _ m hfit (fun _ _ => rfl)
      rw [hst]
      refine ⟨rfl, fun e he => ?_⟩
      have hoff : ∀ n : Nat, z.getOffset (n : Int) = a.getOffset (n : Int) := by
        rcases halias with ⟨_, hstr⟩ | hno
        · exact fun n => getOffset_congr a z hshape hstr n
        · exfalso
          apply hno 0 0 (by omega) (by omega)
          rw [getOffset_zero, getOffset_zero, hfz]
          exact ⟨rfl, rfl⟩
      have hinjA : a.DistinctLinearOffsets := by
        intro x y hx hy hxy
        exact hinj x y (by rw [hlen]; exact hx) (by rw [hlen]; exact hy)
          (by rw [hoff, hoff]; exact hxy)
      rw [← hfz, hoff]
      exact applyLambda_slow func m a a rfl hinjA (Or.inl ⟨rfl, fun _ => rfl⟩) e he
    · have hst : a.applyLambda fromT func m (some z)
          = .ret ((List.range a.lengthOf).foldl
              (fun s (k : Nat) =>
                s.write z.buffer (z.getOffset k) (func (s.read a.buffer (a.getOffset k)))) m)
              () := by
        simp only [NDArray.applyLambda, Option.getD_some, h1, h2, if_false, hfast, hfz]
        exact forInt_ret _ _ _ m hfit (fun _ _ => rfl)
      rw [hst]
      refine ⟨rfl, fun e he => ?_⟩
      rcases halias with ⟨hb, _⟩ | hno
      · exact absurd hb.symm hfz
      · exact applyLambda_slow func m a z hlen hinj (Or.inr hno) e he

/-- C7 (counterexample): two overlapping views of one buffer, `X` on the cells `0, 1`
and `Z` on the cells `1, 2`, both contiguous; with `func = (· + 10)` on the buffer
`1, 2, 3` the call leaves `21` in the element `1` of `Z`, not `func 2 = 12`. -/
theorem applyLambda_overlapping_target :
    ({ vec3 with shape := [2] } : NDArray).e mem123 1 = .ok 2 ∧
    (({ vec3 with shape := [2] } : NDArray).applyLambda .INT32 (fun x : Int => x + 10) mem123
      (some { vec3 with shape := [2], buffer := ⟨1, 1⟩ })).value = .ok () ∧
    ({ vec3 with shape := [2], buffer := ⟨1, 1⟩ } : NDArray).e
      (({ vec3 with shape := [2] } : NDArray).applyLambda .INT32 (fun x : Int => x + 10) mem123
        (some { vec3 with shape := [2], buffer := ⟨1, 1⟩ })).state 1 = .ok 21 := by
  decide

/-- C7 (amended): let `X` have element type `T` and a length of at most `INT_MAX`, and
let the target `Z` (`X` itself when no target is given) have type `T` and the shape of
`X`, both obeying the invariant of `ews`, the addressing of `Z` sending distinct logical
indices to distinct offsets, and `Z` either being `X` (same buffer, same strides) or
sharing no buffer cell with `X`.  Then `applyLambda(func, Z)` returns normally and the
element of `Z` at every logical index `e < length` is `func` of the value `X` held at
`e` before the call, on the contiguous path and on the offset-recomputing paths
alike. -/
theorem applyLambda_maps_elements (fromT : DataType) (func : α → α) (m : Memory α)
    (a : NDArray) (target : Option NDArray)
    (hT : a.dataType = fromT) (hZT : (target.getD a).dataType = fromT)
    (hshape : (target.getD a).shape = a.shape)
    (hewsA : a.EwsInvariant) (hewsZ : (target.getD a).EwsInvariant)
    (hinj : (target.getD a).DistinctLinearOffsets)
    (halias : ((target.getD a).buffer = a.buffer ∧ (target.getD a).strides = a.strides)
      ∨ a.SharesNoCell (target.getD a))
    (hfit : a.lengthOf ≤ INT_MAX) :
    (a.applyLambda fromT func m target).value = .ok () ∧
    ∀ e : Nat, e < a.lengthOf →
      (a.applyLambda fromT func m target).state.read (target.getD a).buffer
          ((target.getD a).getOffset e)
        = func (m.read a.buffer (a.getOffset e)) := by
  have hsame : a.applyLambda fromT func m target
      = a.applyLambda fromT func m (some (target.getD a)) := by
    cases target <;> rfl
  rw [hsame]
  exact applyLambda_some fromT func m a (target.getD a) hT hZT hshape hewsA hewsZ hinj halias
    hfit

theorem vec3_ewsInvariant : vec3.EwsInvariant :=
  fun _ e he => getOffset_of_default vec3 rfl e he

/-- Witness of C7 (amended): the three-element vector transformed in place. -/
theorem applyLambda_maps_elements_witness :
    (vec3.applyLambda .INT32 (fun x : Int => x + 10) mem123 none).value = .ok () ∧
    (vec3.applyLambda .INT32 (fun x : Int => x + 10) mem123 none).state.read vec3.buffer
        (vec3.getOffset ((2 : Nat) : Int))
      = (fun x : Int => x + 10) (mem123.read vec3.buffer (vec3.getOffset ((2 : Nat) : Int))) := by
  have h := applyLambda_maps_elements .INT32 (fun x : Int => x + 10) mem123 vec3 none rfl rfl rfl
    vec3_ewsInvariant vec3_ewsInvariant (distinctLinearOffsets_of_default vec3 rfl)
    (Or.inl ⟨rfl, rfl⟩) (by decide)
  exact ⟨h.1, h.2 2 (by decide)⟩

/-- The contiguous loop run in place changes exactly the first `n` cells of the buffer,
each to `func` of its content. -/
theorem inplace_cells (func : α → α) (m : Memory α) (buf : Pointer) (n : Nat) (b : Nat)
    (o : Int) :
    ((b = buf.block ∧ ∃ k : Nat, k < n ∧ o = buf.offset + k) →
      ((List.range n).foldl (fun s (k : Nat) => s.write buf k (func (s.read buf k))) m).cells b o
        = func (m.cells b o)) ∧
    (¬ (b = buf.block ∧ ∃ k : Nat, k < n ∧ o = buf.offset + k) →
      ((List.range n).foldl (fun s (k : Nat) => s.write buf k (func (s.read buf k))) m).cells b o
        = m.cells b o) := by
  constructor
  · rintro ⟨rfl, k, hk, rfl⟩
    exact foldl_write_read (List.range n) buf buf (fun (k : Nat) => (k : Int))
      (fun (k : Nat) => (k : Int)) (fun _ => func) m (List.nodup_range _)
      (fun x _ y _ hxy h => hxy (by simpa using h))
      (fun x _ y _ hxy h => hxy (by have := h.2; beta_reduce at this; omega))
      k (List.mem_range.mpr hk)
  · intro hno
    exact foldl_write_frame (List.range n) buf (fun (k : Nat) => (k : Int))
      (fun s (k : Nat) => func (s.read buf k)) m b o
      (fun k hk hcon => hno ⟨hcon.1, k, List.mem_range.mp hk, hcon.2⟩)

/-- On a contiguous array (`ews == 1`) of element type `T` and of at most `INT_MAX`
elements, `applyLambda(f)` in place followed by `applyLambda(g)` in place, with
`g (f x) = x` for every `x`, both return normally and leave every cell of the memory,
so every element of the buffer of the array, with its original content. -/
theorem applyLambda_round_trip (fromT : DataType) (f g : α → α) (m : Memory α) (a : NDArray)
    (hT : a.dataType = fromT) (hews : a.ews = 1) (hgf : ∀ x, g (f x) = x)
    (hfit : a.lengthOf ≤ INT_MAX) :
    (a.applyLambda fromT f m none).value = .ok () ∧
    (a.applyLambda fromT g (a.applyLambda fromT f m none).state none).value = .ok () ∧
    ∀ (b : Nat) (o : Int),
      (a.applyLambda fromT g (a.applyLambda fromT f m none).state none).state.cells b o
        = m.cells b o := by
  have h1 : ¬ a.dataType ≠ fromT := not_not.mpr hT
  have hst : ∀ (func : α → α) (s : Memory α), a.applyLambda fromT func s none
      = .ret ((List.range a.lengthOf).foldl
          (fun s (k : Nat) => s.write a.buffer k (func (s.read a.buffer k))) s) () := by
    intro func s
    simp only [NDArray.applyLambda, Option.getD_none, h1, if_false, hews, and_self, if_true,
      ne_eq, not_true_eq_false]
    exact forInt_ret _ _ _ s hfit (fun _ _ => rfl)
  refine ⟨by rw [hst]; rfl, by rw [hst]; rfl, fun b o => ?_⟩
  rw [hst f m, hst g]
  simp only [Outcome.ret]
  by_cases htouched : b = a.buffer.block ∧ ∃ k : Nat, k < a.lengthOf ∧ o = a.buffer.offset + k
  · rw [(inplace_cells g _ a.buffer a.lengthOf b o).1 htouched,
      (inplace_cells f m a.buffer a.lengthOf b o).1 htouched, hgf]
  · rw [(inplace_cells g _ a.buffer a.lengthOf b o).2 htouched,
      (inplace_cells f m a.buffer a.lengthOf b o).2 htouched]

/-- C8 (failing input): on the contiguous `INT8` array of `2^31` elements,
`applyLambda(f)` in place does not return, whatever `f` and the contents are: the loop
counts with `int e` against the 64-bit `_length`, and after the rounds `0 .. INT_MAX`
the increment of `e` overflows with the test `e < _length` still true. -/
theorem applyLambda_counter_overflows :
    bytes2G.ews = 1 ∧ bytes2G.lengthOf = 2147483648 ∧
    ∀ (f : Int → Int) (m : Memory Int),
      (bytes2G.applyLambda .INT8 f m none).value = .error .signed_overflow := by
  refine ⟨rfl, by decide, fun f m => ?_⟩
  have h1 : ¬ bytes2G.dataType ≠ .INT8 := by decide
  have hst : bytes2G.applyLambda .INT8 f m none
      = forInt bytes2G.lengthOf
          (fun (e : Nat) s => .ret (s.write bytes2G.buffer e (f (s.read bytes2G.buffer e))) ())
          m := by
    simp only [NDArray.applyLambda, Option.getD_none, h1, if_false, and_self, if_true,
      ne_eq, not_true_eq_false, show bytes2G.ews = 1 from rfl]
  rw [hst, forInt_overflow _ _
    (fun s (e : Nat) => s.write bytes2G.buffer e (f (s.read bytes2G.buffer e))) m
    (by decide) (fun _ _ => rfl)]
  rfl

/-- The round trip on the three-element vector: adding and subtracting `10`. -/
theorem applyLambda_round_trip_witness :
    (vec3.applyLambda .INT32 (fun x : Int => x - 10)
      (vec3.applyLambda .INT32 (fun x : Int => x + 10) mem123 none).state none).state.cells 1 2
      = mem123.cells 1 2 :=
  (applyLambda_round_trip .INT32 (fun x : Int => x + 10) (fun x : Int => x - 10) mem123 vec3
    rfl rfl (fun x => by ring) (by decide)).2.2 1 2

end Lambda

/-! ## dup and equalsTo -/

section Dup

/-- The copy `dup` returns on a non-empty numeric array. -/
theorem dup_eq {α : Type} (m : Memory α) (a : NDArray) (newOrder : Char)
    (hne : a.isEmpty = false) (hns : a.dataType ≠ .UTF8) :
    a.dup m newOrder
      = .ret (NDArray.assign { m with next := m.next + 1 }
            { toShapeInfo := ConstantShapeHelper.createShapeInfo a.dataType
                (if newOrder = 'a' then a.order else newOrder) a.shape
              buffer := ⟨m.next, 0⟩ } a)
          { toShapeInfo := ConstantShapeHelper.createShapeInfo a.dataType
              (if newOrder = 'a' then a.order else newOrder) a.shape
            buffer := ⟨m.next, 0⟩ } := by
  simp only [NDArray.dup, hne, Bool.false_eq_true, if_false, hns, Memory.allocate]

/-- After `assign` into a contiguous array of another block, the target holds the
elements of the source and the source is untouched. -/
theorem assign_read {α : Type} (m : Memory α) (z a : NDArray)
    (hlen : z.lengthOf = a.lengthOf)
    (hstr : z.strides = shape.calcStrides z.order z.shape)
    (hblock : a.buffer.block ≠ z.buffer.block) (e : Nat) (he : e < a.lengthOf) :
    (z.assign m a).read z.buffer (z.getOffset e) = m.read a.buffer (a.getOffset e) ∧
    (z.assign m a).read a.buffer (a.getOffset e) = m.read a.buffer (a.getOffset e) := by
  constructor
  · unfold NDArray.assign
    rw [hlen]
    exact foldl_write_read (List.range a.lengthOf) z.buffer a.buffer
      (fun (k : Nat) => z.getOffset (k : Int)) (fun (k : Nat) => a.getOffset (k : Int))
      (fun _ v => v) m (List.nodup_range _)
      (fun x hx y hy hxy h => hxy (distinctLinearOffsets_of_default z hstr x y
        (by rw [hlen]; exact List.mem_range.mp hx) (by rw [hlen]; exact List.mem_range.mp hy) h))
      (fun x _ y _ _ h => hblock h.1) e (List.mem_range.mpr he)
  · unfold NDArray.assign
    exact foldl_write_frame (List.range z.lengthOf) z.buffer
      (fun (k : Nat) => z.getOffset (k : Int))
      (fun s (k : Nat) => s.read a.buffer (a.getOffset (k : Int))) m a.buffer.block _
      (fun k _ hcon => hblock hcon.1)

/-- `equalsTo` between an array and a contiguous copy of it in another block. -/
theorem equalsTo_assign (m : Memory Int) (a z : NDArray) (hnum : a.dataType ∈ LIBND4J_TYPES)
    (hzshape : z.shape = a.shape) (hztype : z.dataType = a.dataType)
    (hzstr : z.strides = shape.calcStrides z.order z.shape)
    (hzblock : a.buffer.block ≠ z.buffer.block) :
    a.equalsTo (z.assign m a) z 0 = .ret [.Reduce3_execScalar] true := by
  have hzlen : z.lengthOf = a.lengthOf := by simp only [NDArray.lengthOf, hzshape]
  have hcount : NativeOpExecutioner.EqualsWithEps (z.assign m a) a z 0 = 0 := by
    unfold NativeOpExecutioner.EqualsWithEps
    rw [List.length_eq_zero, List.filter_eq_nil_iff]
    intro e he
    have hr := assign_read m z a hzlen hzstr hzblock e (List.mem_range.mp he)
    rw [hr.1, hr.2]
    simp
  have h1 : ¬ (a.dataType ≠ z.dataType ∨ a.lengthOf ≠ z.lengthOf) := by
    rw [hztype, hzlen]; simp
  have h2 : ¬ ((a.rankOf = 1 ∧ z.rankOf = 2) ∨ (a.rankOf = 2 ∧ z.rankOf = 1)) := by
    simp only [NDArray.rankOf, hzshape]; omega
  have h3 : shape.equalsSoft a.shape z.shape = true := by
    simp [shape.equalsSoft, hzshape]
  simp only [NDArray.equalsTo, h1, h2, h3, if_false, Bool.not_true, Bool.false_eq_true,
    NativeOpExecutioner.execReduce3Scalar, hnum, FLOAT_TYPES, List.mem_cons, true_or, or_true,
    and_self, if_true, Outcome.ret, hcount, List.nil_append, gt_iff_lt, lt_self_iff_false]

/-- C9: for a non-empty array of an integer or boolean type, living in allocated
memory, and an order among `'a'`, `'c'`, `'f'`: `dup(order)` returns a copy, and
`equalsTo(copy, eps = 0)` then invokes the reduction kernel once and returns `true`. -/
theorem equalsTo_dup (m : Memory Int) (a : NDArray) (order : Char)
    (hne : a.isEmpty = false)
    (htype : a.dataType ∈ [DataType.BOOL, .INT8, .INT16, .INT32, .INT64, .UINT8])
    (_horder : order = 'a' ∨ order = 'c' ∨ order = 'f')
    (halloc : a.buffer.block < m.next) :
    ∃ copy : NDArray, (a.dup m order).value = .ok copy ∧
      a.equalsTo (a.dup m order).state copy 0 = .ret [.Reduce3_execScalar] true := by
  have hns : a.dataType ≠ .UTF8 := by
    intro h; rw [h] at htype; simp at htype
  have hnum : a.dataType ∈ LIBND4J_TYPES := by
    simp only [List.mem_cons, List.mem_singleton, List.not_mem_nil, or_false] at htype
    rcases htype with h | h | h | h | h | h <;> rw [h] <;> decide
  rw [dup_eq m a order hne hns]
  exact ⟨_, rfl, equalsTo_assign _ a _ hnum rfl rfl rfl (Nat.ne_of_lt halloc)⟩

/-- Witness of C9: the three-element vector copied in column-major order. -/
theorem equalsTo_dup_witness :
    ∃ copy : NDArray, (vec3.dup mem123 'f').value = .ok copy ∧
      vec3.equalsTo (vec3.dup mem123 'f').state copy 0 = .ret [.Reduce3_execScalar] true :=
  equalsTo_dup mem123 vec3 'f' rfl (by decide) (Or.inr (Or.inr rfl)) (by decide)

end Dup

/-! ## repeat -/

section LoopInvariant

variable {σ ι : Type}

theorem forEach_cons (x : ι) (rest : List ι) (body : ι → σ → Outcome σ Unit) (s : σ) :
    forEach (x :: rest) body s
      = match (body x s).value with
        | .ok _ => forEach rest body (body x s).state
        | .error ex => .raise (body x s).state ex := rfl

theorem forEach_append_of_ret (xs ys : List ι) (body : ι → σ → Outcome σ Unit) (s s' : σ)
    (h : forEach xs body s = .ret s' ()) : forEach (xs ++ ys) body s = forEach ys body s' := by
  induction xs generalizing s with
  | nil =>
    simp only [forEach, Outcome.ret, Outcome.mk.injEq] at h
    rw [List.nil_append, h.1]
  | cons x rest ih =>
    rw [List.cons_append, forEach_cons]
    rw [forEach_cons] at h
    cases hv : (body x s).value with
    | ok u =>
      rw [hv] at h
      exact ih _ h
    | error ex =>
      rw [hv] at h
      simp [Outcome.raise, Outcome.ret] at h

/-- A counted loop whose body, on the states an invariant describes, does not throw:
it is the fold of the states, and the invariant holds at the end. -/
theorem forEach_range_inv (n : Nat) (body : Nat → σ → Outcome σ Unit) (step : σ → Nat → σ)
    (P : Nat → σ → Prop)
    (h : ∀ i, i < n → ∀ s, P i s → body i s = .ret (step s i) () ∧ P (i + 1) (step s i))
    (s₀ : σ) (h0 : P 0 s₀) :
    forEach (List.range n) body s₀ = .ret ((List.range n).foldl step s₀) () ∧
    P n ((List.range n).foldl step s₀) := by
  induction n with
  | zero => exact ⟨rfl, h0⟩
  | succ n ih =>
    obtain ⟨hrun, hP⟩ := ih (fun i hi s hs => h i (Nat.lt_succ_of_lt hi) s hs)
    obtain ⟨hbody, hP'⟩ := h n (Nat.lt_succ_self n) _ hP
    rw [List.range_succ, forEach_append_of_ret _ _ _ _ _ hrun, List.foldl_append]
    refine ⟨?_, hP'⟩
    simp only [forEach, hbody, Outcome.ret, List.foldl_cons, List.foldl_nil]

end LoopInvariant

section Axes

open ConstantTadHelper shape

theorem keepAxes_of_lt {β : Type} (d : Nat) (l : List β) (k : Nat) (hk : d < k) :
    keepAxes [d] k l = [] ∧ dropAxes [d] k l = l := by
  induction l generalizing k with
  | nil => exact ⟨rfl, rfl⟩
  | cons x xs ih =>
    have hne : k ∉ [d] := by simp; omega
    simp only [keepAxes, dropAxes, hne, if_false]
    exact ⟨(ih (k + 1) (by omega)).1, by rw [(ih (k + 1) (by omega)).2]⟩

/-- Splitting a per-axis list at the axis `d`: the tad keeps the entry of `d`, the
rest are the outer axes. -/
theorem keepAxes_split {β : Type} (d : Nat) (pre : List β) (x : β) (post : List β) (k : Nat)
    (hk : k + pre.length = d) :
    keepAxes [d] k (pre ++ x :: post) = [x] ∧ dropAxes [d] k (pre ++ x :: post) = pre ++ post := by
  induction pre generalizing k with
  | nil =>
    simp only [List.length_nil, Nat.add_zero] at hk
    subst hk
    simp only [List.nil_append, keepAxes, dropAxes, List.mem_singleton, if_true]
    exact ⟨by rw [(keepAxes_of_lt k post (k + 1) (by omega)).1],
      (keepAxes_of_lt k post (k + 1) (by omega)).2⟩
  | cons p rest ih =>
    simp only [List.length_cons] at hk
    have hne : k ∉ [d] := by simp; omega
    simp only [List.cons_append, keepAxes, dropAxes, hne, if_false, List.append_eq]
    obtain ⟨h1, h2⟩ := ih (k + 1) (by omega)
    exact ⟨h1, by rw [h2]⟩

/-- The offset formula splits at an axis. -/
theorem getOffset_split (ipre ipost spre spost : List Int) (x s : Int)
    (hlen : ipre.length = spre.length) :
    shape.getOffset 0 (spre ++ s :: spost) (ipre ++ x :: ipost)
      = shape.getOffset 0 (spre ++ spost) (ipre ++ ipost) + x * s := by
  simp only [shape.getOffset, List.zipWith_append _ _ _ _ _ hlen, List.zipWith_cons_cons,
    List.sum_append, List.sum_cons]
  ring

theorem calcStridesC_append (pre l : List Nat) :
    ∃ rpre : List Int, rpre.length = pre.length ∧
      calcStridesC (pre ++ l) = rpre ++ calcStridesC l := by
  induction pre with
  | nil => exact ⟨[], rfl, rfl⟩
  | cons p rest ih =>
    obtain ⟨r, hr, hrl⟩ := ih
    exact ⟨(prodLong (rest ++ l) : Int) :: r, by simp [hr], by
      simp only [List.cons_append, calcStridesC, List.append_eq, hrl]⟩

theorem validNat_append (pre post ipre ipost : List Nat) (h1 : validNat pre ipre)
    (h2 : validNat post ipost) : validNat (pre ++ post) (ipre ++ ipost) := by
  induction h1 with
  | nil => exact h2
  | cons hid _ ih => exact List.Forall₂.cons hid ih

theorem validNat_split (pre post idx : List Nat) (h : validNat (pre ++ post) idx) :
    ∃ ipre ipost, idx = ipre ++ ipost ∧ validNat pre ipre ∧ validNat post ipost := by
  induction pre generalizing idx with
  | nil => exact ⟨[], idx, rfl, List.Forall₂.nil, h⟩
  | cons p rest ih =>
    cases h with
    | cons hid hrest =>
      obtain ⟨ipre, ipost, hEq, hv1, hv2⟩ := ih _ hrest
      exact ⟨_ :: ipre, ipost, by rw [hEq]; rfl, List.Forall₂.cons hid hv1, hv2⟩

theorem validNat_length (sh idx : List Nat) (h : validNat sh idx) : idx.length = sh.length :=
  List.Forall₂.length_eq h

end Axes

section RepeatLoops

variable {α : Type}

theorem foldl_counter (k : Nat) (f : Memory α → Int → Memory α) (s : Memory α) (i0 : Int) :
    (List.range k).foldl (fun (st : Memory α × Int) (_ : Nat) => (f st.1 st.2, st.2 + 1)) (s, i0)
      = ((List.range k).foldl (fun s' (j : Nat) => f s' (i0 + j)) s, i0 + k) := by
  induction k with
  | zero => simp
  | succ k ih =>
    rw [List.range_succ, List.foldl_append, List.foldl_append, ih]
    simp only [List.foldl_cons, List.foldl_nil, Nat.cast_add, Nat.cast_one]
    rw [add_assoc]

theorem foldl_block_counter (n k : Nat) (H : Memory α → Nat → Int → Memory α) (s : Memory α) :
    (List.range n).foldl
        (fun (st : Memory α × Int) (kk : Nat) => (H st.1 kk st.2, st.2 + k)) (s, 0)
      = ((List.range n).foldl (fun s' (kk : Nat) => H s' kk ((kk * k : Nat) : Int)) s,
          ((n * k : Nat) : Int)) := by
  induction n with
  | zero => simp
  | succ n ih =>
    rw [List.range_succ, List.foldl_append, List.foldl_append, ih]
    simp only [List.foldl_cons, List.foldl_nil, Prod.mk.injEq, true_and]
    push_cast
    ring

/-- The scalar read of `repeat` on an in-range index of a numeric tad. -/
theorem eScalar_in_range (s : Memory α) (t : NDArray) (k : Nat) (hk : k < t.lengthOf)
    (hnum : t.dataType ∈ LIBND4J_TYPES) :
    t.eScalar s k = .ok (s.read t.buffer (t.getOffset (k : Int))) := by
  have h : ¬ ((k : Int) ≥ (t.lengthOf : Int)) := by omega
  simp only [NDArray.eScalar, h, if_false, BUILD_SINGLE_SELECTOR, hnum, if_true]

/-- The scalar store of `repeat` on an in-range index. -/
theorem pScalar_in_range (s : Memory α) (t : NDArray) (i : Nat) (hi : i < t.lengthOf)
    (dt : DataType) (hnum : dt ∈ LIBND4J_TYPES) (v : α) :
    t.pScalar s i dt v = .ret (s.write t.buffer (t.getOffset (i : Int)) v) () := by
  have h : ¬ ((i : Int) ≥ (t.lengthOf : Int)) := by omega
  simp only [NDArray.pScalar, h, if_false, BUILD_SINGLE_SELECTOR, hnum, if_true,
    NDArray.templatedSetDyn, NDArray.templatedSet]

/-- The two inner loops of `repeat` on one pair of tads, the destination tad being
`repeatDelta` times as long as the source tad: they do not throw, and make the stores
of `repeatTad`. -/
theorem repeat_inner_loops (s : Memory α) (thisT retT : NDArray) (k : Nat)
    (hnum : thisT.dataType ∈ LIBND4J_TYPES) (hlen : retT.lengthOf = thisT.lengthOf * k) :
    forEach (List.range thisT.lengthOf)
        (fun (kk : Nat) (st : Memory α × Int) =>
          match thisT.eScalar st.1 kk with
          | .ok sv =>
            forEach (List.range k) (fun (_ : Nat) (st' : Memory α × Int) =>
              let w := retT.pScalar st'.1 st'.2 thisT.dataType sv
              ⟨(w.state, st'.2 + 1), w.value⟩) st
          | .error ex => .raise st ex) (s, 0)
      = .ret (NDArray.repeatTad k thisT retT s, ((thisT.lengthOf * k : Nat) : Int)) () := by
  have hmain := forEach_range_inv thisT.lengthOf
    (fun (kk : Nat) (st : Memory α × Int) =>
      match thisT.eScalar st.1 kk with
      | .ok sv =>
        forEach (List.range k) (fun (_ : Nat) (st' : Memory α × Int) =>
          let w := retT.pScalar st'.1 st'.2 thisT.dataType sv
          ⟨(w.state, st'.2 + 1), w.value⟩) st
      | .error ex => .raise st ex)
    (fun (st : Memory α × Int) (kk : Nat) =>
      ((List.range k).foldl (fun s' (j : Nat) =>
          s'.write retT.buffer (retT.getOffset (st.2 + j))
            (st.1.read thisT.buffer (thisT.getOffset (kk : Int)))) st.1, st.2 + k))
    (fun kk st => st.2 = ((kk * k : Nat) : Int))
    (by
      intro kk hkk st hst
      beta_reduce at hst ⊢
      rw [eScalar_in_range st.1 thisT kk hkk hnum]
      simp only []
      have hin := forEach_range_inv k
        (fun (_ : Nat) (st' : Memory α × Int) =>
          (⟨((retT.pScalar st'.1 st'.2 thisT.dataType
                (st.1.read thisT.buffer (thisT.getOffset (kk : Int)))).state, st'.2 + 1),
            (retT.pScalar st'.1 st'.2 thisT.dataType
                (st.1.read thisT.buffer (thisT.getOffset (kk : Int)))).value⟩ :
            Outcome (Memory α × Int) Unit))
        (fun (st' : Memory α × Int) (_ : Nat) =>
          (st'.1.write retT.buffer (retT.getOffset st'.2)
              (st.1.read thisT.buffer (thisT.getOffset (kk : Int))), st'.2 + 1))
        (fun j st' => st'.2 = ((kk * k + j : Nat) : Int))
        (by
          intro j hj st' hst'
          beta_reduce at hst' ⊢
          have hlt : kk * k + j < retT.lengthOf := by
            rw [hlen]
            calc kk * k + j < kk * k + k := by omega
              _ = (kk + 1) * k := by ring
              _ ≤ thisT.lengthOf * k := Nat.mul_le_mul_right _ hkk
          rw [hst', pScalar_in_range st'.1 retT (kk * k + j) hlt thisT.dataType hnum]
          exact ⟨rfl, by push_cast; ring⟩)
        st (by simp [hst])
      constructor
      · rw [hin.1]
        congr 1
        rw [show st = (st.1, st.2) from rfl, foldl_counter k
          (fun s' i => s'.write retT.buffer (retT.getOffset i)
            (st.1.read thisT.buffer (thisT.getOffset (kk : Int)))) st.1 st.2]
      · simp only [hst]
        push_cast
        ring)
    (s, 0) (by simp)
  rw [hmain.1]
  congr 1
  rw [foldl_block_counter thisT.lengthOf k
    (fun s' kk i0 => (List.range k).foldl (fun s'' (j : Nat) =>
          s''.write retT.buffer (retT.getOffset (i0 + j))
            (s'.read thisT.buffer (thisT.getOffset (kk : Int)))) s') s]
  simp only [NDArray.repeatTad, Nat.cast_add]

end RepeatLoops

section RepeatTads

variable {α : Type}

open ConstantTadHelper shape

theorem exists_split {β : Type} (l : List β) (d : Nat) (hd : d < l.length) :
    ∃ pre x post, l = pre ++ x :: post ∧ pre.length = d := by
  induction d generalizing l with
  | zero =>
    cases l with
    | nil => simp at hd
    | cons x xs => exact ⟨[], x, xs, rfl, rfl⟩
  | succ d ih =>
    cases l with
    | nil => simp at hd
    | cons y ys =>
      obtain ⟨pre, x, post, hEq, hlen⟩ := ih ys (by simpa using hd)
      exact ⟨y :: pre, x, post, by rw [hEq]; rfl, by simp [hlen]⟩

theorem tensorAlongDimension_in_range
    (checkDimensions : Nat → List Nat → Except Exception (List Nat)) (beforeTable : Int → Int)
    (a : NDArray) (d t : Nat) (hcheck : checkDimensions a.rankOf [d] = .ok [d])
    (ht : t < a.tensorsAlongDimension [d]) :
    a.tensorAlongDimension checkDimensions beforeTable (t : Int) [d] = .ok (a.tadAt d t) := by
  have h : ¬ ((t : Int) ≥ ((tadForDimensions a.toShapeInfo [d]).numberOfTads : Int)) := by
    simp only [NDArray.tensorsAlongDimension] at ht
    omega
  have hneg : ¬ ((t : Int) < 0) := by omega
  simp only [NDArray.tensorAlongDimension, hcheck, h, hneg, if_false, NDArray.tadAt,
    Int.toNat_ofNat]

/-- The tads along one axis `d`, the extents and strides being split at `d`. -/
theorem tadAt_split (a : NDArray) (d t : Nat) (pre post : List Nat) (n : Nat)
    (spre spost : List Int) (sd : Int)
    (hsh : a.shape = pre ++ n :: post) (hst : a.strides = spre ++ sd :: spost)
    (hpre : pre.length = d) (hspre : spre.length = d) :
    a.tensorsAlongDimension [d] = prodLong (pre ++ post) ∧
    (a.tadAt d t).shape = [n] ∧ (a.tadAt d t).strides = [sd] ∧
    (a.tadAt d t).dataType = a.dataType ∧
    (a.tadAt d t).buffer.block = a.buffer.block ∧
    (t < prodLong (pre ++ post) →
      (a.tadAt d t).buffer.offset = a.buffer.offset
        + shape.getOffset 0 (spre ++ spost)
            ((unravel (pre ++ post) t).map (fun (k : Nat) => (k : Int)))) := by
  have hk1 := keepAxes_split d pre n post 0 (by omega)
  have hk2 := keepAxes_split d spre sd spost 0 (by omega)
  refine ⟨?_, ?_, ?_, rfl, rfl, ?_⟩
  · simp only [NDArray.tensorsAlongDimension, tadForDimensions, TadPack.numberOfTads, hsh,
      hk1.2, List.length_map, List.length_range]
  · simp only [NDArray.tadAt, tadForDimensions, hsh, hk1.1]
  · simp only [NDArray.tadAt, tadForDimensions, hst, hk2.1]
  · intro ht
    simp only [NDArray.tadAt, tadForDimensions, NDArray.bufferWithOffset, hsh, hst, hk1.2, hk2.2]
    rw [List.getD_eq_getElem _ _ (by simpa using ht)]
    simp only [List.getElem_map, List.getElem_range, ind2subC_natCast]

/-- Addressing in a rank-1 array. -/
theorem rank1 (t : NDArray) (n : Nat) (sd : Int) (hsh : t.shape = [n]) (hst : t.strides = [sd]) :
    t.lengthOf = n ∧ ∀ i : Nat, t.getOffset (i : Int) = (i : Int) * sd := by
  constructor
  · simp [NDArray.lengthOf, hsh, prodLong]
  · intro i
    rw [getOffset_natCast, hsh, hst]
    simp [unravel, prodLong, shape.getOffset]

theorem modify_split {β : Type} (f : β → β) (pre : List β) (x : β) (post : List β) (d : Nat)
    (hpre : pre.length = d) :
    (pre ++ x :: post).modify f d = pre ++ f x :: post := by
  induction pre generalizing d with
  | nil => subst hpre; rfl
  | cons p rest ih =>
    subst hpre
    simp only [List.cons_append, List.length_cons, List.modify_succ_cons, ih rest.length rfl]

theorem map_getD_range (l : List Nat) :
    (List.range l.length).map (fun (i : Nat) => l.getD i 0) = l := by
  apply List.ext_getElem
  · simp
  · intro i h1 h2
    simp only [List.getElem_map, List.getElem_range]
    exact List.getD_eq_getElem _ _ h2

theorem prodLong_split (pre post : List Nat) (x : Nat) :
    prodLong (pre ++ x :: post) = x * prodLong (pre ++ post) := by
  simp only [prodLong, List.prod_append, List.prod_cons]
  ring

/-- What `repeat(d, {k})` does on a non-empty numeric array whose extents and strides
are split at the axis `d`: it returns the freshly allocated row-major array, after the
stores of `repeatTad` on each pair of tads. -/
theorem repeat_eq (checkDimensions : Nat → List Nat → Except Exception (List Nat))
    (beforeTable : Int → Int) (m : Memory α) (a : NDArray) (d k : Nat) (pre post : List Nat)
    (n : Nat) (spre spost : List Int) (sd : Int)
    (hsh : a.shape = pre ++ n :: post) (hst : a.strides = spre ++ sd :: spost)
    (hpre : pre.length = d) (hspre : spre.length = d)
    (hnum : a.dataType ∈ LIBND4J_TYPES) (hlen : 0 < a.lengthOf)
    (hcheck : checkDimensions a.rankOf [d] = .ok [d])
    (hfit : a.tensorsAlongDimension [d] ≤ INT_MAX) :
    a.repeat_ checkDimensions beforeTable m d [k]
      = .ret ((List.range (prodLong (pre ++ post))).foldl
            (fun s (t : Nat) => NDArray.repeatTad k (a.tadAt d t)
              ((a.repeatTarget m.next (pre ++ (n * k) :: post)).tadAt d t) s)
            { m with next := m.next + 1 })
          (a.repeatTarget m.next (pre ++ (n * k) :: post)) := by
  obtain ⟨rpre, hrpre, hrst⟩ := calcStridesC_append pre ((n * k) :: post)
  have hRsh : (a.repeatTarget m.next (pre ++ (n * k) :: post)).shape = pre ++ (n * k) :: post :=
    rfl
  have hRst : (a.repeatTarget m.next (pre ++ (n * k) :: post)).strides
      = rpre ++ (prodLong post : Int) :: calcStridesC post := by
    have h : calcStridesC ((n * k) :: post) = (prodLong post : Int) :: calcStridesC post := rfl
    rw [← h, ← hrst]; rfl
  have hout : ShapeUtils.evalRepeatShape d [k] a.toShapeInfo = pre ++ (n * k) :: post := by
    simp only [ShapeUtils.evalRepeatShape, hsh, List.getD_cons_zero]
    exact modify_split _ pre n post d hpre
  have hrank : a.rankOf = (pre ++ (n * k) :: post).length := by
    simp [NDArray.rankOf, hsh]
  have hlenA : a.lengthOf = n * prodLong (pre ++ post) := by
    simp only [NDArray.lengthOf, hsh, prodLong_split]
  have hdelta : prodLong (pre ++ (n * k) :: post) / a.lengthOf = k := by
    rw [prodLong_split, hlenA]
    rw [hlenA] at hlen
    rw [show n * k * prodLong (pre ++ post) = k * (n * prodLong (pre ++ post)) by ring]
    exact Nat.mul_div_cancel _ hlen
  have hne : ¬ a.lengthOf = 0 := by omega
  have hA := fun t => tadAt_split a d t pre post n spre spost sd hsh hst hpre hspre
  have hR := fun t => tadAt_split (a.repeatTarget m.next (pre ++ (n * k) :: post)) d t pre post
    (n * k) rpre (calcStridesC post) (prodLong post : Int) hRsh hRst hpre (by omega)
  have hcheckR : checkDimensions (a.repeatTarget m.next (pre ++ (n * k) :: post)).rankOf [d]
      = .ok [d] := by
    rw [← hcheck]
    congr 1
    simp only [NDArray.rankOf, hRsh, hsh, List.length_append, List.length_cons]
  have hloop : forEach (List.range (prodLong (pre ++ post)))
      (fun (i : Nat) (s : Memory α) =>
        match a.tensorAlongDimension checkDimensions beforeTable i [d],
          (a.repeatTarget m.next (pre ++ (n * k) :: post)).tensorAlongDimension checkDimensions
            beforeTable i [d] with
        | .ok thisTensor, .ok retTensor =>
          let inner := forEach (List.range thisTensor.lengthOf)
            (fun (kk : Nat) (st : Memory α × Int) =>
              match thisTensor.eScalar st.1 kk with
              | .ok sv =>
                forEach (List.range k) (fun (_ : Nat) (st' : Memory α × Int) =>
                  let w := retTensor.pScalar st'.1 st'.2 thisTensor.dataType sv
                  ⟨(w.state, st'.2 + 1), w.value⟩) st
              | .error ex => .raise st ex) (s, 0)
          ⟨inner.state.1, inner.value⟩
        | .error ex, _ => .raise s ex
        | .ok _, .error ex => .raise s ex)
      { m with next := m.next + 1 }
      = .ret ((List.range (prodLong (pre ++ post))).foldl
            (fun s (t : Nat) => NDArray.repeatTad k (a.tadAt d t)
              ((a.repeatTarget m.next (pre ++ (n * k) :: post)).tadAt d t) s)
            { m with next := m.next + 1 }) () := by
    apply forEach_eq_foldl
    intro t ht s
    have ht' := List.mem_range.mp ht
    rw [tensorAlongDimension_in_range checkDimensions beforeTable a d t hcheck
        (by rw [(hA t).1]; exact ht'),
      tensorAlongDimension_in_range checkDimensions beforeTable _ d t hcheckR
        (by rw [(hR t).1]; exact ht')]
    simp only []
    rw [repeat_inner_loops s (a.tadAt d t) _ k (by rw [(hA t).2.2.2.1]; exact hnum)
      (by rw [(rank1 _ _ _ (hR t).2.1 (hR t).2.2.1).1, (rank1 _ _ _ (hA t).2.1 (hA t).2.2.1).1])]
    rfl
  have hfit₁ : prodLong (pre ++ post) ≤ INT_MAX := by rw [← (hA 0).1]; exact hfit
  unfold NDArray.repeat_
  simp only [hout, hrank, map_getD_range, Memory.allocate, hne, if_false, hdelta, (hA 0).1]
  rw [forInt_of_le _ _ _ hfit₁]
  erw [hloop]
  rfl

theorem write_shift (s : Memory α) (b : Nat) (o o' i : Int) (v : α) :
    s.write ⟨b, o + o'⟩ i v = s.write ⟨b, o⟩ (o' + i) v := by
  simp only [Memory.write, add_assoc]

theorem read_shift (s : Memory α) (b : Nat) (o o' i : Int) :
    s.read ⟨b, o + o'⟩ i = s.read ⟨b, o⟩ (o' + i) := by
  simp only [Memory.read, add_assoc]

/-- A value read before a run of stores into another block may as well be read at
each store. -/
theorem foldl_write_preread {ι : Type} (items : List ι) (rb tb : Pointer) (w : ι → Int)
    (r : Int) (hblock : tb.block ≠ rb.block) (s : Memory α) :
    items.foldl (fun s₂ x => s₂.write rb (w x) (s.read tb r)) s
      = items.foldl (fun s₂ x => s₂.write rb (w x) (s₂.read tb r)) s := by
  have h : ∀ (s₂ : Memory α), s₂.read tb r = s.read tb r →
      items.foldl (fun s₂ x => s₂.write rb (w x) (s.read tb r)) s₂
        = items.foldl (fun s₂ x => s₂.write rb (w x) (s₂.read tb r)) s₂ := by
    induction items with
    | nil => intro _ _; rfl
    | cons x rest ih =>
      intro s₂ hs₂
      simp only [List.foldl_cons, hs₂]
      apply ih
      simp only [Memory.read, Memory.cells_write]
      rw [if_neg (fun hcon => hblock hcon.1)]
      exact hs₂
  exact h s rfl

/-- The stores of `repeatTad` as one run over the pairs `(k, j)`, addressed from the
start of the two parent buffers. -/
theorem repeatTad_eq (k n : Nat) (sd rd : Int) (thisT retT : NDArray) (ab rb : Pointer)
    (oA oR : Int) (s : Memory α)
    (hsh : thisT.shape = [n]) (hst : thisT.strides = [sd])
    (hrsh : retT.shape = [n * k]) (hrst : retT.strides = [rd])
    (hbA : thisT.buffer = ⟨ab.block, ab.offset + oA⟩)
    (hbR : retT.buffer = ⟨rb.block, rb.offset + oR⟩)
    (hblock : ab.block ≠ rb.block) :
    NDArray.repeatTad k thisT retT s
      = ((List.range n).product (List.range k)).foldl
          (fun s₂ (q : Nat × Nat) =>
            s₂.write rb (oR + ((q.1 * k + q.2 : Nat) : Int) * rd)
              (s₂.read ab (oA + (q.1 : Int) * sd))) s := by
  have h1 := rank1 thisT n sd hsh hst
  have h2 := rank1 retT (n * k) rd hrsh hrst
  rw [foldl_product]
  unfold NDArray.repeatTad
  rw [h1.1]
  congr 1
  funext s₁ kk
  rw [foldl_write_preread (List.range k) retT.buffer thisT.buffer _ _
    (by rw [hbA, hbR]; exact hblock) s₁]
  congr 1
  funext s₂ j
  rw [h1.2, h2.2, hbA, hbR, write_shift, read_shift]

end RepeatTads

section RepeatMain

variable {α : Type}

open ConstantTadHelper shape

/-- The offset formula with an index inserted at the split axis. -/
theorem getOffset_insert (upre upost : List Nat) (x : Nat) (spre spost : List Int) (sd : Int)
    (hlen : upre.length = spre.length) :
    shape.getOffset 0 (spre ++ sd :: spost)
        ((upre ++ x :: upost).map (fun (k : Nat) => (k : Int)))
      = shape.getOffset 0 (spre ++ spost) ((upre ++ upost).map (fun (k : Nat) => (k : Int)))
        + (x : Int) * sd := by
  rw [List.map_append, List.map_append, List.map_cons]
  exact getOffset_split _ _ spre spost _ sd (by simpa using hlen)

/-- The cell a store of `repeat` addresses in the row-major result, as the linear index
of a multi-index of the result. -/
theorem repeat_store_cell (pre post : List Nat) (nk : Nat) (rpre : List Int)
    (hrpre : rpre.length = pre.length)
    (hrst : calcStridesC (pre ++ nk :: post) = rpre ++ (prodLong post : Int) :: calcStridesC post)
    (t x : Nat) (ht : t < prodLong (pre ++ post)) (hx : x < nk) :
    ∃ upre upost, unravel (pre ++ post) t = upre ++ upost ∧ upre.length = pre.length ∧
      validNat (pre ++ nk :: post) (upre ++ x :: upost) ∧
      shape.getOffset 0 (rpre ++ calcStridesC post)
          ((unravel (pre ++ post) t).map (fun (k : Nat) => (k : Int)))
          + (x : Int) * (prodLong post : Int)
        = (ravel (pre ++ nk :: post) (upre ++ x :: upost) : Int) := by
  obtain ⟨upre, upost, hu, hv1, hv2⟩ := validNat_split pre post _ (unravel_valid _ t ht)
  have hlen : upre.length = pre.length := validNat_length pre upre hv1
  have hvalid : validNat (pre ++ nk :: post) (upre ++ x :: upost) :=
    validNat_append pre (nk :: post) upre (x :: upost) hv1 (List.Forall₂.cons hx hv2)
  refine ⟨upre, upost, hu, hlen, hvalid, ?_⟩
  rw [← getOffset_calcStridesC _ _ hvalid, hrst, hu,
    getOffset_insert upre upost x rpre (calcStridesC post) _ (by omega)]

theorem repeat_store_injective (pre post : List Nat) (n k : Nat) (rpre : List Int)
    (hrpre : rpre.length = pre.length)
    (hrst : calcStridesC (pre ++ (n * k) :: post)
      = rpre ++ (prodLong post : Int) :: calcStridesC post)
    (t t' kk kk' j j' : Nat) (ht : t < prodLong (pre ++ post)) (ht' : t' < prodLong (pre ++ post))
    (hkk : kk < n) (hkk' : kk' < n) (hj : j < k) (hj' : j' < k)
    (h : shape.getOffset 0 (rpre ++ calcStridesC post)
          ((unravel (pre ++ post) t).map (fun (i : Nat) => (i : Int)))
          + ((kk * k + j : Nat) : Int) * (prodLong post : Int)
        = shape.getOffset 0 (rpre ++ calcStridesC post)
          ((unravel (pre ++ post) t').map (fun (i : Nat) => (i : Int)))
          + ((kk' * k + j' : Nat) : Int) * (prodLong post : Int)) :
    t = t' ∧ kk = kk' ∧ j = j' := by
  have hb : ∀ a b : Nat, a < n → b < k → a * k + b < n * k := by
    intro a b ha hb'
    calc a * k + b < a * k + k := by omega
      _ = (a + 1) * k := by ring
      _ ≤ n * k := Nat.mul_le_mul_right _ ha
  obtain ⟨upre, upost, hu, hlen, hvalid, hcell⟩ :=
    repeat_store_cell pre post (n * k) rpre hrpre hrst t (kk * k + j) ht (hb kk j hkk hj)
  obtain ⟨upre', upost', hu', hlen', hvalid', hcell'⟩ :=
    repeat_store_cell pre post (n * k) rpre hrpre hrst t' (kk' * k + j') ht' (hb kk' j' hkk' hj')
  rw [hcell, hcell'] at h
  have hrav : ravel (pre ++ n * k :: post) (upre ++ (kk * k + j) :: upost)
      = ravel (pre ++ n * k :: post) (upre' ++ (kk' * k + j') :: upost') := by exact_mod_cast h
  have hM := congrArg (unravel (pre ++ n * k :: post)) hrav
  rw [unravel_ravel _ _ hvalid, unravel_ravel _ _ hvalid'] at hM
  obtain ⟨h1, h2⟩ := List.append_inj hM (by omega)
  simp only [List.cons.injEq] at h2
  refine ⟨unravel_injective _ t t' ht ht' (by rw [hu, hu', h1, h2.2]), ?_⟩
  have hdiv : (kk * k + j) / k = (kk' * k + j') / k := by rw [h2.1]
  have hmod : (kk * k + j) % k = (kk' * k + j') % k := by rw [h2.1]
  have hk : 0 < k := by omega
  rw [Nat.add_comm, Nat.add_mul_div_right _ _ hk, Nat.div_eq_of_lt hj, Nat.add_comm (kk' * k),
    Nat.add_mul_div_right _ _ hk, Nat.div_eq_of_lt hj'] at hdiv
  rw [Nat.add_comm, Nat.add_mul_mod_self_right, Nat.mod_eq_of_lt hj, Nat.add_comm (kk' * k),
    Nat.add_mul_mod_self_right, Nat.mod_eq_of_lt hj'] at hmod
  exact ⟨by omega, hmod⟩

theorem getD_split (pre post : List Nat) (x : Nat) (d' : Nat) :
    (pre ++ x :: post).getD pre.length 0 = x ∧
    ∀ y : Nat, d' ≠ pre.length → (pre ++ x :: post).getD d' 0 = (pre ++ y :: post).getD d' 0 := by
  induction pre generalizing d' with
  | nil =>
    refine ⟨rfl, fun y hd' => ?_⟩
    cases d' with
    | zero => simp at hd'
    | succ e => simp
  | cons p rest ih =>
    refine ⟨by simpa using (ih 0).1, fun y hd' => ?_⟩
    cases d' with
    | zero => simp
    | succ e =>
      simp only [List.cons_append, List.getD_cons_succ]
      exact (ih e).2 y (by simpa using hd')

/-- The state `repeat` leaves, as one run of stores over the triples (tad, source
index, repetition), each reading the source and writing the fresh result. -/
theorem repeat_state (m : Memory α) (a : NDArray) (d k : Nat) (pre post : List Nat) (n : Nat)
    (spre spost rpre : List Int) (sd : Int)
    (hsh : a.shape = pre ++ n :: post) (hst : a.strides = spre ++ sd :: spost)
    (hpre : pre.length = d) (hspre : spre.length = d)
    (hrpre : rpre.length = pre.length)
    (hrst : calcStridesC (pre ++ (n * k) :: post)
      = rpre ++ (prodLong post : Int) :: calcStridesC post)
    (halloc : a.buffer.block < m.next) :
    (List.range (prodLong (pre ++ post))).foldl
        (fun s (t : Nat) => NDArray.repeatTad k (a.tadAt d t)
          ((a.repeatTarget m.next (pre ++ (n * k) :: post)).tadAt d t) s)
        { m with next := m.next + 1 }
      = ((List.range (prodLong (pre ++ post))).product
          ((List.range n).product (List.range k))).foldl
          (fun s (q : Nat × Nat × Nat) =>
            s.write (a.repeatTarget m.next (pre ++ (n * k) :: post)).buffer
              (shape.getOffset 0 (rpre ++ calcStridesC post)
                  ((unravel (pre ++ post) q.1).map (fun (i : Nat) => (i : Int)))
                + ((q.2.1 * k + q.2.2 : Nat) : Int) * (prodLong post : Int))
              (s.read a.buffer
                (shape.getOffset 0 (spre ++ spost)
                    ((unravel (pre ++ post) q.1).map (fun (i : Nat) => (i : Int)))
                  + (q.2.1 : Int) * sd)))
          { m with next := m.next + 1 } := by
  have hRst : (a.repeatTarget m.next (pre ++ (n * k) :: post)).strides
      = rpre ++ (prodLong post : Int) :: calcStridesC post := by
    rw [← hrst]; rfl
  have hA := fun t => tadAt_split a d t pre post n spre spost sd hsh hst hpre hspre
  have hR := fun t => tadAt_split (a.repeatTarget m.next (pre ++ (n * k) :: post)) d t pre post
    (n * k) rpre (calcStridesC post) (prodLong post : Int) rfl hRst hpre (by omega)
  rw [foldl_product]
  apply List.foldl_ext
  intro s t ht
  have ht' := List.mem_range.mp ht
  exact repeatTad_eq k n sd (prodLong post : Int) (a.tadAt d t) _ a.buffer
    (a.repeatTarget m.next (pre ++ (n * k) :: post)).buffer _ _ s
    (hA t).2.1 (hA t).2.2.1 (hR t).2.1 (hR t).2.2.1
    (by
      have h1 := (hA t).2.2.2.2.1
      have h2 := (hA t).2.2.2.2.2 ht'
      cases hb : (a.tadAt d t).buffer
      rw [hb] at h1 h2
      simp only at h1 h2
      rw [h1, h2])
    (by
      have h1 := (hR t).2.2.2.2.1
      have h2 := (hR t).2.2.2.2.2 ht'
      cases hb : ((a.repeatTarget m.next (pre ++ (n * k) :: post)).tadAt d t).buffer
      rw [hb] at h1 h2
      simp only at h1 h2
      rw [h1, h2])
    (Nat.ne_of_lt halloc)

/-- With more than `INT_MAX` tads along the axis, `repeat` does not return an array:
the `int` counter of the loop over the tads cannot reach its bound. -/
theorem repeat_beyond_int
    (checkDimensions : Nat → List Nat → Except Exception (List Nat)) (beforeTable : Int → Int)
    (m : Memory α) (a : NDArray) (d : Nat) (repeats : List Nat)
    (h : INT_MAX < a.tensorsAlongDimension [d]) :
    ∃ ex, (a.repeat_ checkDimensions beforeTable m d repeats).value = .error ex := by
  unfold NDArray.repeat_
  dsimp only
  by_cases h0 : a.lengthOf = 0
  · rw [if_pos h0]; exact ⟨_, rfl⟩
  · rw [if_neg h0]
    obtain ⟨ex, hex⟩ := forInt_gt (a.tensorsAlongDimension [d]) _ _ h
    refine ⟨ex, ?_⟩
    rw [hex]
    rfl

/-- The array of `2^31` rows of one cell has `2^31` tads along axis 1, and `repeat(1, {2})`
does not return an array on it, whatever the memory holds. -/
theorem repeat_on_long_array :
    rows2G.tensorsAlongDimension [1] = 2147483648 ∧
    ∀ m : Memory Int, ∃ ex,
      (rows2G.repeat_ acceptAxes zerosBefore m 1 [2]).value = .error ex := by
  have h : rows2G.tensorsAlongDimension [1] = 2147483648 := by
    simp only [NDArray.tensorsAlongDimension, TadPack.numberOfTads,
      ConstantTadHelper.tadForDimensions, List.length_map, List.length_range]
    decide
  exact ⟨h, fun m => repeat_beyond_int acceptAxes zerosBefore m rows2G 1 [2]
    (by rw [h]; decide)⟩

/-- C6 (counterexample): with an axis check that accepts the axis, `repeat(0, {2})`
raises on a string-typed vector (the selector over the numeric types has no case for
it), and on a vector of extent 0 it divides by the length 0. -/
theorem repeat_fails_on_string_or_empty :
    (({ vec3 with dataType := .UTF8 } : NDArray).repeat_ acceptAxes zerosBefore mem123 0
      [2]).value = .error .runtime_error ∧
    (({ vec3 with shape := [0] } : NDArray).repeat_ acceptAxes zerosBefore mem123 0
      [2]).value = .error .division_by_zero := by
  decide

/-- C6 (amended): for a non-empty numeric array `A` (one stride per axis, living in
allocated memory), an axis `d` of `A` that the axis check accepts as it is, a number of
tads of `A` along `d` of at most `INT_MAX`, and a count `k ≥ 1`, `repeat(d, {k})` returns
an array `R` of the same rank with `R.sizeAt(d) = k * A.sizeAt(d)` and every other
extent that of `A`, and the element of `R` at a multi-index `(…, j, …)` is the element
of `A` at `(…, j / k, …)`. -/
theorem repeat_repeats_along_axis
    (checkDimensions : Nat → List Nat → Except Exception (List Nat)) (beforeTable : Int → Int)
    (m : Memory α) (a : NDArray) (d k : Nat)
    (hnum : a.dataType ∈ LIBND4J_TYPES) (hlen : 0 < a.lengthOf) (hd : d < a.rankOf)
    (hstr : a.strides.length = a.shape.length) (hk : 1 ≤ k)
    (halloc : a.buffer.block < m.next)
    (hcheck : checkDimensions a.rankOf [d] = .ok [d])
    (hfit : a.tensorsAlongDimension [d] ≤ INT_MAX) :
    ∃ R : NDArray, (a.repeat_ checkDimensions beforeTable m d [k]).value = .ok R ∧
      R.rankOf = a.rankOf ∧
      R.sizeAt d = k * a.sizeAt d ∧
      (∀ d' : Nat, d' ≠ d → R.sizeAt d' = a.sizeAt d') ∧
      ∀ idx : List Nat, validNat R.shape idx →
        (a.repeat_ checkDimensions beforeTable m d [k]).state.read R.buffer
            (shape.getOffset 0 R.strides (idx.map (fun (i : Nat) => (i : Int))))
          = m.read a.buffer
            (shape.getOffset 0 a.strides
              ((idx.modify (fun j => j / k) d).map (fun (i : Nat) => (i : Int)))) := by
  obtain ⟨pre, n, post, hsh, hpre⟩ := exists_split a.shape d hd
  obtain ⟨spre, sd, spost, hst, hspre⟩ := exists_split a.strides d (by rw [hstr]; exact hd)
  obtain ⟨rpre, hrpre, hrst'⟩ := calcStridesC_append pre ((n * k) :: post)
  have hrst : calcStridesC (pre ++ (n * k) :: post)
      = rpre ++ (prodLong post : Int) :: calcStridesC post := hrst'
  have heq := repeat_eq checkDimensions beforeTable m a d k pre post n spre spost sd hsh hst
    hpre hspre hnum hlen hcheck hfit
  have hRsh : (a.repeatTarget m.next (pre ++ (n * k) :: post)).shape = pre ++ (n * k) :: post :=
    rfl
  have hRst : (a.repeatTarget m.next (pre ++ (n * k) :: post)).strides
      = rpre ++ (prodLong post : Int) :: calcStridesC post := by
    rw [← hrst]; rfl
  refine ⟨a.repeatTarget m.next (pre ++ (n * k) :: post), by rw [heq]; rfl, ?_, ?_, ?_, ?_⟩
  · simp [NDArray.rankOf, hRsh, hsh]
  · simp only [NDArray.sizeAt, hRsh, hsh, ← hpre, (getD_split pre post (n * k) 0).1,
      (getD_split pre post n 0).1]
    ring
  · intro d' hd'
    simp only [NDArray.sizeAt, hRsh, hsh]
    exact (getD_split pre post (n * k) d').2 n (by omega)
  · intro idx hv
    rw [hRsh] at hv
    obtain ⟨ipre, rest, hidx, hv1, hv2⟩ := validNat_split pre ((n * k) :: post) idx hv
    cases hv2 with
    | cons hx hv3 =>
      rename_i x ipost
      have hilen : ipre.length = pre.length := validNat_length pre ipre hv1
      have hvo : validNat (pre ++ post) (ipre ++ ipost) := validNat_append _ _ _ _ hv1 hv3
      have ht : ravel (pre ++ post) (ipre ++ ipost) < prodLong (pre ++ post) := ravel_lt _ _ hvo
      have hut := unravel_ravel _ _ hvo
      have hk0 : 0 < k := hk
      have hkk : x / k < n := Nat.div_lt_of_lt_mul (by rw [Nat.mul_comm]; exact hx)
      have hj : x % k < k := Nat.mod_lt _ hk0
      rw [heq]
      simp only [Outcome.ret]
      rw [repeat_state m a d k pre post n spre spost rpre sd hsh hst hpre hspre hrpre hrst halloc]
      have hmain := foldl_write_read
        ((List.range (prodLong (pre ++ post))).product ((List.range n).product (List.range k)))
        (a.repeatTarget m.next (pre ++ (n * k) :: post)).buffer a.buffer
        (fun (q : Nat × Nat × Nat) =>
          shape.getOffset 0 (rpre ++ calcStridesC post)
              ((unravel (pre ++ post) q.1).map (fun (i : Nat) => (i : Int)))
            + ((q.2.1 * k + q.2.2 : Nat) : Int) * (prodLong post : Int))
        (fun (q : Nat × Nat × Nat) =>
          shape.getOffset 0 (spre ++ spost)
              ((unravel (pre ++ post) q.1).map (fun (i : Nat) => (i : Int)))
            + (q.2.1 : Int) * sd)
        (fun _ v => v) { m with next := m.next + 1 }
        (List.Nodup.product (List.nodup_range _)
          (List.Nodup.product (List.nodup_range _) (List.nodup_range _)))
        (by
          rintro ⟨t, kk, j⟩ hq ⟨t', kk', j'⟩ hq' hne hW
          obtain ⟨h1, h2⟩ := List.pair_mem_product.mp hq
          obtain ⟨h3, h4⟩ := List.pair_mem_product.mp h2
          obtain ⟨h1', h2'⟩ := List.pair_mem_product.mp hq'
          obtain ⟨h3', h4'⟩ := List.pair_mem_product.mp h2'
          obtain ⟨e1, e2, e3⟩ := repeat_store_injective pre post n k rpre hrpre hrst
            t t' kk kk' j j' (List.mem_range.mp h1) (List.mem_range.mp h1')
            (List.mem_range.mp h3) (List.mem_range.mp h3') (List.mem_range.mp h4)
            (List.mem_range.mp h4') hW
          exact hne (by rw [e1, e2, e3]))
        (fun _ _ _ _ _ hcon => Nat.ne_of_lt halloc hcon.1)
        (ravel (pre ++ post) (ipre ++ ipost), x / k, x % k)
        (List.pair_mem_product.mpr ⟨List.mem_range.mpr ht,
          List.pair_mem_product.mpr ⟨List.mem_range.mpr hkk, List.mem_range.mpr hj⟩⟩)
      have hW : shape.getOffset 0 (a.repeatTarget m.next (pre ++ (n * k) :: post)).strides
            (idx.map (fun (i : Nat) => (i : Int)))
          = shape.getOffset 0 (rpre ++ calcStridesC post)
              ((unravel (pre ++ post) (ravel (pre ++ post) (ipre ++ ipost))).map
                (fun (i : Nat) => (i : Int)))
            + ((x / k * k + x % k : Nat) : Int) * (prodLong post : Int) := by
        rw [hRst, hidx, hut, Nat.div_add_mod' x k,
          getOffset_insert ipre ipost x rpre (calcStridesC post) _ (by omega)]
      have hR : shape.getOffset 0 a.strides
            ((idx.modify (fun j => j / k) d).map (fun (i : Nat) => (i : Int)))
          = shape.getOffset 0 (spre ++ spost)
              ((unravel (pre ++ post) (ravel (pre ++ post) (ipre ++ ipost))).map
                (fun (i : Nat) => (i : Int)))
            + ((x / k : Nat) : Int) * sd := by
        rw [hst, hidx, hut, modify_split _ ipre x ipost d (by omega),
          getOffset_insert ipre ipost (x / k) spre spost sd (by omega)]
      rw [hW, hR]
      exact hmain

/-- Witness of C6 (amended): the three-element vector repeated twice along its axis. -/
theorem repeat_repeats_along_axis_witness :
    ∃ R : NDArray, (vec3.repeat_ acceptAxes zerosBefore mem123 0 [2]).value = .ok R ∧
      R.rankOf = vec3.rankOf ∧
      R.sizeAt 0 = 2 * vec3.sizeAt 0 ∧
      (∀ d' : Nat, d' ≠ 0 → R.sizeAt d' = vec3.sizeAt d') ∧
      ∀ idx : List Nat, validNat R.shape idx →
        (vec3.repeat_ acceptAxes zerosBefore mem123 0 [2]).state.read R.buffer
            (shape.getOffset 0 R.strides (idx.map (fun (i : Nat) => (i : Int))))
          = mem123.read vec3.buffer
            (shape.getOffset 0 vec3.strides
              ((idx.modify (fun j => j / 2) 0).map (fun (i : Nat) => (i : Int)))) :=
  repeat_repeats_along_axis acceptAxes zerosBefore mem123 vec3 0 2 (by decide) (by decide)
    (by decide) rfl (by decide) (by decide) rfl (by decide)

end RepeatMain

/-! ## tile -/

section Tile

variable {α : Type}

open shape

theorem toInt32_of_fits (x : Int) (h0 : 0 ≤ x) (h1 : x < 2147483648) : toInt32 x = x := by
  unfold toInt32
  omega

theorem prod_pos_of_one_le (reps : List Int) (h : ∀ r ∈ reps, 1 ≤ r) : 1 ≤ reps.prod := by
  induction reps with
  | nil => simp
  | cons r rest ih =>
    rw [List.prod_cons]
    have h1 := h r (List.mem_cons_self r rest)
    have h2 := ih (fun x hx => h x (List.mem_cons_of_mem r hx))
    nlinarith

/-- While the product of the entries fits an `int`, the accumulator of `tile` holds it. -/
theorem tile_product (reps : List Int) (h : ∀ r ∈ reps, 1 ≤ r) (acc : Int) (hacc : 1 ≤ acc)
    (hfit : acc * reps.prod < 2147483648) :
    reps.foldl (fun (product item : Int) => toInt32 (product * item)) acc = acc * reps.prod := by
  induction reps generalizing acc with
  | nil => simp
  | cons r rest ih =>
    have h1 := h r (List.mem_cons_self r rest)
    have h2 := prod_pos_of_one_le rest (fun x hx => h x (List.mem_cons_of_mem r hx))
    rw [List.prod_cons] at hfit
    have hpos : 0 ≤ acc * r := by nlinarith
    have hle : acc * r ≤ acc * (r * rest.prod) := by
      calc acc * r = acc * r * 1 := by ring
        _ ≤ acc * r * rest.prod := mul_le_mul_of_nonneg_left h2 hpos
        _ = acc * (r * rest.prod) := by ring
    rw [List.foldl_cons, toInt32_of_fits (acc * r) (by nlinarith) (by omega),
      ih (fun x hx => h x (List.mem_cons_of_mem r hx)) (acc * r) (by nlinarith)
        (by rw [mul_assoc]; exact hfit),
      List.prod_cons, mul_assoc]

theorem zipWith_tmod_cast (l sh : List Nat) :
    List.zipWith (fun (i : Int) (d : Nat) => Int.tmod i (d : Int))
        (l.map (fun (k : Nat) => (k : Int))) sh
      = (List.zipWith (fun (i d : Nat) => i % d) l sh).map (fun (k : Nat) => (k : Int)) := by
  induction l generalizing sh with
  | nil => simp
  | cons x rest ih =>
    cases sh with
    | nil => simp
    | cons d ds =>
      simp only [List.map_cons, List.zipWith_cons_cons, ih]
      rfl

/-- `subArrayOffset` at the linear index of a destination multi-index: the offset of
the source element at the aligned, reduced multi-index. -/
theorem subArrayOffset_ravel (maxShapeInfo minShapeInfo : ShapeInfo) (idx : List Nat)
    (hv : validNat maxShapeInfo.shape idx) :
    shape.subArrayOffset ((ravel maxShapeInfo.shape idx : Nat) : Int) maxShapeInfo minShapeInfo
      = shape.getOffset 0 minShapeInfo.strides
          ((alignedMod idx minShapeInfo.shape).map (fun (k : Nat) => (k : Int))) := by
  simp only [shape.subArrayOffset, ind2subC_natCast, unravel_ravel _ _ hv, ← List.map_drop,
    zipWith_tmod_cast, alignedMod, validNat_length _ _ hv]

theorem templatedAssign_eq (s : Memory α) (x y : Pointer) (xOffset yOffset : Int)
    (hx : x ≠ nullptr) (hy : y ≠ nullptr) :
    NDArray.templatedAssign s x xOffset y yOffset = s.write x xOffset (s.read y yOffset) := by
  simp only [NDArray.templatedAssign, hx, hy, ne_eq, not_false_eq_true, and_self, if_true]

/-- The general path of `tile` (the accumulator is neither 0 nor 1) on a numeric array
with a buffer: the result is the tile descriptor over a fresh block, and each logical
element of it has received the source element `subArrayOffset` selects. -/
theorem tile_general_eq (m : Memory α) (a : NDArray) (reps : List Int)
    (hnum : a.dataType ∈ LIBND4J_TYPES) (hbuf : a.buffer ≠ nullptr) (hnext : m.next ≠ 0)
    (hp0 : reps.foldl (fun (product item : Int) => toInt32 (product * item)) 1 ≠ 0)
    (hp1 : reps.foldl (fun (product item : Int) => toInt32 (product * item)) 1 ≠ 1) :
    a.tile m reps
      = .ret ((List.range (a.tileTarget m.next reps).lengthOf).foldl
            (fun s (i : Nat) =>
              s.write (a.tileTarget m.next reps).buffer
                ((a.tileTarget m.next reps).getOffset (i : Int))
                (s.read a.buffer
                  (shape.subArrayOffset (i : Int) (a.tileTarget m.next reps).toShapeInfo
                    a.toShapeInfo)))
            { m with next := m.next + 1 })
          (a.tileTarget m.next reps) := by
  have hnew : (⟨m.next, 0⟩ : Pointer) ≠ nullptr := by
    intro h
    exact hnext (congrArg Pointer.block h)
  have hstr : (a.tileTarget m.next reps).strides
      = calcStrides (a.tileTarget m.next reps).order (a.tileTarget m.next reps).shape := rfl
  unfold NDArray.tile
  simp only [hp0, hp1, if_false, Memory.allocate]
  by_cases hc : (a.tileTarget m.next reps).order = 'c'
  · have hc' : (ShapeUtils.evalTileShapeInfo a.toShapeInfo reps).order = 'c' := hc
    simp only [hc', if_true]
    have hloop := forEach_eq_foldl
      (List.range (a.tileTarget m.next reps).lengthOf)
      (fun (i : Nat) (s : Memory α) =>
        match BUILD_SINGLE_SELECTOR a.dataType LIBND4J_TYPES
            (NDArray.templatedAssign s ⟨m.next, 0⟩ (i : Int) a.buffer
              (shape.subArrayOffset (i : Int) (ShapeUtils.evalTileShapeInfo a.toShapeInfo reps)
                a.toShapeInfo)) with
        | .ok s' => Outcome.ret s' ()
        | .error ex => Outcome.raise s ex)
      (fun s (i : Nat) => s.write (⟨m.next, 0⟩ : Pointer) (i : Int)
        (s.read a.buffer
          (shape.subArrayOffset (i : Int) (ShapeUtils.evalTileShapeInfo a.toShapeInfo reps)
            a.toShapeInfo)))
      (by
        intro i _ s
        simp only [BUILD_SINGLE_SELECTOR, hnum, if_true, templatedAssign_eq _ _ _ _ _ hnew hbuf])
      { m with next := m.next + 1 }
    erw [hloop]
    simp only [Outcome.ret]
    congr 1
    apply List.foldl_ext
    intro s i hi
    rw [getOffset_of_default _ hstr i (List.mem_range.mp hi)]
    simp only [defaultPosition, hc, if_true]
    rfl
  · have hc' : ¬ (ShapeUtils.evalTileShapeInfo a.toShapeInfo reps).order = 'c' := hc
    simp only [hc', if_false]
    have hloop := forEach_eq_foldl
      (List.range (a.tileTarget m.next reps).lengthOf)
      (fun (i : Nat) (s : Memory α) =>
        match BUILD_SINGLE_SELECTOR a.dataType LIBND4J_TYPES
            (NDArray.templatedAssign s ⟨m.next, 0⟩
              ((a.tileTarget m.next reps).getOffset (i : Int)) a.buffer
              (shape.subArrayOffset (i : Int) (ShapeUtils.evalTileShapeInfo a.toShapeInfo reps)
                a.toShapeInfo)) with
        | .ok s' => Outcome.ret s' ()
        | .error ex => Outcome.raise s ex)
      (fun s (i : Nat) => s.write (⟨m.next, 0⟩ : Pointer)
        ((a.tileTarget m.next reps).getOffset (i : Int))
        (s.read a.buffer
          (shape.subArrayOffset (i : Int) (ShapeUtils.evalTileShapeInfo a.toShapeInfo reps)
            a.toShapeInfo)))
      (by
        intro i _ s
        simp only [BUILD_SINGLE_SELECTOR, hnum, if_true, templatedAssign_eq _ _ _ _ _ hnew hbuf])
      { m with next := m.next + 1 }
    erw [hloop]
    rfl

/-- The elements of the result on the general path of `tile`. -/
theorem tile_general_read (m : Memory α) (a : NDArray) (reps : List Int)
    (hnum : a.dataType ∈ LIBND4J_TYPES) (hbuf : a.buffer ≠ nullptr)
    (halloc : a.buffer.block < m.next)
    (hp0 : reps.foldl (fun (product item : Int) => toInt32 (product * item)) 1 ≠ 0)
    (hp1 : reps.foldl (fun (product item : Int) => toInt32 (product * item)) 1 ≠ 1)
    (idx : List Nat) (hv : validNat (a.tileTarget m.next reps).shape idx) :
    (a.tile m reps).state.read (a.tileTarget m.next reps).buffer
        (shape.getOffset 0 (a.tileTarget m.next reps).strides
          (idx.map (fun (k : Nat) => (k : Int))))
      = m.read a.buffer
          (shape.getOffset 0 a.strides
            ((alignedMod idx a.shape).map (fun (k : Nat) => (k : Int)))) := by
  have hstr : (a.tileTarget m.next reps).strides
      = calcStrides (a.tileTarget m.next reps).order (a.tileTarget m.next reps).shape := rfl
  have hlt : ravel (a.tileTarget m.next reps).shape idx < (a.tileTarget m.next reps).lengthOf :=
    ravel_lt _ _ hv
  rw [tile_general_eq m a reps hnum hbuf (by omega) hp0 hp1]
  simp only [Outcome.ret]
  have hmain := foldl_write_read (List.range (a.tileTarget m.next reps).lengthOf)
    (a.tileTarget m.next reps).buffer a.buffer
    (fun (i : Nat) => (a.tileTarget m.next reps).getOffset (i : Int))
    (fun (i : Nat) => shape.subArrayOffset (i : Int) (a.tileTarget m.next reps).toShapeInfo
      a.toShapeInfo)
    (fun _ v => v) { m with next := m.next + 1 } (List.nodup_range _)
    (fun x hx y hy hxy h => hxy (distinctLinearOffsets_of_default _ hstr x y
      (List.mem_range.mp hx) (List.mem_range.mp hy) h))
    (fun _ _ _ _ _ hcon => Nat.ne_of_lt halloc hcon.1)
    (ravel (a.tileTarget m.next reps).shape idx) (List.mem_range.mpr hlt)
  beta_reduce at hmain
  rw [getOffset_natCast, unravel_ravel _ _ hv,
    subArrayOffset_ravel (a.tileTarget m.next reps).toShapeInfo a.toShapeInfo idx hv] at hmain
  exact hmain

theorem prod_zipWith_reps (xs : List Nat) (ys : List Int) (hlen : xs.length = ys.length)
    (h : ∀ r ∈ ys, 1 ≤ r) :
    (((List.zipWith (fun (s : Nat) (r : Int) => ((s : Int) * r).toNat) xs ys).prod : Nat) : Int)
      = (xs.prod : Int) * ys.prod := by
  induction xs generalizing ys with
  | nil =>
    cases ys with
    | nil => simp
    | cons r rest => simp at hlen
  | cons x rest ih =>
    cases ys with
    | nil => simp at hlen
    | cons r rs =>
      have h1 := h r (List.mem_cons_self r rs)
      have hx : (0 : Int) ≤ (x : Int) * r := by positivity
      simp only [List.zipWith_cons_cons, List.prod_cons, Nat.cast_mul, Int.toNat_of_nonneg hx,
        ih rs (by simpa using hlen) (fun y hy => h y (List.mem_cons_of_mem r hy))]
      ring

/-- The length of the tile descriptor: the source length times the product of `reps`. -/
theorem tileTarget_length (a : NDArray) (next : Nat) (reps : List Int)
    (h : ∀ r ∈ reps, 1 ≤ r) :
    ((a.tileTarget next reps).lengthOf : Int) = (a.lengthOf : Int) * reps.prod := by
  have hlen : (List.replicate (reps.length - a.shape.length) 1 ++ a.shape).length
      = (List.replicate (a.shape.length - reps.length) (1 : Int) ++ reps).length := by
    simp only [List.length_append, List.length_replicate]
    omega
  have hall : ∀ r ∈ List.replicate (a.shape.length - reps.length) (1 : Int) ++ reps, 1 ≤ r := by
    intro r hr
    rcases List.mem_append.mp hr with h1 | h1
    · rw [List.eq_of_mem_replicate h1]
    · exact h r h1
  have hp := prod_zipWith_reps _ _ hlen hall
  simp only [NDArray.lengthOf, NDArray.tileTarget, ShapeUtils.evalTileShapeInfo, prodLong]
  rw [hp]
  simp [List.prod_append, List.prod_replicate]

theorem all_one_of_prod_one (reps : List Int) (h : ∀ r ∈ reps, 1 ≤ r) (hp : reps.prod = 1) :
    ∀ r ∈ reps, r = 1 := by
  induction reps with
  | nil => intro r hr; cases hr
  | cons x rest ih =>
    have h1 := h x (List.mem_cons_self x rest)
    have h2 := prod_pos_of_one_le rest (fun y hy => h y (List.mem_cons_of_mem x hy))
    rw [List.prod_cons] at hp
    have hx : x = 1 := by nlinarith
    have hrest : rest.prod = 1 := by rw [hx] at hp; simpa using hp
    intro r hr
    rcases List.mem_cons.mp hr with h3 | h3
    · rw [h3, hx]
    · exact ih (fun y hy => h y (List.mem_cons_of_mem x hy)) hrest r h3

theorem map_toNat_of_all_one (l : List Int) (h : ∀ r ∈ l, r = 1) :
    l.map Int.toNat = List.replicate l.length 1 := by
  induction l with
  | nil => rfl
  | cons x rest ih =>
    rw [List.map_cons, h x (List.mem_cons_self x rest),
      ih (fun y hy => h y (List.mem_cons_of_mem x hy))]
    rfl

theorem zipWith_mod_of_valid (idx sh : List Nat) (hv : validNat sh idx) :
    List.zipWith (fun (i d : Nat) => i % d) idx sh = idx := by
  induction hv with
  | nil => rfl
  | cons hid _ ih => rw [List.zipWith_cons_cons, Nat.mod_eq_of_lt hid, ih]

theorem alignedMod_of_valid (pre idx sh : List Nat) (hv : validNat sh idx) :
    alignedMod (pre ++ idx) sh = idx := by
  have hlen := validNat_length sh idx hv
  have hdrop : (pre ++ idx).drop ((pre ++ idx).length - sh.length) = idx := by
    rw [List.length_append, hlen, Nat.add_sub_cancel]
    exact List.drop_left pre idx
  unfold alignedMod
  rw [hdrop, zipWith_mod_of_valid idx sh hv]

/-- Leading axes of extent 1 take the index 0 and add nothing to the offset, in either
default layout. -/
theorem getOffset_ones_prefix (order : Char) (k : Nat) (sh idx : List Nat)
    (hv : validNat (List.replicate k 1 ++ sh) idx) :
    ∃ idx', validNat sh idx' ∧ idx = List.replicate k 0 ++ idx' ∧
      shape.getOffset 0 (calcStrides order (List.replicate k 1 ++ sh))
          (idx.map (fun (i : Nat) => (i : Int)))
        = shape.getOffset 0 (calcStrides order sh) (idx'.map (fun (i : Nat) => (i : Int))) := by
  induction k generalizing idx with
  | zero => exact ⟨idx, by simpa using hv, by simp, by simp⟩
  | succ k ih =>
    rw [List.replicate_succ, List.cons_append] at hv
    cases hv with
    | cons hid hrest =>
      rename_i i rest
      obtain ⟨idx', hv', hEq, hoff⟩ := ih rest hrest
      have hi : i = 0 := by omega
      refine ⟨idx', hv', by rw [hi, hEq]; rfl, ?_⟩
      rw [← hoff, hi]
      unfold calcStrides
      by_cases hc : order = 'c'
      · simp only [hc, if_true, List.replicate_succ, List.cons_append, calcStridesC,
          shape.getOffset, List.map_cons, List.zipWith_cons_cons, List.sum_cons, Nat.cast_zero,
          zero_mul, zero_add, List.append_eq]
      · simp only [hc, if_false, List.replicate_succ, List.cons_append, calcStridesFortran,
          shape.getOffset, List.map_cons, List.zipWith_cons_cons, List.sum_cons, Nat.cast_zero,
          zero_mul, zero_add, sum_zipWith_map_mul, Nat.cast_one, one_mul, List.append_eq,
          List.map_id']

/-- The identity path of `tile` (the accumulator is 1, every entry of `reps` is 1): the
result is a copy of the source, with axes of extent 1 put in front when `reps` is
longer than the rank. -/
theorem tile_identity_eq (m : Memory α) (a : NDArray) (reps : List Int)
    (hp1 : reps.foldl (fun (product item : Int) => toInt32 (product * item)) 1 = 1)
    (hall : ∀ r ∈ reps, r = 1) :
    ∃ R : NDArray, ∃ k : Nat, (a.tile m reps).value = .ok R ∧
      R.buffer = ⟨m.next, 0⟩ ∧
      R.shape = List.replicate k 1 ++ a.shape ∧
      R.strides = calcStrides a.order (List.replicate k 1 ++ a.shape) ∧
      (a.tile m reps).state = (a.copyTarget m.next).assign { m with next := m.next + 1 } a := by
  by_cases hdiff : ((a.rankOf : Nat) : Int) - ((reps.length : Nat) : Int) < 0
  · have hones : (reps.take (-(((a.rankOf : Nat) : Int) - ((reps.length : Nat) : Int))).toNat).map
          Int.toNat
        = List.replicate
            (reps.take (-(((a.rankOf : Nat) : Int) - ((reps.length : Nat) : Int))).toNat).length
            1 :=
      map_toNat_of_all_one _ (fun r hr => hall r (List.mem_of_mem_take hr))
    have hprod : prodLong (List.replicate
          (reps.take (-(((a.rankOf : Nat) : Int) - ((reps.length : Nat) : Int))).toNat).length 1
          ++ a.shape) = prodLong a.shape := by
      simp [prodLong, List.prod_append, List.prod_replicate]
    refine ⟨{ a.copyTarget m.next with
        shape := List.replicate
          (reps.take (-(((a.rankOf : Nat) : Int) - ((reps.length : Nat) : Int))).toNat).length 1
          ++ a.shape
        strides := calcStrides a.order (List.replicate
          (reps.take (-(((a.rankOf : Nat) : Int) - ((reps.length : Nat) : Int))).toNat).length 1
          ++ a.shape)
        order := a.order }, _, ?_, rfl, rfl, rfl, ?_⟩
    · simp only [NDArray.tile, hp1, one_ne_zero, if_false, if_true, hdiff, NDArray.copy,
        Memory.allocate, NDArray.reshapei, ConstantShapeHelper.createShapeInfo, hones,
        NDArray.lengthOf, hprod, ne_eq, not_true_eq_false, Outcome.ret, NDArray.copyTarget]
    · simp only [NDArray.tile, hp1, one_ne_zero, if_false, if_true, hdiff, NDArray.copy,
        Memory.allocate, NDArray.reshapei, ConstantShapeHelper.createShapeInfo, hones,
        NDArray.lengthOf, hprod, ne_eq, not_true_eq_false, Outcome.ret, NDArray.copyTarget]
  · refine ⟨a.copyTarget m.next, 0, ?_, rfl, rfl, rfl, ?_⟩
    · simp only [NDArray.tile, hp1, one_ne_zero, if_false, if_true, hdiff, NDArray.copy,
        Memory.allocate, Outcome.ret, NDArray.copyTarget]
    · simp only [NDArray.tile, hp1, one_ne_zero, if_false, if_true, hdiff, NDArray.copy,
        Memory.allocate, Outcome.ret, NDArray.copyTarget]

/-- When the product of `reps` fits the 32-bit accumulator, `tile` returns an array with
the source length times that product, and the element at a multi-index is the source
element at the trailing coordinates taken modulo the source extents. -/
theorem tile_tiles_when_product_fits (m : Memory α) (a : NDArray) (reps : List Int)
    (hnum : a.dataType ∈ LIBND4J_TYPES) (hbuf : a.buffer ≠ nullptr)
    (halloc : a.buffer.block < m.next)
    (hreps : ∀ r ∈ reps, 1 ≤ r) (hfit : reps.prod < 2147483648) :
    ∃ R : NDArray, (a.tile m reps).value = .ok R ∧
      (R.lengthOf : Int) = (a.lengthOf : Int) * reps.prod ∧
      ∀ idx, validNat R.shape idx →
        (a.tile m reps).state.read R.buffer
            (shape.getOffset 0 R.strides (idx.map (fun (k : Nat) => (k : Int))))
          = m.read a.buffer
              (shape.getOffset 0 a.strides
                ((alignedMod idx a.shape).map (fun (k : Nat) => (k : Int)))) := by
  have hacc := tile_product reps hreps 1 le_rfl (by simpa using hfit)
  rw [one_mul] at hacc
  have hpos := prod_pos_of_one_le reps hreps
  by_cases hone : reps.prod = 1
  · have hall := all_one_of_prod_one reps hreps hone
    obtain ⟨R, k, hval, hRbuf, hRshape, hRstr, hstate⟩ :=
      tile_identity_eq m a reps (by rw [hacc, hone]) hall
    refine ⟨R, hval, ?_, ?_⟩
    · rw [hone, mul_one]
      simp [NDArray.lengthOf, hRshape, prodLong, List.prod_append, List.prod_replicate]
    · intro idx hv
      rw [hRshape] at hv
      obtain ⟨idx', hv', hEq, hoff⟩ := getOffset_ones_prefix a.order k a.shape idx hv
      have hlt : ravel a.shape idx' < a.lengthOf := ravel_lt _ _ hv'
      have hread := (assign_read { m with next := m.next + 1 } (a.copyTarget m.next) a rfl rfl
        (Nat.ne_of_lt halloc) (ravel a.shape idx') hlt).1
      rw [getOffset_natCast, getOffset_natCast] at hread
      have hsh : (a.copyTarget m.next).shape = a.shape := rfl
      rw [hsh, unravel_ravel _ _ hv'] at hread
      rw [hstate, hRbuf, hRstr, hoff, hEq, alignedMod_of_valid _ _ _ hv']
      exact hread
  · have hp0 : reps.foldl (fun (product item : Int) => toInt32 (product * item)) 1 ≠ 0 := by
      rw [hacc]; omega
    have hp1 : reps.foldl (fun (product item : Int) => toInt32 (product * item)) 1 ≠ 1 := by
      rw [hacc]; exact hone
    refine ⟨a.tileTarget m.next reps, ?_, tileTarget_length a m.next reps hreps, ?_⟩
    · rw [tile_general_eq m a reps hnum hbuf (by omega) hp0 hp1]
      rfl
    · intro idx hv
      exact tile_general_read m a reps hnum hbuf halloc hp0 hp1 idx hv

end Tile



/-- The example of the specification: `[1, 2, 3]` tiled with `reps = [2]` is a vector of
length 6 holding `1, 2, 3, 1, 2, 3`. -/
theorem tile_example :
    (vec3.tile mem123 [2]).value.toOption.map (fun r => (r.shape, r.buffer))
      = some ([6], ⟨2, 0⟩) ∧
    (List.range 6).map (fun (i : Nat) => (vec3.tile mem123 [2]).state.read ⟨2, 0⟩ (i : Int))
      = [1, 2, 3, 1, 2, 3] := by
  decide

/-- C1 (failing input): every entry of `reps = [65536, 65536]` is at least 1, yet the
`int` accumulator wraps to `0` and `tile` on a one-element array throws its zero-reps
`std::runtime_error`; for `reps = [4294967297]` the accumulator wraps to `1` and `tile`
returns a copy of the one-element array, of length 1. -/
theorem tile_throws_when_product_wraps :
    ([65536, 65536] : List Int).all (fun r => decide (1 ≤ r)) = true ∧
    (byte1.tile mem123 [65536, 65536]).value = .error .runtime_error ∧
    (byte1.tile mem123 [4294967297]).value.toOption.map (fun r => r.lengthOf) = some 1 := by
  decide

/-! ## `equalsTo` on arrays of different extents -/

section EqualsShapes

/-- The kernel count is zero when the two arrays hold equal values at every logical
index. -/
theorem EqualsWithEps_eq_zero (m : Memory Int) (x y : NDArray)
    (h : ∀ e : Nat, e < x.lengthOf →
      m.read x.buffer (x.getOffset (e : Int)) = m.read y.buffer (y.getOffset (e : Int))) :
    NativeOpExecutioner.EqualsWithEps m x y 0 = 0 := by
  unfold NativeOpExecutioner.EqualsWithEps
  rw [List.length_eq_zero, List.filter_eq_nil_iff]
  intro e he
  rw [h e (List.mem_range.mp he)]
  simp

/-- Outside the pairing of a rank-1 with a rank-2 array, `equalsTo` returns `false` on
arrays of different extents, without invoking the kernel. -/
theorem equalsTo_false_on_different_extents (m : Memory Int) (a other : NDArray) (eps : ℚ)
    (hrank : ¬ ((a.rankOf = 1 ∧ other.rankOf = 2) ∨ (a.rankOf = 2 ∧ other.rankOf = 1)))
    (hshape : a.shape ≠ other.shape) :
    a.equalsTo m other eps = .ret [] false := by
  by_cases h1 : a.dataType ≠ other.dataType ∨ a.lengthOf ≠ other.lengthOf
  · simp only [NDArray.equalsTo, h1, if_true]
  · simp only [NDArray.equalsTo, h1, hrank, if_false, shape.equalsSoft, hshape, decide_False,
      Bool.not_false, if_true]

theorem vec6_offsets_eq_mat23 (e : Nat) (he : e < 6) :
    vec6.getOffset (e : Int) = mat23.getOffset (e : Int) := by
  interval_cases e <;> decide

end EqualsShapes

/-- C11 (failing input): the rank-1 array of shape `[6]` and the rank-2 array of shape
`[2, 3]` over the same six `INT32` cells have the same data type and length and
different extents, and the matrix has no unit axis; yet `equalsTo` skips the comparison
of the extents, invokes the reduction kernel and returns `true`, in either direction
and whatever the memory holds. -/
theorem equalsTo_true_on_rank1_against_rank2 (m : Memory Int) :
    vec6.dataType = mat23.dataType ∧ vec6.lengthOf = mat23.lengthOf ∧
    vec6.shape ≠ mat23.shape ∧ 1 ∉ mat23.shape ∧
    vec6.equalsTo m mat23 0 = .ret [.Reduce3_execScalar] true ∧
    mat23.equalsTo m vec6 0 = .ret [.Reduce3_execScalar] true := by
  have h1 : NativeOpExecutioner.EqualsWithEps m vec6 mat23 0 = 0 :=
    EqualsWithEps_eq_zero m vec6 mat23 (fun e he => by
      rw [vec6_offsets_eq_mat23 e he]; rfl)
  have h2 : NativeOpExecutioner.EqualsWithEps m mat23 vec6 0 = 0 :=
    EqualsWithEps_eq_zero m mat23 vec6 (fun e he => by
      rw [vec6_offsets_eq_mat23 e he]; rfl)
  refine ⟨by decide, by decide, by decide, by decide, ?_, ?_⟩
  · have hc : ¬ (vec6.dataType ≠ mat23.dataType ∨ vec6.lengthOf ≠ mat23.lengthOf) := by decide
    have hr : (vec6.rankOf = 1 ∧ mat23.rankOf = 2) ∨ (vec6.rankOf = 2 ∧ mat23.rankOf = 1) := by
      decide
    have hx : vec6.dataType ∈ LIBND4J_TYPES ∧ DataType.FLOAT32 ∈ FLOAT_TYPES := by decide
    simp only [NDArray.equalsTo, hc, hr, if_false, if_true,
      NativeOpExecutioner.execReduce3Scalar, hx, and_self, Outcome.ret, h1, List.nil_append,
      gt_iff_lt, lt_self_iff_false]
  · have hc : ¬ (mat23.dataType ≠ vec6.dataType ∨ mat23.lengthOf ≠ vec6.lengthOf) := by decide
    have hr : (mat23.rankOf = 1 ∧ vec6.rankOf = 2) ∨ (mat23.rankOf = 2 ∧ vec6.rankOf = 1) := by
      decide
    have hx : mat23.dataType ∈ LIBND4J_TYPES ∧ DataType.FLOAT32 ∈ FLOAT_TYPES := by decide
    simp only [NDArray.equalsTo, hc, hr, if_false, if_true,
      NativeOpExecutioner.execReduce3Scalar, hx, and_self, Outcome.ret, h2, List.nil_append,
      gt_iff_lt, lt_self_iff_false]

/-! ## Row and column vector methods: argument checks -/

section VectorChecks

variable {α : Type} [Add α] [Sub α] [Mul α] [Div α] [FloorOps α]

/-- The length of an exact row vector is its column count. -/
theorem lengthOf_of_isRowVector (v : NDArray) (h : v.isRowVector = true) :
    v.lengthOf = v.columns := by
  simp only [NDArray.isRowVector, decide_eq_true_eq, NDArray.rankOf, NDArray.sizeAt] at h
  obtain ⟨hr, h0⟩ := h
  match hs : v.shape, hr, h0 with
  | [x, y], _, h0 =>
    simp only [List.getD_cons_zero] at h0
    simp [NDArray.lengthOf, NDArray.columns, NDArray.sizeAt, hs, shape.prodLong, h0]

/-- The argument check of `addRowVector` fails when the requirements are not all met. -/
theorem rowCheck_of_not (a v target : NDArray)
    (h : ¬ (a.rankOf = 2 ∧ target.rankOf = 2 ∧ a.rows = target.rows
      ∧ a.columns = target.columns ∧ v.isRowVector = true ∧ v.lengthOf = a.columns)) :
    a.rankOf ≠ 2 ∨ target.rankOf ≠ 2 ∨ a.rows ≠ target.rows
      ∨ a.columns ≠ target.columns ∨ (!v.isRowVector) = true ∨ a.columns ≠ v.lengthOf := by
  by_contra hn
  simp only [not_or, ne_eq, not_not, Bool.not_eq_true', Bool.not_eq_false] at hn
  exact h ⟨hn.1, hn.2.1, hn.2.2.1, hn.2.2.2.1, hn.2.2.2.2.1, hn.2.2.2.2.2.symm⟩

/-- The argument check of `subRowVector`, `mulRowVector` and `divRowVector`, which
compares the column counts, fails when the requirements are not all met. -/
theorem rowCheckColumns_of_not (a v target : NDArray)
    (h : ¬ (a.rankOf = 2 ∧ target.rankOf = 2 ∧ a.rows = target.rows
      ∧ a.columns = target.columns ∧ v.isRowVector = true ∧ v.lengthOf = a.columns)) :
    a.rankOf ≠ 2 ∨ target.rankOf ≠ 2 ∨ a.rows ≠ target.rows
      ∨ a.columns ≠ target.columns ∨ (!v.isRowVector) = true ∨ a.columns ≠ v.columns := by
  by_contra hn
  simp only [not_or, ne_eq, not_not, Bool.not_eq_true', Bool.not_eq_false] at hn
  exact h ⟨hn.1, hn.2.1, hn.2.2.1, hn.2.2.2.1, hn.2.2.2.2.1,
    (lengthOf_of_isRowVector v hn.2.2.2.2.1).trans hn.2.2.2.2.2.symm⟩

/-- The argument check of `addColumnVector` fails when the requirements are not all
met. -/
theorem columnCheck_of_not (a v target : NDArray)
    (h : ¬ (a.rankOf = 2 ∧ target.rankOf = 2 ∧ a.rows = target.rows
      ∧ a.columns = target.columns ∧ v.isColumnVector = true ∧ v.lengthOf = a.rows)) :
    a.rankOf ≠ 2 ∨ target.rankOf ≠ 2 ∨ a.rows ≠ target.rows
      ∨ a.columns ≠ target.columns ∨ (!v.isColumnVector) = true ∨ a.rows ≠ v.lengthOf := by
  by_contra hn
  simp only [not_or, ne_eq, not_not, Bool.not_eq_true', Bool.not_eq_false] at hn
  exact h ⟨hn.1, hn.2.1, hn.2.2.1, hn.2.2.2.1, hn.2.2.2.2.1, hn.2.2.2.2.2.symm⟩

end VectorChecks

/-- C13: with a boolean-typed row operand `divRowVector` raises a `std::runtime_error`
(that of the string check when the array is string-typed, that of the boolean check
otherwise), whatever the shapes and the other data types; the log of kernels is empty
and the memory, the target with it, is as before the call. -/
theorem divRowVector_rejects_bool_row {α : Type} [Add α] [Sub α] [Mul α] [Div α] [FloorOps α]
    (pickPairwiseResultType : DataType → DataType → DataType)
    (absentTad : AbsentTad) (m : Memory α)
    (a row target : NDArray) (hrow : row.dataType = .BOOL) :
    (a.divRowVector pickPairwiseResultType absentTad m row target).value = .error .runtime_error ∧
    (a.divRowVector pickPairwiseResultType absentTad m row target).state = (m, []) := by
  have hB : row.isB = true := by simp [NDArray.isB, hrow]
  by_cases hS : a.isS = true
  · simp only [NDArray.divRowVector, hS, if_true, Outcome.raise, and_self]
  · simp only [NDArray.divRowVector, hS, hB, if_true, if_false, Outcome.raise, and_self,
      Bool.false_eq_true]

/-- Witness of C13: a 2×3 `INT32` matrix divided by a boolean row of three cells. -/
theorem divRowVector_rejects_bool_row_witness :
    (mat23.divRowVector (fun x _ => x) tablesOfX mem123456 boolRow3 out23).value = .error .runtime_error ∧
    (mat23.divRowVector (fun x _ => x) tablesOfX mem123456 boolRow3 out23).state = (mem123456, []) :=
  divRowVector_rejects_bool_row (fun x _ => x) tablesOfX mem123456 mat23 boolRow3 out23 rfl

/-- C14 (counterexample): on a string array the methods raise the `std::runtime_error`
of their string check, not a `std::invalid_argument`, although the array has rank 1;
and `divRowVector` of a rank-1 numeric array by a boolean row raises the
`std::runtime_error` of its boolean check. -/
theorem vector_methods_raise_runtime_error_first :
    str3.rankOf ≠ 2 ∧ vec3.rankOf ≠ 2 ∧
    (str3.addRowVector (fun x _ => x) tablesOfX zeroMemory row3 out23).value = .error .runtime_error ∧
    (str3.subRowVector (fun x _ => x) tablesOfX zeroMemory row3 out23).value = .error .runtime_error ∧
    (str3.mulRowVector (fun x _ => x) tablesOfX zeroMemory row3 out23).value = .error .runtime_error ∧
    (str3.divRowVector (fun x _ => x) tablesOfX zeroMemory row3 out23).value = .error .runtime_error ∧
    (str3.addColumnVector (fun x _ => x) tablesOfX zeroMemory row3 out23).value
      = .error .runtime_error ∧
    (vec3.divRowVector (fun x _ => x) tablesOfX zeroMemory boolRow3 out23).value
      = .error .runtime_error := by
  decide

/-- C14 (amended): on an array that is not string-typed, `addRowVector`, `subRowVector`
and `mulRowVector` raise a `std::invalid_argument`, with an empty log of kernels and the
memory as before, unless this array and the target both have rank 2 with equal row and
column counts, the operand is a row vector and its length is the column count of this
array; so does `divRowVector` when the operand is not boolean; and `addColumnVector`
does unless the operand is a column vector whose length is the row count. -/
theorem vector_methods_reject_wrong_arguments {α : Type} [Add α] [Sub α] [Mul α] [Div α] [FloorOps α]
    (pickPairwiseResultType : DataType → DataType → DataType)
    (absentTad : AbsentTad) (m : Memory α)
    (a v target : NDArray) (hS : a.isS = false) :
    (¬ (a.rankOf = 2 ∧ target.rankOf = 2 ∧ a.rows = target.rows
        ∧ a.columns = target.columns ∧ v.isRowVector = true ∧ v.lengthOf = a.columns) →
      a.addRowVector pickPairwiseResultType absentTad m v target = .raise (m, []) .invalid_argument ∧
      a.subRowVector pickPairwiseResultType absentTad m v target = .raise (m, []) .invalid_argument ∧
      a.mulRowVector pickPairwiseResultType absentTad m v target = .raise (m, []) .invalid_argument ∧
      (v.isB = false →
        a.divRowVector pickPairwiseResultType absentTad m v target
          = .raise (m, []) .invalid_argument)) ∧
    (¬ (a.rankOf = 2 ∧ target.rankOf = 2 ∧ a.rows = target.rows
        ∧ a.columns = target.columns ∧ v.isColumnVector = true ∧ v.lengthOf = a.rows) →
      a.addColumnVector pickPairwiseResultType absentTad m v target
        = .raise (m, []) .invalid_argument) := by
  refine ⟨fun h => ⟨?_, ?_, ?_, fun hB => ?_⟩, fun h => ?_⟩
  · simp only [NDArray.addRowVector, hS, Bool.false_eq_true, if_false,
      rowCheck_of_not a v target h, if_true]
  · simp only [NDArray.subRowVector, hS, Bool.false_eq_true, if_false,
      rowCheckColumns_of_not a v target h, if_true]
  · simp only [NDArray.mulRowVector, hS, Bool.false_eq_true, if_false,
      rowCheckColumns_of_not a v target h, if_true]
  · simp only [NDArray.divRowVector, hS, hB, Bool.false_eq_true, if_false,
      rowCheckColumns_of_not a v target h, if_true]
  · simp only [NDArray.addColumnVector, hS, Bool.false_eq_true, if_false,
      columnCheck_of_not a v target h, if_true]

/-- Witness of C14: a rank-1 `INT32` array as this array; the operand `row3` is not
boolean. -/
theorem vector_methods_reject_wrong_arguments_witness :
    vec3.addRowVector (fun x _ => x) tablesOfX zeroMemory row3 out23
      = .raise (zeroMemory, []) .invalid_argument ∧
    vec3.divRowVector (fun x _ => x) tablesOfX zeroMemory row3 out23
      = .raise (zeroMemory, []) .invalid_argument ∧
    vec3.addColumnVector (fun x _ => x) tablesOfX zeroMemory row3 out23
      = .raise (zeroMemory, []) .invalid_argument :=
  ⟨((vector_methods_reject_wrong_arguments (fun x _ => x) tablesOfX zeroMemory vec3 row3 out23
      rfl).1
      (by decide)).1,
   ((vector_methods_reject_wrong_arguments (fun x _ => x) tablesOfX zeroMemory vec3 row3 out23
      rfl).1
      (by decide)).2.2.2 rfl,
   (vector_methods_reject_wrong_arguments (fun x _ => x) tablesOfX zeroMemory vec3 row3 out23
      rfl).2
      (by decide)⟩

/-! ## Executor: type checks and selectors -/

section Selectors

variable {α β : Type}

theorem runSelector_error (s : Host α) (ex : Exception) :
    NativeOpExecutioner.runSelector s (.error ex) = .raise s ex := rfl

theorem runSelector_ok (s s₁ : Host α) :
    NativeOpExecutioner.runSelector s (.ok s₁) = .ret s₁ () := rfl

theorem BUILD_SINGLE_SELECTOR_of_not_mem (xType : DataType) (types : List DataType) (body : β)
    (h : xType ∉ types) : BUILD_SINGLE_SELECTOR xType types body = .error .runtime_error := by
  simp only [BUILD_SINGLE_SELECTOR, h, if_false]

theorem BUILD_DOUBLE_SELECTOR_of_not_mem (xType yType : DataType) (xTypes yTypes : List DataType)
    (body : β) (h : yType ∉ yTypes) :
    BUILD_DOUBLE_SELECTOR xType yType xTypes yTypes body = .error .runtime_error := by
  simp only [BUILD_DOUBLE_SELECTOR, h, and_false, if_false]

/-- A thrice selector either runs its body or throws the `std::runtime_error` of its
default case. -/
theorem BUILD_SINGLE_SELECTOR_THRICE_cases (xType : DataType) (types : List DataType)
    (body : β) :
    BUILD_SINGLE_SELECTOR_THRICE xType types body = .ok body ∨
    BUILD_SINGLE_SELECTOR_THRICE xType types body = .error .runtime_error := by
  by_cases h : xType ∈ types
  · left; simp only [BUILD_SINGLE_SELECTOR_THRICE, h, if_true]
  · right; simp only [BUILD_SINGLE_SELECTOR_THRICE, h, if_false]

end Selectors

/-- C15: in the build without `__ND4J_EXPERIMENTAL__`, each of the two `execScalar`
overloads raises the `nd4j::datatype_exception` if and only if `xType != yType` or
`xType != zType`; and whenever an overload raises, the memory and the log of kernels
are as before the call. -/
theorem execScalar_raises_iff_types_differ {α : Type} (kernel : Memory α → Memory α)
    (s : Host α) (xType yType zType : DataType) :
    ((NativeOpExecutioner.execScalar kernel s xType yType zType).value
        = .error .datatype_exception ↔ (xType ≠ yType ∨ xType ≠ zType)) ∧
    ((NativeOpExecutioner.execScalarDimensional kernel s xType yType zType).value
        = .error .datatype_exception ↔ (xType ≠ yType ∨ xType ≠ zType)) ∧
    (∀ ex, (NativeOpExecutioner.execScalar kernel s xType yType zType).value = .error ex →
      (NativeOpExecutioner.execScalar kernel s xType yType zType).state = s) ∧
    (∀ ex,
      (NativeOpExecutioner.execScalarDimensional kernel s xType yType zType).value
        = .error ex →
      (NativeOpExecutioner.execScalarDimensional kernel s xType yType zType).state = s) := by
  by_cases h : xType ≠ yType ∨ xType ≠ zType
  · simp only [NativeOpExecutioner.execScalar, NativeOpExecutioner.execScalarDimensional, h,
      if_true, Outcome.raise, true_iff, implies_true, and_self]
  · rcases BUILD_SINGLE_SELECTOR_THRICE_cases xType LIBND4J_TYPES
        (NativeOpExecutioner.invoke .ScalarTransform_transform kernel s) with hsel | hsel
    · simp only [NativeOpExecutioner.execScalar, NativeOpExecutioner.execScalarDimensional, h,
        if_false, hsel, runSelector_ok, Outcome.ret, reduceCtorEq, false_iff, not_false_eq_true,
        false_implies, implies_true, and_self]
    · simp only [NativeOpExecutioner.execScalar, NativeOpExecutioner.execScalarDimensional, h,
        if_false, hsel, runSelector_error, Outcome.raise, Except.error.injEq, reduceCtorEq,
        false_iff, not_false_eq_true, implies_true, and_self]

/-- Witness of C15: an `INT32` source with a `FLOAT32` scalar. -/
theorem execScalar_raises_iff_types_differ_witness :
    (NativeOpExecutioner.execScalar (fun m => m.write ⟨1, 0⟩ 0 7) (zeroMemory, [])
      .INT32 .FLOAT32 .INT32).value = .error .datatype_exception ∧
    (NativeOpExecutioner.execScalar (fun m => m.write ⟨1, 0⟩ 0 7) (zeroMemory, [])
      .INT32 .FLOAT32 .INT32).state = (zeroMemory, []) :=
  ⟨(execScalar_raises_iff_types_differ (fun m => m.write ⟨1, 0⟩ 0 7) (zeroMemory, [])
      .INT32 .FLOAT32 .INT32).1.mpr (Or.inl (by decide)),
   (execScalar_raises_iff_types_differ (fun m => m.write ⟨1, 0⟩ 0 7) (zeroMemory, [])
      .INT32 .FLOAT32 .INT32).2.2.1 .datatype_exception rfl⟩

/-- C16 (failing input): in the build without `__ND4J_EXPERIMENTAL__`, with a `FLOAT32`
X operand, `execPairwiseTransform` and `execBroadcast` return normally having invoked
their kernel, whatever the type tags of Y and Z are (an `INT32` Y, say). -/
theorem execPairwiseTransform_runs_on_mixed_types {α : Type} [Add α] [Sub α] [Mul α] [Div α] [FloorOps α]
    (kernel : Memory α → Memory α) (s : Host α) (yType zType : DataType)
    (absentTad : AbsentTad)
    (opNum : broadcast.Ops) (x y z : NDArray) (dimension : List Nat)
    (tadX tadZ : Option TadPack) :
    NativeOpExecutioner.execPairwiseTransform kernel s .FLOAT32 yType zType
      = .ret (kernel s.1, s.2 ++ [.PairWiseTransform_exec]) () ∧
    NativeOpExecutioner.execBroadcast absentTad opNum s { x with dataType := .FLOAT32 } y z
        dimension tadX tadZ
      = .ret (functions.broadcast.exec absentTad opNum s.1 { x with dataType := .FLOAT32 } y z
          dimension tadX tadZ, s.2 ++ [.Broadcast_exec]) () := by
  have h : DataType.FLOAT32 ∈ LIBND4J_TYPES := by decide
  constructor
  · simp only [NativeOpExecutioner.execPairwiseTransform, BUILD_SINGLE_SELECTOR_THRICE, h,
      if_true, runSelector_ok, NativeOpExecutioner.invoke]
  · simp only [NativeOpExecutioner.execBroadcast, BUILD_SINGLE_SELECTOR_THRICE, h, if_true,
      runSelector_ok, NativeOpExecutioner.invoke]

/-- C17: an entry point whose selector is restricted to a type family raises the
`std::runtime_error` of the selector, leaving the memory and the log of kernels as they
were, when the tag lies outside the family: the X tag of `execTransformStrict` and the Z
tag of the `execRandom` overloads outside `FLOAT_TYPES`; the Z tag of the float
reductions, of the `execReduce3` family, of the summary statistics and of
`execTransformFloat` outside `FLOAT_TYPES`; the Z tag of the boolean entry points outside
`BOOL_TYPES` (`execScalarBool` raises its own `nd4j::datatype_exception`); the Z tag of
the long reductions outside `LONG_TYPES`. -/
theorem restricted_selectors_fail_fast {α : Type} (kernel : Memory α → Memory α) (s : Host α)
    (xType yType zType : DataType) :
    (xType ∉ FLOAT_TYPES →
      NativeOpExecutioner.execTransformStrict kernel s xType zType = .raise s .runtime_error) ∧
    (zType ∉ FLOAT_TYPES →
      NativeOpExecutioner.execRandom kernel s zType = .raise s .runtime_error ∧
      NativeOpExecutioner.execRandomX kernel s zType = .raise s .runtime_error ∧
      NativeOpExecutioner.execRandomXY kernel s zType = .raise s .runtime_error ∧
      NativeOpExecutioner.execReduceFloat kernel s xType zType = .raise s .runtime_error ∧
      NativeOpExecutioner.execReduceFloatScalar kernel s xType zType
        = .raise s .runtime_error ∧
      NativeOpExecutioner.execReduce3 kernel s xType zType = .raise s .runtime_error ∧
      NativeOpExecutioner.execReduce3Dimensional kernel s xType zType
        = .raise s .runtime_error ∧
      NativeOpExecutioner.execReduce3All kernel s xType zType = .raise s .runtime_error ∧
      NativeOpExecutioner.execReduce3TAD kernel s xType zType = .raise s .runtime_error ∧
      NativeOpExecutioner.execSummaryStats kernel s xType zType = .raise s .runtime_error ∧
      NativeOpExecutioner.execSummaryStatsScalar kernel s xType zType
        = .raise s .runtime_error ∧
      NativeOpExecutioner.execSummaryStatsDimensional kernel s xType zType
        = .raise s .runtime_error ∧
      NativeOpExecutioner.execTransformFloat kernel s xType zType = .raise s .runtime_error ∧
      ∀ (log : List Kernel) (m : Memory Int) (x y : NDArray) (eps : ℚ),
        NativeOpExecutioner.execReduce3Scalar log m x y eps zType
          = .raise log .runtime_error) ∧
    (zType ∉ BOOL_TYPES →
      NativeOpExecutioner.execReduceBool kernel s xType zType = .raise s .runtime_error ∧
      NativeOpExecutioner.execReduceBoolScalar kernel s xType zType
        = .raise s .runtime_error ∧
      NativeOpExecutioner.execTransformBool kernel s xType zType = .raise s .runtime_error ∧
      NativeOpExecutioner.execBroadcastBool kernel s xType zType = .raise s .runtime_error ∧
      NativeOpExecutioner.execPairwiseBoolTransform kernel s xType zType
        = .raise s .runtime_error ∧
      NativeOpExecutioner.execScalarBool kernel s xType yType zType
        = .raise s .datatype_exception ∧
      NativeOpExecutioner.execScalarBoolDimensional kernel s xType yType zType
        = .raise s .datatype_exception) ∧
    (zType ∉ LONG_TYPES →
      NativeOpExecutioner.execReduceLong kernel s xType zType = .raise s .runtime_error ∧
      NativeOpExecutioner.execReduceLongScalar kernel s xType zType
        = .raise s .runtime_error) := by
  refine ⟨fun h => ?_, fun h => ?_, fun h => ?_, fun h => ?_⟩
  · simp only [NativeOpExecutioner.execTransformStrict,
      BUILD_SINGLE_SELECTOR_of_not_mem _ _ _ h, runSelector_error]
  · simp only [NativeOpExecutioner.execRandom, NativeOpExecutioner.execRandomX,
      NativeOpExecutioner.execRandomXY, NativeOpExecutioner.execReduceFloat,
      NativeOpExecutioner.execReduceFloatScalar, NativeOpExecutioner.execReduce3,
      NativeOpExecutioner.execReduce3Dimensional, NativeOpExecutioner.execReduce3All,
      NativeOpExecutioner.execReduce3TAD, NativeOpExecutioner.execSummaryStats,
      NativeOpExecutioner.execSummaryStatsScalar,
      NativeOpExecutioner.execSummaryStatsDimensional, NativeOpExecutioner.execTransformFloat,
      NativeOpExecutioner.execReduce3Scalar,
      BUILD_SINGLE_SELECTOR_of_not_mem _ _ _ h, BUILD_DOUBLE_SELECTOR_of_not_mem _ _ _ _ _ h,
      runSelector_error, h, and_false, if_false, implies_true, and_self]
  · have hz : zType ≠ .BOOL := by
      intro hEq; exact h (by rw [hEq]; decide)
    by_cases hxy : xType = yType
    · simp only [NativeOpExecutioner.execReduceBool, NativeOpExecutioner.execReduceBoolScalar,
        NativeOpExecutioner.execTransformBool, NativeOpExecutioner.execBroadcastBool,
        NativeOpExecutioner.execPairwiseBoolTransform, NativeOpExecutioner.execScalarBool,
        NativeOpExecutioner.execScalarBoolDimensional,
        BUILD_DOUBLE_SELECTOR_of_not_mem _ _ _ _ _ h, runSelector_error, hxy, hz, if_true,
        if_false, ne_eq, not_true_eq_false, not_false_eq_true, and_self]
    · simp only [NativeOpExecutioner.execReduceBool, NativeOpExecutioner.execReduceBoolScalar,
        NativeOpExecutioner.execTransformBool, NativeOpExecutioner.execBroadcastBool,
        NativeOpExecutioner.execPairwiseBoolTransform, NativeOpExecutioner.execScalarBool,
        NativeOpExecutioner.execScalarBoolDimensional,
        BUILD_DOUBLE_SELECTOR_of_not_mem _ _ _ _ _ h, runSelector_error, hxy, if_true,
        ne_eq, not_false_eq_true, and_self]
  · simp only [NativeOpExecutioner.execReduceLong, NativeOpExecutioner.execReduceLongScalar,
      BUILD_DOUBLE_SELECTOR_of_not_mem _ _ _ _ _ h, runSelector_error, and_self]

/-- Witness of C17: an `INT32` tag, which lies outside `FLOAT_TYPES`, `BOOL_TYPES` and
`LONG_TYPES`. -/
theorem restricted_selectors_fail_fast_witness :
    NativeOpExecutioner.execTransformStrict (fun m => m.write ⟨1, 0⟩ 0 7) (zeroMemory, [])
      .INT32 .INT32 = .raise (zeroMemory, []) .runtime_error ∧
    NativeOpExecutioner.execReduceFloat (fun m => m.write ⟨1, 0⟩ 0 7) (zeroMemory, [])
      .INT32 .INT32 = .raise (zeroMemory, []) .runtime_error ∧
    NativeOpExecutioner.execReduceBool (fun m => m.write ⟨1, 0⟩ 0 7) (zeroMemory, [])
      .INT32 .INT32 = .raise (zeroMemory, []) .runtime_error ∧
    NativeOpExecutioner.execReduceLong (fun m => m.write ⟨1, 0⟩ 0 7) (zeroMemory, [])
      .INT32 .INT32 = .raise (zeroMemory, []) .runtime_error :=
  ⟨(restricted_selectors_fail_fast (fun m => m.write ⟨1, 0⟩ 0 7) (zeroMemory, [])
      .INT32 .INT32 .INT32).1 (by decide),
   ((restricted_selectors_fail_fast (fun m => m.write ⟨1, 0⟩ 0 7) (zeroMemory, [])
      .INT32 .INT32 .INT32).2.1 (by decide)).2.2.2.1,
   ((restricted_selectors_fail_fast (fun m => m.write ⟨1, 0⟩ 0 7) (zeroMemory, [])
      .INT32 .INT32 .INT32).2.2.1 (by decide)).1,
   ((restricted_selectors_fail_fast (fun m => m.write ⟨1, 0⟩ 0 7) (zeroMemory, [])
      .INT32 .INT32 .INT32).2.2.2 (by decide)).1⟩

/-! ## Lambda transforms: operand checks -/

/-- C18 (failing input): `applyIndexedPairwiseLambda<int>` on an `INT32` vector with a
`FLOAT32` vector of the same length as `other` does not raise: it returns normally and
has stored into this array; `applyPairwiseLambda<int>` rejects the same operands. -/
theorem applyIndexedPairwiseLambda_accepts_other_type :
    vec3.dataType ≠ float3.dataType ∧
    (vec3.applyIndexedPairwiseLambda .INT32 (fun i x y => x + y + i + 10) mem123
      (some float3) none).value = .ok () ∧
    (List.range 3).map (fun (e : Nat) =>
      (vec3.applyIndexedPairwiseLambda .INT32 (fun i x y => x + y + i + 10) mem123
        (some float3) none).state.read vec3.buffer (e : Int)) = [11, 13, 15] ∧
    (List.range 3).map (fun (e : Nat) => mem123.read vec3.buffer (e : Int)) = [1, 2, 3] ∧
    (vec3.applyPairwiseLambda .INT32 (fun x y => x + y + 10) mem123
      (some float3) none).value = .error .runtime_error := by
  decide

/-- C19 (failing input): with a `[2, 3]` array as this array and a `[3, 2]` array of the
same type as `other`, `applyPairwiseLambda` and `applyIndexedPairwiseLambda` do not
raise: the lengths are equal, and they return normally having stored into this array;
`applyTriplewiseLambda` rejects the same pairing. -/
theorem pairwiseLambda_accepts_other_extents :
    mat23.shape ≠ mat32.shape ∧ mat23.lengthOf = mat32.lengthOf ∧
    (mat23.applyPairwiseLambda .INT32 (fun x y => x + y) mem123456
      (some mat32) none).value = .ok () ∧
    (List.range 6).map (fun (e : Nat) =>
      (mat23.applyPairwiseLambda .INT32 (fun x y => x + y) mem123456
        (some mat32) none).state.read mat23.buffer (e : Int)) = [2, 3, 4, 4, 5, 6] ∧
    (mat23.applyIndexedPairwiseLambda .INT32 (fun _ x y => x + y) mem123456
      (some mat32) none).value = .ok () ∧
    (List.range 6).map (fun (e : Nat) =>
      (mat23.applyIndexedPairwiseLambda .INT32 (fun _ x y => x + y) mem123456
        (some mat32) none).state.read mat23.buffer (e : Int)) = [2, 3, 4, 4, 5, 6] ∧
    (List.range 6).map (fun (e : Nat) => mem123456.read mat23.buffer (e : Int))
      = [1, 2, 3, 4, 5, 6] ∧
    (mat23.applyTriplewiseLambda .INT32 (fun x y _ => x + y) mem123456
      (some mat32) (some mat32) none).value = .error .runtime_error := by
  decide

/-- C20 (counterexample): with a vector of three `INT32` cells as this array and a
target of one `INT32` cell, `applyLambda` and `applyIndexedLambda` do not raise: they
return normally having stored at the positions 0, 1 and 2 of the target's buffer, two of
them beyond the target's length. -/
theorem lambda_writes_past_shorter_target :
    one32.lengthOf = 1 ∧ vec3.lengthOf = 3 ∧
    (vec3.applyLambda .INT32 (fun x => x + 10) mem123 (some one32)).value = .ok () ∧
    (List.range 3).map (fun (e : Nat) =>
      (vec3.applyLambda .INT32 (fun x => x + 10) mem123 (some one32)).state.read
        one32.buffer (e : Int)) = [11, 12, 13] ∧
    (vec3.applyIndexedLambda .INT32 (fun i x => x + i + 10) mem123 (some one32)).value
      = .ok () ∧
    (List.range 3).map (fun (e : Nat) =>
      (vec3.applyIndexedLambda .INT32 (fun i x => x + i + 10) mem123 (some one32)).state.read
        one32.buffer (e : Int)) = [11, 13, 15] ∧
    (List.range 3).map (fun (e : Nat) => mem123.read one32.buffer (e : Int)) = [0, 0, 0] := by
  decide

/-- The loops of `applyLambda`, for a length of at most `INT_MAX`, as one run of stores. -/
theorem applyLambda_stores {α : Type} (fromT : DataType) (func : α → α) (m : Memory α)
    (a : NDArray) (target : Option NDArray)
    (h1 : ¬ a.dataType ≠ fromT) (h2 : ¬ a.dataType ≠ (target.getD a).dataType)
    (hfit : a.lengthOf ≤ INT_MAX) :
    a.applyLambda fromT func m target
      = .ret ((List.range a.lengthOf).foldl (fun s (e : Nat) =>
          s.write (target.getD a).buffer (a.lambdaStoreOffset (target.getD a) e)
            (func (s.read a.buffer (a.lambdaLoadOffset (target.getD a) e)))) m) () := by
  simp only [NDArray.applyLambda, NDArray.lambdaStoreOffset, NDArray.lambdaLoadOffset]
  rw [if_neg h1, if_neg h2]
  by_cases hfast : a.order = (target.getD a).order ∧ (a.ews = 1 ∧ (target.getD a).ews = 1)
  · simp only [if_pos hfast]
    exact forInt_ret _ _ _ m hfit (fun _ _ => rfl)
  · simp only [if_neg hfast]
    by_cases hbuf : a.buffer = (target.getD a).buffer
    · simp only [if_pos hbuf]
      rw [← hbuf]
      exact forInt_ret _ _ _ m hfit (fun _ _ => rfl)
    · simp only [if_neg hbuf]
      exact forInt_ret _ _ _ m hfit (fun _ _ => rfl)

/-- The loops of `applyIndexedLambda` as one run of stores. -/
theorem applyIndexedLambda_stores {α : Type} (fromT : DataType) (func : Int → α → α)
    (m : Memory α) (a : NDArray) (target : Option NDArray)
    (h1 : ¬ a.dataType ≠ fromT) (h2 : ¬ a.dataType ≠ (target.getD a).dataType) :
    a.applyIndexedLambda fromT func m target
      = .ret ((List.range a.lengthOf).foldl (fun s (e : Nat) =>
          s.write (target.getD a).buffer (a.lambdaStoreOffset (target.getD a) e)
            (func e (s.read a.buffer (a.lambdaLoadOffset (target.getD a) e)))) m) () := by
  simp only [NDArray.applyIndexedLambda, NDArray.lambdaStoreOffset, NDArray.lambdaLoadOffset]
  rw [if_neg h1, if_neg h2]
  by_cases hfast : a.order = (target.getD a).order ∧ (a.ews = 1 ∧ (target.getD a).ews = 1)
  · simp only [if_pos hfast]
  · simp only [if_neg hfast]
    by_cases hbuf : a.buffer = (target.getD a).buffer
    · simp only [if_pos hbuf]
      rw [← hbuf]
    · simp only [if_neg hbuf]

/-- C20 (amended): `applyLambda` and `applyIndexedLambda` raise, with the memory as
before the call, when the data type of this array differs from `T` or from the
target's.  Otherwise they never look at the length or the shape of the target:
`applyIndexedLambda`, and `applyLambda` on an array of at most `INT_MAX` elements,
return normally; every cell other than the cells of the rounds `e < this.length` (the
cell `z[e]` on the fast path, the cell at the recomputed offset otherwise) keeps its
content; and when the cells of distinct rounds are distinct and no round stores into a
cell another round reads, the cell of every round `e < this.length` holds `func` of
what the round read, also for `e ≥ target.length`. -/
theorem lambda_checks_types_only {α : Type} (fromT : DataType) (func : α → α)
    (indexed : Int → α → α) (m : Memory α) (a : NDArray) (target : Option NDArray) :
    ((a.dataType ≠ fromT ∨ a.dataType ≠ (target.getD a).dataType) →
      a.applyLambda fromT func m target = .raise m .runtime_error ∧
      a.applyIndexedLambda fromT indexed m target = .raise m .runtime_error) ∧
    (¬ (a.dataType ≠ fromT ∨ a.dataType ≠ (target.getD a).dataType) →
      (a.lengthOf ≤ INT_MAX → (a.applyLambda fromT func m target).value = .ok ()) ∧
      (a.applyIndexedLambda fromT indexed m target).value = .ok () ∧
      (∀ (b : Nat) (o : Int),
        (∀ e : Nat, e < a.lengthOf →
          ¬ (b = (target.getD a).buffer.block
            ∧ o = (target.getD a).buffer.offset + a.lambdaStoreOffset (target.getD a) e)) →
        (a.lengthOf ≤ INT_MAX →
          (a.applyLambda fromT func m target).state.cells b o = m.cells b o) ∧
        (a.applyIndexedLambda fromT indexed m target).state.cells b o = m.cells b o) ∧
      ((∀ e e' : Nat, e < a.lengthOf → e' < a.lengthOf → e ≠ e' →
          a.lambdaStoreOffset (target.getD a) e ≠ a.lambdaStoreOffset (target.getD a) e'
          ∧ ¬ (a.buffer.block = (target.getD a).buffer.block
            ∧ a.buffer.offset + a.lambdaLoadOffset (target.getD a) e
              = (target.getD a).buffer.offset + a.lambdaStoreOffset (target.getD a) e')) →
        ∀ e : Nat, e < a.lengthOf →
          (a.lengthOf ≤ INT_MAX →
            (a.applyLambda fromT func m target).state.read (target.getD a).buffer
                (a.lambdaStoreOffset (target.getD a) e)
              = func (m.read a.buffer (a.lambdaLoadOffset (target.getD a) e))) ∧
          (a.applyIndexedLambda fromT indexed m target).state.read (target.getD a).buffer
              (a.lambdaStoreOffset (target.getD a) e)
            = indexed e (m.read a.buffer (a.lambdaLoadOffset (target.getD a) e)))) := by
  constructor
  · intro h
    simp only [NDArray.applyLambda, NDArray.applyIndexedLambda]
    by_cases h1 : a.dataType ≠ fromT
    · rw [if_pos h1, if_pos h1]
      exact ⟨rfl, rfl⟩
    · have h2 : a.dataType ≠ (target.getD a).dataType := h.resolve_left h1
      rw [if_neg h1, if_pos h2, if_neg h1, if_pos h2]
      exact ⟨rfl, rfl⟩
  · intro h
    have h1 : ¬ a.dataType ≠ fromT := fun hc => h (Or.inl hc)
    have h2 : ¬ a.dataType ≠ (target.getD a).dataType := fun hc => h (Or.inr hc)
    have hI := applyIndexedLambda_stores fromT indexed m a target h1 h2
    have hL := applyLambda_stores fromT func m a target h1 h2
    refine ⟨fun hfit => by rw [hL hfit]; rfl, by rw [hI]; rfl, fun b o hframe => ⟨?_, ?_⟩,
      fun hdist e he => ⟨?_, ?_⟩⟩
    · intro hfit
      rw [hL hfit]
      exact foldl_write_frame _ _ (fun (e : Nat) => a.lambdaStoreOffset (target.getD a) e)
        (fun s (e : Nat) => func (s.read a.buffer (a.lambdaLoadOffset (target.getD a) e)))
        m b o (fun e he => hframe e (List.mem_range.mp he))
    · rw [hI]
      exact foldl_write_frame _ _ (fun (e : Nat) => a.lambdaStoreOffset (target.getD a) e)
        (fun s (e : Nat) =>
          indexed e (s.read a.buffer (a.lambdaLoadOffset (target.getD a) e)))
        m b o (fun e he => hframe e (List.mem_range.mp he))
    · intro hfit
      rw [hL hfit]
      exact foldl_write_read (List.range a.lengthOf) (target.getD a).buffer a.buffer
        (fun (e : Nat) => a.lambdaStoreOffset (target.getD a) e)
        (fun (e : Nat) => a.lambdaLoadOffset (target.getD a) e) (fun _ => func) m
        (List.nodup_range _)
        (fun x hx y hy hxy => (hdist x y (List.mem_range.mp hx) (List.mem_range.mp hy) hxy).1)
        (fun x hx y hy hxy => (hdist x y (List.mem_range.mp hx) (List.mem_range.mp hy) hxy).2)
        e (List.mem_range.mpr he)
    · rw [hI]
      exact foldl_write_read (List.range a.lengthOf) (target.getD a).buffer a.buffer
        (fun (e : Nat) => a.lambdaStoreOffset (target.getD a) e)
        (fun (e : Nat) => a.lambdaLoadOffset (target.getD a) e)
        (fun (e : Nat) => indexed e) m
        (List.nodup_range _)
        (fun x hx y hy hxy => (hdist x y (List.mem_range.mp hx) (List.mem_range.mp hy) hxy).1)
        (fun x hx y hy hxy => (hdist x y (List.mem_range.mp hx) (List.mem_range.mp hy) hxy).2)
        e (List.mem_range.mpr he)

/-- Witness of C20: an `INT32` vector put through `applyLambda<float>`, and the same
vector of three cells with a target of one cell of another buffer: both methods return
normally and the position 2 of the target's buffer, beyond the target's length, holds
`func` of the element 2 of the vector. -/
theorem lambda_checks_types_only_witness :
    vec3.applyLambda .FLOAT32 (fun x => x + 10) mem123 none = .raise mem123 .runtime_error ∧
    one32.lengthOf = 1 ∧
    (vec3.applyLambda .INT32 (fun x => x + 10) mem123 (some one32)).value = .ok () ∧
    (vec3.applyLambda .INT32 (fun x => x + 10) mem123 (some one32)).state.read one32.buffer
        (vec3.lambdaStoreOffset one32 ((2 : Nat) : Int))
      = mem123.read vec3.buffer (vec3.lambdaLoadOffset one32 ((2 : Nat) : Int)) + 10 ∧
    (vec3.applyIndexedLambda .INT32 (fun i x => x + i) mem123 (some one32)).state.read
        one32.buffer (vec3.lambdaStoreOffset one32 ((2 : Nat) : Int))
      = mem123.read vec3.buffer (vec3.lambdaLoadOffset one32 ((2 : Nat) : Int)) + 2 ∧
    vec3.lambdaStoreOffset one32 ((2 : Nat) : Int) = 2 := by
  have h := (lambda_checks_types_only .INT32 (fun x => x + 10) (fun i x => x + i) mem123 vec3
    (some one32)).2 (by decide)
  have hdist : ∀ e e' : Nat, e < vec3.lengthOf → e' < vec3.lengthOf → e ≠ e' →
      vec3.lambdaStoreOffset ((some one32).getD vec3) e
        ≠ vec3.lambdaStoreOffset ((some one32).getD vec3) e'
      ∧ ¬ (vec3.buffer.block = ((some one32).getD vec3).buffer.block
        ∧ vec3.buffer.offset + vec3.lambdaLoadOffset ((some one32).getD vec3) e
          = ((some one32).getD vec3).buffer.offset
            + vec3.lambdaStoreOffset ((some one32).getD vec3) e') := by
    intro e e' _ _ hne
    refine ⟨?_, fun hcon => absurd hcon.1 (by decide)⟩
    have hs : ∀ k : Nat, vec3.lambdaStoreOffset ((some one32).getD vec3) (k : Int) = (k : Int) :=
      fun _ => rfl
    rw [hs, hs]
    exact_mod_cast hne
  exact ⟨((lambda_checks_types_only .FLOAT32 (fun x => x + 10) (fun _ x => x) mem123 vec3
      none).1 (Or.inl (by decide))).1,
    by decide, h.1 (by decide), ((h.2.2.2 hdist) 2 (by decide)).1 (by decide),
    ((h.2.2.2 hdist) 2 (by decide)).2, rfl⟩

/-! ## `addRowVector` -/

section RowVector

variable {α ι : Type}

theorem Memory.read_write_of_ne (s : Memory α) (buf buf₁ : Pointer) (i i₁ : Int) (v : α)
    (h : ¬ (buf₁.block = buf.block ∧ buf₁.offset + i₁ = buf.offset + i)) :
    (s.write buf i v).read buf₁ i₁ = s.read buf₁ i₁ := by
  simp only [Memory.read, Memory.cells_write]
  rw [if_neg h]

end RowVector

/-- The example of the specification: the matrix `[[1, 2, 3], [4, 5, 6]]` and the row
vector `[1, 1, 1]` give `[[2, 3, 4], [5, 6, 7]]` in the target, by one invocation of the
broadcast kernel. -/
theorem addRowVector_example :
    (mat23.addRowVector (fun x _ => x) tablesOfX mem123456 row3 out23).value = .ok () ∧
    (mat23.addRowVector (fun x _ => x) tablesOfX mem123456 row3 out23).state.2 = [.Broadcast_exec] ∧
    (List.range 6).map (fun (e : Nat) =>
      (mat23.addRowVector (fun x _ => x) tablesOfX mem123456 row3 out23).state.1.read out23.buffer
        (e : Int)) = [2, 3, 4, 5, 6, 7] := by
  decide

/-- C21 (counterexample): on the 2×3 matrix, whose tads along axis 1 are its two rows,
with an axis check that accepts the axis 1, the index `-1` is not rejected:
`tensorAlongDimension(-1, {1})` returns an array, whose buffer starts where the word
before the offset table says; the index `2` is rejected. -/
theorem tensorAlongDimension_negative_index_not_rejected :
    mat23.tensorsAlongDimension [1] = 2 ∧
    (∀ beforeTable : Int → Int, ∃ tad : NDArray,
      mat23.tensorAlongDimension acceptAxes beforeTable (-1) [1] = .ok tad ∧
      tad.buffer.offset = mat23.buffer.offset + beforeTable (-1)) ∧
    mat23.tensorAlongDimension acceptAxes zerosBefore 2 [1] = .error .runtime_error := by
  refine ⟨by decide, fun beforeTable => ⟨_, rfl, rfl⟩, by decide⟩

/-- C21 (amended): when the axis check `shape::checkDimensions` throws,
`tensorAlongDimension(index, dims)` raises what it throws.  When it leaves the axes
`copy`, the call raises its `std::runtime_error` exactly when `index ≥ numberOfTads`; a
negative index is not rejected: the call returns a view with the TAD shape descriptor
whose start is what the read before the offset table yields; and for
`0 ≤ index < numberOfTads` it returns an array flagged as a view that does not own its
buffer, with the TAD shape descriptor, whose buffer starts `tadOffsets[index]` elements
into the buffer of the parent. -/
theorem tensorAlongDimension_raises_iff
    (checkDimensions : Nat → List Nat → Except Exception (List Nat)) (beforeTable : Int → Int)
    (a : NDArray) (index : Int) (dimensions : List Nat) :
    (∀ ex : Exception, checkDimensions a.rankOf dimensions = .error ex →
      a.tensorAlongDimension checkDimensions beforeTable index dimensions = .error ex) ∧
    (∀ copy : List Nat, checkDimensions a.rankOf dimensions = .ok copy →
      (a.tensorAlongDimension checkDimensions beforeTable index dimensions
          = .error .runtime_error ↔
        ((ConstantTadHelper.tadForDimensions a.toShapeInfo copy).numberOfTads : Int) ≤ index) ∧
      (index < 0 →
        ∃ tad : NDArray,
          a.tensorAlongDimension checkDimensions beforeTable index dimensions = .ok tad ∧
          tad.isView = true ∧ tad.isBuffAlloc = false ∧
          tad.toShapeInfo
            = (ConstantTadHelper.tadForDimensions a.toShapeInfo copy).primaryShapeInfo ∧
          tad.buffer.block = a.buffer.block ∧
          tad.buffer.offset = a.buffer.offset + beforeTable index) ∧
      (∀ t : Nat, index = (t : Int) →
        t < (ConstantTadHelper.tadForDimensions a.toShapeInfo copy).numberOfTads →
        ∃ tad : NDArray,
          a.tensorAlongDimension checkDimensions beforeTable index dimensions = .ok tad ∧
          tad.isView = true ∧ tad.isBuffAlloc = false ∧
          tad.toShapeInfo
            = (ConstantTadHelper.tadForDimensions a.toShapeInfo copy).primaryShapeInfo ∧
          tad.buffer.block = a.buffer.block ∧
          tad.buffer.offset = a.buffer.offset
            + (ConstantTadHelper.tadForDimensions a.toShapeInfo copy).primaryOffsets.getD
                t 0)) := by
  refine ⟨fun ex hex => ?_, fun copy hcopy => ⟨?_, ?_, ?_⟩⟩
  · simp only [NDArray.tensorAlongDimension, hex]
  · by_cases h : index ≥
        ((ConstantTadHelper.tadForDimensions a.toShapeInfo copy).numberOfTads : Int)
    · simp only [NDArray.tensorAlongDimension, hcopy, h, if_true, true_iff]
    · simp only [NDArray.tensorAlongDimension, hcopy, h, if_false, reduceCtorEq, false_iff,
        not_le]
  · intro hneg
    have h : ¬ index ≥
        ((ConstantTadHelper.tadForDimensions a.toShapeInfo copy).numberOfTads : Int) := by
      omega
    simp only [NDArray.tensorAlongDimension, hcopy, h, hneg, if_false, if_true]
    exact ⟨_, rfl, rfl, rfl, rfl, rfl, rfl⟩
  · intro t ht hlt
    have h : ¬ index ≥
        ((ConstantTadHelper.tadForDimensions a.toShapeInfo copy).numberOfTads : Int) := by
      omega
    have hneg : ¬ index < 0 := by omega
    simp only [NDArray.tensorAlongDimension, hcopy, h, hneg, if_false]
    exact ⟨_, rfl, rfl, rfl, rfl, rfl, by simp only [NDArray.bufferWithOffset, ht, Int.toNat_ofNat]⟩

/-- Witness of C21 (amended): the second row of the 2×3 matrix, with an axis check that
accepts the axis 1. -/
theorem tensorAlongDimension_raises_iff_witness :
    ∃ tad : NDArray, mat23.tensorAlongDimension acceptAxes zerosBefore 1 [1] = .ok tad ∧
      tad.isView = true ∧ tad.isBuffAlloc = false ∧
      tad.toShapeInfo
        = (ConstantTadHelper.tadForDimensions mat23.toShapeInfo [1]).primaryShapeInfo ∧
      tad.buffer.block = mat23.buffer.block ∧
      tad.buffer.offset = mat23.buffer.offset
        + (ConstantTadHelper.tadForDimensions mat23.toShapeInfo [1]).primaryOffsets.getD 1 0 :=
  ((tensorAlongDimension_raises_iff acceptAxes zerosBefore mat23 1 [1]).2 [1] rfl).2.2 1 rfl
    (by decide)

/-! ## `e(i, j)`, `p(i, j, value)` and the checks of `setValueInDiagMatrix` -/

/-- C22 (counterexample): on a rank-2 array of strings with extents `(2, 2)` and the
indices `(1, 1)` in range, `e<T>(1, 1)` raises the error of the type selector and
`p<T>(1, 1, 5)` raises it too and stores nothing. -/
theorem e2_p2_raise_on_string_matrix :
    strMat22.rankOf = 2 ∧
    strMat22.e2 zeroMemory 1 1 = .error .runtime_error ∧
    (strMat22.p2 zeroMemory 1 1 5).value = .error .runtime_error ∧
    (strMat22.p2 zeroMemory 1 1 5).state.read strMat22.buffer
      (1 * 2 + 1 * 1) = 0 := by
  decide

/-- C22 (amended): on an array whose rank is not 2, `e<T>(i, j)` and `p<T>(i, j, v)`
raise `std::invalid_argument` for all `i` and `j`, and `p` leaves the memory as it
was; on a rank-2 array with extents `(r, c)` they raise it whenever `i ≥ r` or `j ≥ c`;
otherwise, on a numeric array, `e` returns and `p` overwrites exactly the buffer cell
at offset `i * strides[0] + j * strides[1]`. -/
theorem e2_p2_access {α : Type} (m : Memory α) (a : NDArray) (i j : Int) (v : α) :
    (a.rankOf ≠ 2 →
      a.e2 m i j = .error .invalid_argument ∧ a.p2 m i j v = .raise m .invalid_argument) ∧
    (∀ r c : Nat, a.shape = [r, c] →
      ((i ≥ (r : Int) ∨ j ≥ (c : Int)) →
        a.e2 m i j = .error .invalid_argument ∧ a.p2 m i j v = .raise m .invalid_argument) ∧
      (i < (r : Int) → j < (c : Int) → a.dataType ∈ LIBND4J_TYPES →
        a.e2 m i j
          = .ok (m.read a.buffer (i * a.strides.getD 0 0 + j * a.strides.getD 1 0)) ∧
        a.p2 m i j v
          = .ret (m.write a.buffer (i * a.strides.getD 0 0 + j * a.strides.getD 1 0) v)
              ())) := by
  have hoff : shape.getOffset 0 a.strides [i, j]
      = i * a.strides.getD 0 0 + j * a.strides.getD 1 0 := by
    match a.strides with
    | [] => simp [shape.getOffset]
    | [s₀] => simp [shape.getOffset]
    | s₀ :: s₁ :: rest => simp [shape.getOffset]
  refine ⟨fun hr => ?_, fun r c hsh => ⟨fun hout => ?_, fun hi hj hnum => ?_⟩⟩
  · simp only [NDArray.e2, NDArray.p2]
    rw [if_pos (Or.inl hr), if_pos (Or.inl hr)]
    exact ⟨rfl, rfl⟩
  · have hc : a.rankOf ≠ 2 ∨ i ≥ ((a.shape.getD 0 0 : Nat) : Int)
        ∨ j ≥ ((a.shape.getD 1 0 : Nat) : Int) := by
      right
      simpa [hsh] using hout
    simp only [NDArray.e2, NDArray.p2]
    rw [if_pos hc, if_pos hc]
    exact ⟨rfl, rfl⟩
  · have hc : ¬ (a.rankOf ≠ 2 ∨ i ≥ ((a.shape.getD 0 0 : Nat) : Int)
        ∨ j ≥ ((a.shape.getD 1 0 : Nat) : Int)) := by
      simp only [NDArray.rankOf, hsh, List.length_cons, List.length_nil, List.getD_cons_zero,
        List.getD_cons_succ]
      omega
    simp only [NDArray.e2, NDArray.p2]
    rw [if_neg hc, if_neg hc]
    simp only [BUILD_SINGLE_SELECTOR, hnum, if_true, NDArray.templatedGet,
      NDArray.templatedSet, hoff, and_self]

/-- Witness of C22 (amended): the element `(1, 0)` of the 2×3 matrix, and the same call
on a vector. -/
theorem e2_p2_access_witness :
    mat23.e2 mem123456 1 0 = .ok (mem123456.read mat23.buffer (1 * 3 + 0 * 1)) ∧
    vec3.e2 mem123456 1 0 = .error .invalid_argument ∧
    mat23.e2 mem123456 2 0 = .error .invalid_argument :=
  ⟨(((e2_p2_access mem123456 mat23 1 0 7).2 2 3 rfl).2 (by decide) (by decide)
      (by decide)).1,
   ((e2_p2_access mem123456 vec3 1 0 7).1 (by decide)).1,
   (((e2_p2_access mem123456 mat23 2 0 7).2 2 3 rfl).1 (Or.inl (by decide))).1⟩

/-- C23: `setValueInDiagMatrix` raises whenever `direction` is neither `'u'` nor `'l'`,
and whenever the rank of the array is not 2; in both cases the memory is as before
the call. -/
theorem setValueInDiagMatrix_rejects {α : Type} (m : Memory α) (a : NDArray) (value : α)
    (diag : Int) (direction : Char)
    (h : (direction ≠ 'u' ∧ direction ≠ 'l') ∨ a.rankOf ≠ 2) :
    ∃ ex, a.setValueInDiagMatrix m value diag direction = .raise m ex := by
  by_cases hS : a.isS = true
  · exact ⟨.runtime_error, by simp only [NDArray.setValueInDiagMatrix, hS, if_true]⟩
  · by_cases hr : a.rankOf ≠ 2
    · refine ⟨.std_string, ?_⟩
      simp only [NDArray.setValueInDiagMatrix, hS, Bool.false_eq_true, if_false]
      rw [if_pos hr]
    · have hd := h.resolve_right hr
      refine ⟨.std_string, ?_⟩
      simp only [NDArray.setValueInDiagMatrix, hS, Bool.false_eq_true, if_false]
      rw [if_neg hr, if_neg hd.1, if_neg hd.2]

/-- Witness of C23: the direction `'x'` on the 2×2 matrix, and a vector. -/
theorem setValueInDiagMatrix_rejects_witness :
    (∃ ex, mat22.setValueInDiagMatrix zeroMemory 5 0 'x' = .raise zeroMemory ex) ∧
    (∃ ex, vec3.setValueInDiagMatrix zeroMemory 5 0 'u' = .raise zeroMemory ex) :=
  ⟨setValueInDiagMatrix_rejects zeroMemory mat22 5 0 'x' (Or.inl (by decide)),
   setValueInDiagMatrix_rejects zeroMemory vec3 5 0 'u' (Or.inr (by decide))⟩

/-! ## The accumulator of `tile`, again -/

/-- C24 (failing input): `reps = [2147483648, 2]` has no zero entry and the product
`2^32`, yet the `int` accumulator ends at `0` and `tile` raises its zero-reps error;
`reps = [641, 6700417]` has the product `2^32 + 1`, yet the accumulator ends at `1` and
`tile` takes the identity path: on the 2×2 matrix it returns a copy of the matrix, with
the extents `(2, 2)`. -/
theorem tile_accumulator_wraps :
    ([2147483648, 2] : List Int).prod = 4294967296 ∧
    (mat22.tile mem123 [2147483648, 2]).value = .error .runtime_error ∧
    ([641, 6700417] : List Int).prod = 4294967297 ∧
    (mat22.tile mem123 [641, 6700417]).value.toOption.map (fun r => r.shape) = some [2, 2] ∧
    (List.range 4).map (fun (e : Nat) =>
      (mat22.tile mem123 [641, 6700417]).state.read ⟨2, 0⟩ (e : Int)) = [1, 2, 3, 0] := by
  decide

/-! ## `p(i, value)` followed by `e(k)` -/

/-- C29: on a numeric array whose addressing sends distinct logical indices to distinct
offsets, for `i < length`: `p<T>(i, v)` returns normally, after it `e<T>(i)` returns
`v`, and `e<T>(k)` returns for every other index `k` what it returned before. -/
theorem e_after_p {α : Type} (m : Memory α) (a : NDArray) (i : Nat) (v : α)
    (hnum : a.dataType ∈ LIBND4J_TYPES) (hinj : a.DistinctLinearOffsets)
    (hi : i < a.lengthOf) :
    (a.p m i v).value = .ok () ∧
    a.e (a.p m i v).state i = .ok v ∧
    ∀ k : Nat, k ≠ i → a.e (a.p m i v).state k = a.e m k := by
  have hp : a.p m i v = .ret (m.write a.buffer (a.getOffset i) v) () := by
    have h : ¬ ((i : Int) ≥ (a.lengthOf : Int)) := by omega
    simp only [NDArray.p, h, if_false, BUILD_SINGLE_SELECTOR, hnum, if_true,
      NDArray.templatedSet]
  rw [hp]
  refine ⟨rfl, ?_, fun k hk => ?_⟩
  · have h : ¬ ((i : Int) ≥ (a.lengthOf : Int)) := by omega
    simp only [NDArray.e, h, if_false, BUILD_SINGLE_SELECTOR, hnum, if_true,
      NDArray.templatedGet, Outcome.ret, Memory.read_write_self]
  · by_cases h : (k : Int) ≥ (a.lengthOf : Int)
    · simp only [NDArray.e, h, if_true]
    · have hne : a.getOffset (k : Int) ≠ a.getOffset (i : Int) := fun hEq =>
        hk (hinj k i (by omega) hi hEq)
      simp only [NDArray.e, h, if_false, BUILD_SINGLE_SELECTOR, hnum, if_true,
        NDArray.templatedGet, Outcome.ret]
      rw [Memory.read_write_of_ne m a.buffer a.buffer _ _ v (fun hcon => hne (by
        have := hcon.2; omega))]

/-- Witness of C29: the three-element vector, the value `7` put at the index `1`. -/
theorem e_after_p_witness :
    (vec3.p mem123 (1 : Nat) 7).value = .ok () ∧
    vec3.e (vec3.p mem123 (1 : Nat) 7).state (1 : Nat) = .ok 7 ∧
    ∀ k : Nat, k ≠ 1 → vec3.e (vec3.p mem123 (1 : Nat) 7).state k = vec3.e mem123 k :=
  e_after_p mem123 vec3 1 7 (by decide) (distinctLinearOffsets_of_default vec3 rfl) (by decide)

/-! ## Numeric-only operations on a string array -/

/-- C25: on a string-typed array each of the numeric-only operations raises the
`std::runtime_error` of its string check, with the memory as before the call and an
empty log of kernels: `setIdentity`, `setValueInDiagMatrix`, the five `applyTransform`
overloads, the two `applyScalarArr` overloads, the two `applyBroadcast` overloads, the
two `applyIndexReduce` overloads, the two `applyReduce3` overloads and
`applyAllReduce3`, the four `reduceAlongDimension` overloads, and the row and column
vector operations. -/
theorem numeric_operations_reject_string_array {α : Type} [Zero α] [One α] [Add α] [Sub α]
    [Mul α] [Div α] [FloorOps α] (a : NDArray) (hS : a.isS = true) (m : Memory α)
    (kernel : Memory α → Memory α) (value : α) (diag : Int) (direction : Char)
    (other : NDArray) (target : Option NDArray) (dimensions : List Nat)
    (pickPairwiseResultType : DataType → DataType → DataType)
    (absentTad : AbsentTad)
    (pickFloatingType : DataType → DataType)
    (cast : NDArray → DataType → Memory α → Outcome (Memory α) NDArray)
    (checkDimensions : Nat → List Nat → Except Exception (List Nat))
    (evalReduceShapeInfo :
      Char → List Nat → NDArray → DataType → Bool → Bool → Except Exception ShapeInfo)
    (op : broadcast.Ops) (keepDims supportOldShapes checkTargetShape : Bool) :
    a.setIdentity m = .raise m .runtime_error ∧
    a.setValueInDiagMatrix m value diag direction = .raise m .runtime_error ∧
    a.applyTransformFloat kernel m target = .raise (m, []) .runtime_error ∧
    a.applyTransformAny kernel m target = .raise (m, []) .runtime_error ∧
    a.applyTransformSame kernel m target = .raise (m, []) .runtime_error ∧
    a.applyTransformBool kernel m target = .raise (m, []) .runtime_error ∧
    a.applyTransformStrict kernel m target = .raise (m, []) .runtime_error ∧
    a.applyScalarArr pickPairwiseResultType cast kernel m other target
      = .raise (m, []) .runtime_error ∧
    a.applyScalarArrBool kernel m other target = .raise (m, []) .runtime_error ∧
    a.applyBroadcast pickPairwiseResultType absentTad op m dimensions other target
      = .raise (m, []) .runtime_error ∧
    a.applyBroadcastBool kernel m dimensions other target = .raise (m, []) .runtime_error ∧
    a.applyIndexReduce kernel m other dimensions = .raise (m, []) .runtime_error ∧
    a.applyIndexReduceDims evalReduceShapeInfo kernel m dimensions
      = .raise (m, []) .runtime_error ∧
    a.applyReduce3 pickFloatingType kernel m other = .raise (m, []) .runtime_error ∧
    a.applyReduce3Dims pickFloatingType checkDimensions evalReduceShapeInfo kernel m other
      dimensions = .raise (m, []) .runtime_error ∧
    a.applyAllReduce3 pickFloatingType checkDimensions kernel m other dimensions
      = .raise (m, []) .runtime_error ∧
    a.reduceAlongDimensionFloat evalReduceShapeInfo kernel m target dimensions keepDims
      supportOldShapes checkTargetShape = .raise (m, []) .runtime_error ∧
    a.reduceAlongDimensionSame evalReduceShapeInfo kernel m target dimensions keepDims
      supportOldShapes checkTargetShape = .raise (m, []) .runtime_error ∧
    a.reduceAlongDimensionBool evalReduceShapeInfo kernel m target dimensions keepDims
      supportOldShapes checkTargetShape = .raise (m, []) .runtime_error ∧
    a.reduceAlongDimensionLong evalReduceShapeInfo kernel m target dimensions keepDims
      supportOldShapes checkTargetShape = .raise (m, []) .runtime_error ∧
    a.addRowVector pickPairwiseResultType absentTad m other (target.getD a)
      = .raise (m, []) .runtime_error ∧
    a.subRowVector pickPairwiseResultType absentTad m other (target.getD a)
      = .raise (m, []) .runtime_error ∧
    a.mulRowVector pickPairwiseResultType absentTad m other (target.getD a)
      = .raise (m, []) .runtime_error ∧
    a.divRowVector pickPairwiseResultType absentTad m other (target.getD a)
      = .raise (m, []) .runtime_error ∧
    a.addColumnVector pickPairwiseResultType absentTad m other (target.getD a)
      = .raise (m, []) .runtime_error ∧
    a.addiRowVector absentTad m other = .raise (m, []) .runtime_error ∧
    a.addiColumnVector absentTad m other = .raise (m, []) .runtime_error ∧
    a.muliColumnVector absentTad m other = .raise (m, []) .runtime_error := by
  simp only [NDArray.setIdentity, NDArray.setValueInDiagMatrix, NDArray.applyTransformFloat,
    NDArray.applyTransformAny, NDArray.applyTransformSame, NDArray.applyTransformBool,
    NDArray.applyTransformStrict, NDArray.applyScalarArr, NDArray.applyScalarArrBool,
    NDArray.applyBroadcast, NDArray.applyBroadcastBool, NDArray.applyIndexReduce,
    NDArray.applyIndexReduceDims, NDArray.applyReduce3, NDArray.applyReduce3Dims,
    NDArray.applyAllReduce3, NDArray.reduceAlongDimensionFloat,
    NDArray.reduceAlongDimensionSame, NDArray.reduceAlongDimensionBool,
    NDArray.reduceAlongDimensionLong, NDArray.addRowVector, NDArray.subRowVector,
    NDArray.mulRowVector, NDArray.divRowVector, NDArray.addColumnVector,
    NDArray.addiRowVector, NDArray.addiColumnVector, NDArray.muliColumnVector, hS, if_true,
    and_self]

/-- Witness of C25: the vector of three strings. -/
theorem numeric_operations_reject_string_array_witness :
    str3.setIdentity zeroMemory = .raise zeroMemory .runtime_error ∧
    str3.applyTransformSame (fun m => m.write ⟨1, 0⟩ 0 7) zeroMemory none
      = .raise (zeroMemory, []) .runtime_error ∧
    str3.muliColumnVector tablesOfX zeroMemory vec3 = .raise (zeroMemory, []) .runtime_error :=
  ⟨(numeric_operations_reject_string_array str3 rfl zeroMemory (fun m => m.write ⟨1, 0⟩ 0 7)
      5 0 'u' vec3 none [0] (fun x _ => x) tablesOfX (fun x => x) (fun s _ m => .ret m s)
      (fun _ d => .ok d) (fun _ _ x _ _ _ => .ok x.toShapeInfo) .Add false false false).1,
   (numeric_operations_reject_string_array str3 rfl zeroMemory (fun m => m.write ⟨1, 0⟩ 0 7)
      5 0 'u' vec3 none [0] (fun x _ => x) tablesOfX (fun x => x) (fun s _ m => .ret m s)
      (fun _ d => .ok d) (fun _ _ x _ _ _ => .ok x.toShapeInfo) .Add false false
      false).2.2.2.2.1,
   (numeric_operations_reject_string_array str3 rfl zeroMemory (fun m => m.write ⟨1, 0⟩ 0 7)
      5 0 'u' vec3 none [0] (fun x _ => x) tablesOfX (fun x => x) (fun s _ m => .ret m s)
      (fun _ d => .ok d) (fun _ _ x _ _ _ => .ok x.toShapeInfo) .Add false false
      false).2.2.2.2.2.2.2.2.2.2.2.2.2.2.2.2.2.2.2.2.2.2.2.2.2.2.2⟩

/-! ## `applyScalarArr` and `applyBroadcast` -/

/-- C27 (counterexample): on a string-typed array, with an `INT32` target,
`applyScalarArr` ends in the `std::runtime_error` of its string check, which is neither
the `std::invalid_argument` of its other checks nor the data-type exception of
`execScalar`. -/
theorem applyScalarArr_on_string_array :
    one32.dataType ≠ str3.dataType ∧
    (str3.applyScalarArr (fun x _ => x) (fun s _ m => .ret m s) (fun m => m.write ⟨3, 0⟩ 0 7)
      zeroMemory scalar32 (some one32)).value = .error .runtime_error := by
  decide

/-- C27 (amended): in the build without `__ND4J_EXPERIMENTAL__`, a call of
`applyScalarArr(scalar::Ops, scalar, target)` whose target data type differs from the
data type of this array ends in an error and the log of kernels stays empty, whatever
the scalar's type and the pairwise result type are: the error is the
`std::runtime_error` of the string check when this array is string-typed, and
otherwise a `std::invalid_argument` of the array-level checks, the exception thrown by
`scalar->cast`, or the `nd4j::datatype_exception` of `execScalar`. -/
theorem applyScalarArr_rejects_other_target_type {α : Type}
    (pickPairwiseResultType : DataType → DataType → DataType)
    (cast : NDArray → DataType → Memory α → Outcome (Memory α) NDArray)
    (kernel : Memory α → Memory α) (m : Memory α) (a scalar target : NDArray)
    (h : target.dataType ≠ a.dataType) :
    (a.applyScalarArr pickPairwiseResultType cast kernel m scalar (some target)).state.2 = [] ∧
    (a.isS = true →
      (a.applyScalarArr pickPairwiseResultType cast kernel m scalar (some target)).value
        = .error .runtime_error) ∧
    (a.isS = false →
      (a.applyScalarArr pickPairwiseResultType cast kernel m scalar (some target)).value
        = .error .invalid_argument ∨
      (a.applyScalarArr pickPairwiseResultType cast kernel m scalar (some target)).value
        = .error .datatype_exception ∨
      ∃ ex, (cast scalar a.dataType m).value = .error ex ∧
        (a.applyScalarArr pickPairwiseResultType cast kernel m scalar (some target)).value
          = .error ex) := by
  have hz : ∀ (s : Host α) (yType : DataType),
      NativeOpExecutioner.execScalar kernel s a.dataType yType target.dataType
        = .raise s .datatype_exception := by
    intro s yType
    simp only [NativeOpExecutioner.execScalar]
    rw [if_pos (Or.inr (fun hEq => h hEq.symm))]
  by_cases hS : a.isS = true
  · simp only [NDArray.applyScalarArr, hS, if_true, Outcome.raise, true_implies,
      Bool.true_eq_false, false_implies, and_self]
  · have hS₁ : a.isS = false := by simpa using hS
    simp only [NDArray.applyScalarArr, hS₁, Bool.false_eq_true, if_false, false_implies,
      true_implies, true_and, Option.getD_some]
    by_cases hsc : (!scalar.isScalar) = true
    · rw [if_pos hsc]
      exact ⟨rfl, Or.inl rfl⟩
    · rw [if_neg hsc]
      by_cases hacc : target.dataType ≠ pickPairwiseResultType a.dataType scalar.dataType
          ∧ ¬ (target.dataType = a.dataType ∨ target.dataType = scalar.dataType)
      · rw [if_pos hacc]
        exact ⟨rfl, Or.inl rfl⟩
      · rw [if_neg hacc]
        by_cases hty : a.dataType ≠ scalar.dataType
        · rw [if_pos hty]
          cases hc : (cast scalar a.dataType m).value with
          | ok tmp₁ =>
            simp only [hz]
            exact ⟨rfl, Or.inr (Or.inl rfl)⟩
          | error ex =>
            simp only []
            exact ⟨rfl, Or.inr (Or.inr ⟨ex, rfl, rfl⟩)⟩
        · rw [if_neg hty, hz]
          exact ⟨rfl, Or.inr (Or.inl rfl)⟩

/-- Witness of C27 (amended): an `INT32` vector with an `INT32` scalar and an `INT64`
target, the pairwise result type being taken `INT64`. -/
theorem applyScalarArr_rejects_other_target_type_witness :
    (vec3.applyScalarArr (fun _ _ => .INT64) (fun s _ m => .ret m s)
      (fun m => m.write ⟨3, 0⟩ 0 7) zeroMemory scalar32 (some long3)).state.2 = [] ∧
    ((vec3.applyScalarArr (fun _ _ => .INT64) (fun s _ m => .ret m s)
      (fun m => m.write ⟨3, 0⟩ 0 7) zeroMemory scalar32 (some long3)).value
        = .error .invalid_argument ∨
     (vec3.applyScalarArr (fun _ _ => .INT64) (fun s _ m => .ret m s)
      (fun m => m.write ⟨3, 0⟩ 0 7) zeroMemory scalar32 (some long3)).value
        = .error .datatype_exception ∨
     ∃ ex, (Outcome.ret zeroMemory scalar32 : Outcome (Memory Int) NDArray).value = .error ex ∧
      (vec3.applyScalarArr (fun _ _ => .INT64) (fun s _ m => .ret m s)
        (fun m => m.write ⟨3, 0⟩ 0 7) zeroMemory scalar32 (some long3)).value = .error ex) :=
  ⟨(applyScalarArr_rejects_other_target_type (fun _ _ => .INT64) (fun s _ m => .ret m s)
      (fun m => m.write ⟨3, 0⟩ 0 7) zeroMemory vec3 scalar32 long3 (by decide)).1,
   (applyScalarArr_rejects_other_target_type (fun _ _ => .INT64) (fun s _ m => .ret m s)
      (fun m => m.write ⟨3, 0⟩ 0 7) zeroMemory vec3 scalar32 long3 (by decide)).2.2 rfl⟩

/-- C30 (counterexample): on a string-typed array, with the opcode `Add`, a numeric
`tadArray` and an empty list of dimensions, `applyBroadcast` does not return normally:
it raises the `std::runtime_error` of its string check. -/
theorem applyBroadcast_on_string_array :
    (str3.applyBroadcast (fun x _ => x) tablesOfX .Add zeroMemory [] vec3 none).value
      = .error .runtime_error := by
  decide

/-- C30 (amended): on an array that is not string-typed, `applyBroadcast` raises a
`std::runtime_error` whenever the opcode is `Divide`, `FloorDiv` or `FloorMod` and
`tadArray` is boolean, or the opcode is `ReverseDivide` and this array is boolean;
otherwise, when `dimensions` is empty, it returns normally with the memory as before
and an empty log of kernels, whatever the type and the shape of the target. -/
theorem applyBroadcast_checks {α : Type} [Add α] [Sub α] [Mul α] [Div α] [FloorOps α]
    (pickPairwiseResultType : DataType → DataType → DataType)
    (absentTad : AbsentTad) (op : broadcast.Ops)
    (m : Memory α) (a : NDArray) (dimensions : List Nat) (tadArray : NDArray)
    (target : Option NDArray) (hS : a.isS = false) :
    ((((op = .Divide ∨ op = .FloorDiv ∨ op = .FloorMod) ∧ tadArray.isB = true)
        ∨ (op = .ReverseDivide ∧ a.isB = true)) →
      a.applyBroadcast pickPairwiseResultType absentTad op m dimensions tadArray target
        = .raise (m, []) .runtime_error) ∧
    (¬ (((op = .Divide ∨ op = .FloorDiv ∨ op = .FloorMod) ∧ tadArray.isB = true)
        ∨ (op = .ReverseDivide ∧ a.isB = true)) →
      dimensions = [] →
      a.applyBroadcast pickPairwiseResultType absentTad op m dimensions tadArray target
        = .ret (m, []) ()) := by
  constructor
  · intro h
    simp only [NDArray.applyBroadcast, hS, Bool.false_eq_true, if_false]
    rw [if_pos h]
  · intro h hd
    simp only [NDArray.applyBroadcast, hS, Bool.false_eq_true, if_false]
    rw [if_neg h, hd]
    rfl

/-- Witness of C30 (amended): an `INT32` vector divided by a boolean array, and added
to an `INT32` vector along no dimension with a target of another type and shape. -/
theorem applyBroadcast_checks_witness :
    vec3.applyBroadcast (fun x _ => x) tablesOfX .Divide zeroMemory [0] boolRow3 none
      = .raise (zeroMemory, []) .runtime_error ∧
    vec3.applyBroadcast (fun x _ => x) tablesOfX .Add zeroMemory [] vec3 (some boolRow3)
      = .ret (zeroMemory, []) () :=
  ⟨(applyBroadcast_checks (fun x _ => x) tablesOfX .Divide zeroMemory vec3 [0] boolRow3 none rfl).1
      (Or.inl ⟨Or.inl rfl, rfl⟩),
   (applyBroadcast_checks (fun x _ => x) tablesOfX .Add zeroMemory vec3 [] vec3 (some boolRow3) rfl).2
      (by decide) rfl⟩

/-! ## The fast path of `applyIndexedLambda` -/

/-- On row-major arrays that satisfy the invariant of the element-wise stride, the fast
path of `applyIndexedLambda` leaves the memory the slow path would leave. -/
theorem applyIndexedLambda_fast_row_major {α : Type} (fromT : DataType) (func : Int → α → α)
    (m : Memory α) (a z : NDArray) (hT : a.dataType = fromT) (hZT : z.dataType = fromT)
    (hshape : z.shape = a.shape) (hord : a.order = 'c') (hordZ : z.order = 'c')
    (hews : a.ews = 1) (hewsZ : z.ews = 1)
    (hinvA : a.EwsInvariant) (hinvZ : z.EwsInvariant) :
    a.applyIndexedLambda fromT func m (some z)
      = .ret (a.applyIndexedLambdaSlow func m z) () := by
  have hlen : z.lengthOf = a.lengthOf := by simp only [NDArray.lengthOf, hshape]
  have h1 : ¬ a.dataType ≠ fromT := not_not.mpr hT
  have h2 : ¬ a.dataType ≠ z.dataType := not_not.mpr (hT.trans hZT.symm)
  have hfast : a.order = z.order ∧ (a.ews = 1 ∧ z.ews = 1) := ⟨by rw [hord, hordZ], hews, hewsZ⟩
  have hoffA : ∀ e : Nat, e < a.lengthOf → a.getOffset (e : Int) = (e : Int) := by
    intro e he
    rw [hinvA hews e he, hord]
    rfl
  have hoffZ : ∀ e : Nat, e < a.lengthOf → z.getOffset (e : Int) = (e : Int) := by
    intro e he
    rw [hinvZ hewsZ e (by rw [hlen]; exact he), hordZ]
    rfl
  simp only [NDArray.applyIndexedLambda, Option.getD_some, h1, h2, if_false, hfast, and_self,
    if_true, NDArray.applyIndexedLambdaSlow]
  congr 1
  by_cases hfz : a.buffer = z.buffer
  · rw [if_pos hfz, ← hfz]
    apply List.foldl_ext
    intro s e he
    rw [hoffA e (List.mem_range.mp he)]
  · rw [if_neg hfz]
    apply List.foldl_ext
    intro s e he
    rw [hoffA e (List.mem_range.mp he), hoffZ e (List.mem_range.mp he)]

/-- C26: the column-major 2×2 matrices `matF22` (holding `1, 2, 3, 4` in its buffer) and
`outF22` satisfy the fast-path condition, and with `func(i, x) = 10 * i + x` the fast
path leaves at the logical indices `0, 1, 2, 3` of the target the values
`1, 23, 12, 34`, whereas `func(e, value of X at logical index e)` is `1, 13, 22, 34`,
which is what the slow path of the same function leaves: the fast path hands the
buffer position to `func`, the slow path the logical index. -/
theorem applyIndexedLambda_fast_path_column_major :
    (matF22.order = outF22.order ∧ matF22.ews = 1 ∧ outF22.ews = 1) ∧
    (List.range 4).map (fun (e : Nat) =>
      (matF22.applyIndexedLambda .INT32 (fun i x => 10 * i + x) mem123456
        (some outF22)).state.read outF22.buffer (outF22.getOffset e)) = [1, 23, 12, 34] ∧
    (List.range 4).map (fun (e : Nat) =>
      10 * (e : Int) + mem123456.read matF22.buffer (matF22.getOffset e)) = [1, 13, 22, 34] ∧
    (List.range 4).map (fun (e : Nat) =>
      (matF22.applyIndexedLambdaSlow (fun i x => 10 * i + x) mem123456 outF22).read
        outF22.buffer (outF22.getOffset e)) = [1, 13, 22, 34] := by
  decide

/-! ## `repeat` into a given target: the stores and the frame -/

section RepeatInto

variable {α : Type}

open ConstantTadHelper shape

theorem eAs_in_range (convert : DataType → DataType → α → α) (T : DataType) (s : Memory α)
    (t : NDArray) (i : Nat) (hi : i < t.lengthOf) (hnum : t.dataType ∈ LIBND4J_TYPES) :
    t.eAs convert T s i = .ok (convert t.dataType T (s.read t.buffer (t.getOffset (i : Int)))) := by
  have h : ¬ ((i : Int) ≥ (t.lengthOf : Int)) := by omega
  simp only [NDArray.eAs, h, if_false, BUILD_SINGLE_SELECTOR, hnum, if_true,
    NDArray.templatedGet]

theorem pAs_in_range (convert : DataType → DataType → α → α) (T : DataType) (s : Memory α)
    (t : NDArray) (i : Nat) (hi : i < t.lengthOf) (hnum : t.dataType ∈ LIBND4J_TYPES) (v : α) :
    t.pAs convert T s i v
      = .ret (s.write t.buffer (t.getOffset (i : Int)) (convert T t.dataType v)) () := by
  have h : ¬ ((i : Int) ≥ (t.lengthOf : Int)) := by omega
  simp only [NDArray.pAs, h, if_false, BUILD_SINGLE_SELECTOR, hnum, if_true,
    NDArray.templatedSet]

/-- The two inner loops of `repeat(dimension, target)` on one pair of sub-arrays of
numeric arrays, the destination holding at least `repeatDelta` times the elements of the
source and at most `INT_MAX` elements: they do not throw, no `int` overflows, and they
make the stores of `repeatTadAs`. -/
theorem repeatIntoTensor_eq (convert : DataType → DataType → α → α) (T : DataType)
    (s : Memory α) (thisT retT : NDArray) (k : Nat)
    (hnum : thisT.dataType ∈ LIBND4J_TYPES) (hnumR : retT.dataType ∈ LIBND4J_TYPES)
    (hlen : thisT.lengthOf * k ≤ retT.lengthOf) (hfitT : thisT.lengthOf ≤ INT_MAX)
    (hfitR : retT.lengthOf ≤ INT_MAX) :
    NDArray.repeatIntoTensor convert T k thisT retT s
      = .ret (NDArray.repeatTadAs
          (fun v => convert T retT.dataType (convert thisT.dataType T v)) k thisT retT s) () := by
  have hto : (toInt32 (thisT.lengthOf : Int)).toNat = thisT.lengthOf := by
    have hmax : INT_MAX = 2147483647 := rfl
    rw [toInt32_of_fits _ (by omega) (by omega)]
    simp
  have hmain := forEach_range_inv thisT.lengthOf
    (fun (kk : Nat) (st : Memory α × Int) =>
      match thisT.eAs convert T st.1 kk with
      | .ok sv =>
        forInt k (fun (_ : Nat) (st' : Memory α × Int) =>
          if st'.2 = (INT_MAX : Int) then
            .raise st' .signed_overflow
          else
            let w := retT.pAs convert T st'.1 st'.2 sv
            ⟨(w.state, st'.2 + 1), w.value⟩) st
      | .error ex => .raise st ex)
    (fun (st : Memory α × Int) (kk : Nat) =>
      ((List.range k).foldl (fun s' (j : Nat) =>
          s'.write retT.buffer (retT.getOffset (st.2 + j))
            (convert T retT.dataType (convert thisT.dataType T
              (st.1.read thisT.buffer (thisT.getOffset (kk : Int)))))) st.1, st.2 + k))
    (fun kk st => st.2 = ((kk * k : Nat) : Int))
    (by
      intro kk hkk st hst
      beta_reduce at hst ⊢
      rw [eAs_in_range convert T st.1 thisT kk hkk hnum]
      simp only []
      have hk : k ≤ INT_MAX := by
        have h1 : 1 * k ≤ thisT.lengthOf * k := Nat.mul_le_mul_right k (by omega)
        omega
      rw [forInt_of_le _ _ _ hk]
      have hin := forEach_range_inv k
        (fun (_ : Nat) (st' : Memory α × Int) =>
          (if st'.2 = (INT_MAX : Int) then
            .raise st' .signed_overflow
          else
            (⟨((retT.pAs convert T st'.1 st'.2
                  (convert thisT.dataType T
                    (st.1.read thisT.buffer (thisT.getOffset (kk : Int))))).state, st'.2 + 1),
              (retT.pAs convert T st'.1 st'.2
                  (convert thisT.dataType T
                    (st.1.read thisT.buffer (thisT.getOffset (kk : Int))))).value⟩ :
              Outcome (Memory α × Int) Unit)))
        (fun (st' : Memory α × Int) (_ : Nat) =>
          (st'.1.write retT.buffer (retT.getOffset st'.2)
              (convert T retT.dataType (convert thisT.dataType T
                (st.1.read thisT.buffer (thisT.getOffset (kk : Int))))), st'.2 + 1))
        (fun j st' => st'.2 = ((kk * k + j : Nat) : Int))
        (by
          intro j hj st' hst'
          beta_reduce at hst' ⊢
          have hlt : kk * k + j < retT.lengthOf := by
            refine lt_of_lt_of_le ?_ hlen
            calc kk * k + j < kk * k + k := by omega
              _ = (kk + 1) * k := by ring
              _ ≤ thisT.lengthOf * k := Nat.mul_le_mul_right _ hkk
          have hne : ¬ (st'.2 = (INT_MAX : Int)) := by
            rw [hst']
            omega
          rw [if_neg hne, hst', pAs_in_range convert T st'.1 retT (kk * k + j) hlt hnumR]
          exact ⟨rfl, by push_cast; ring⟩)
        st (by simp [hst])
      constructor
      · rw [hin.1]
        refine congrArg (fun x => Outcome.ret x ()) ?_
        rw [show st = (st.1, st.2) from rfl, foldl_counter k
          (fun s' i => s'.write retT.buffer (retT.getOffset i)
            (convert T retT.dataType (convert thisT.dataType T
              (st.1.read thisT.buffer (thisT.getOffset (kk : Int)))))) st.1 st.2]
      · simp only [hst]
        push_cast
        ring)
    (s, 0) (by simp)
  unfold NDArray.repeatIntoTensor
  dsimp only
  rw [hto]
  erw [hmain.1]
  rw [foldl_block_counter thisT.lengthOf k
    (fun s' kk i0 => (List.range k).foldl (fun s'' (j : Nat) =>
          s''.write retT.buffer (retT.getOffset (i0 + j))
            (convert T retT.dataType (convert thisT.dataType T
              (s'.read thisT.buffer (thisT.getOffset (kk : Int)))))) s') s]
  simp only [NDArray.repeatTadAs, Nat.cast_add, Outcome.ret]

/-- A converted value read before a run of stores into another block may as well be read
at each store. -/
theorem foldl_write_preread_map {ι : Type} (g : α → α) (items : List ι) (rb tb : Pointer)
    (w : ι → Int) (r : Int) (hblock : tb.block ≠ rb.block) (s : Memory α) :
    items.foldl (fun s₂ x => s₂.write rb (w x) (g (s.read tb r))) s
      = items.foldl (fun s₂ x => s₂.write rb (w x) (g (s₂.read tb r))) s := by
  have h : ∀ (s₂ : Memory α), s₂.read tb r = s.read tb r →
      items.foldl (fun s₂ x => s₂.write rb (w x) (g (s.read tb r))) s₂
        = items.foldl (fun s₂ x => s₂.write rb (w x) (g (s₂.read tb r))) s₂ := by
    induction items with
    | nil => intro _ _; rfl
    | cons x rest ih =>
      intro s₂ hs₂
      simp only [List.foldl_cons, hs₂]
      apply ih
      simp only [Memory.read, Memory.cells_write]
      rw [if_neg (fun hcon => hblock hcon.1)]
      exact hs₂
  exact h s rfl

/-- The stores of `repeatTadAs` as one run over the pairs `(k, j)`, addressed from the
start of the two parent buffers, whatever the extent of the destination. -/
theorem repeatTadAs_stores (g : α → α) (k n N : Nat) (sd rd : Int) (thisT retT : NDArray)
    (ab rb : Pointer) (oA oR : Int) (s : Memory α)
    (hsh : thisT.shape = [n]) (hst : thisT.strides = [sd])
    (hrsh : retT.shape = [N]) (hrst : retT.strides = [rd])
    (hbA : thisT.buffer = ⟨ab.block, ab.offset + oA⟩)
    (hbR : retT.buffer = ⟨rb.block, rb.offset + oR⟩)
    (hblock : ab.block ≠ rb.block) :
    NDArray.repeatTadAs g k thisT retT s
      = ((List.range n).product (List.range k)).foldl
          (fun s₂ (q : Nat × Nat) =>
            s₂.write rb (oR + ((q.1 * k + q.2 : Nat) : Int) * rd)
              (g (s₂.read ab (oA + (q.1 : Int) * sd)))) s := by
  have h1 := rank1 thisT n sd hsh hst
  have h2 := rank1 retT N rd hrsh hrst
  rw [foldl_product]
  unfold NDArray.repeatTadAs
  rw [h1.1]
  congr 1
  funext s₁ kk
  rw [foldl_write_preread_map g (List.range k) retT.buffer thisT.buffer _ _
    (by rw [hbA, hbR]; exact hblock) s₁]
  congr 1
  funext s₂ j
  rw [h1.2, h2.2, hbA, hbR, write_shift, read_shift]

/-- The axes kept by one set of axes are those dropped by a set that is its complement
on the axes of the list. -/
theorem keepAxes_compl {β : Type} (D E : List Nat) (l : List β) (k : Nat)
    (h : ∀ i : Nat, k ≤ i → i < k + l.length → (i ∈ D ↔ i ∉ E)) :
    keepAxes D k l = dropAxes E k l ∧ dropAxes D k l = keepAxes E k l := by
  induction l generalizing k with
  | nil => exact ⟨rfl, rfl⟩
  | cons x xs ih =>
    have ih' := ih (k + 1) (fun i h1 h2 => h i (by omega) (by simp only [List.length_cons]; omega))
    have hk := h k (le_refl k) (by simp only [List.length_cons]; omega)
    by_cases hE : k ∈ E
    · have hD : k ∉ D := fun hd => (hk.mp hd) hE
      simp only [keepAxes, dropAxes, hD, hE, if_false, if_true, ih'.1, ih'.2]
      exact ⟨trivial, trivial⟩
    · have hD : k ∈ D := hk.mpr hE
      simp only [keepAxes, dropAxes, hD, hE, if_false, if_true, ih'.1, ih'.2]
      exact ⟨trivial, trivial⟩

theorem mem_evalDimsToExclude (rank d i : Nat) (hi : i < rank) :
    i ∈ ShapeUtils.evalDimsToExclude rank [d] ↔ i ∉ [d] := by
  simp [ShapeUtils.evalDimsToExclude, hi]

/-- The sub-arrays along one axis `d`, the extents and strides being split at `d`. -/
theorem subArray_split (a : NDArray) (d t : Nat) (pre post : List Nat) (n : Nat)
    (spre spost : List Int) (sd : Int)
    (hsh : a.shape = pre ++ n :: post) (hst : a.strides = spre ++ sd :: spost)
    (hpre : pre.length = d) (hspre : spre.length = d) (hspost : spost.length = post.length)
    (rank : Nat) (hrank : rank = a.rankOf) :
    ShapeUtils.getNumOfSubArrs a.toShapeInfo (ShapeUtils.evalDimsToExclude rank [d])
      = prodLong (pre ++ post) ∧
    (a.subArray t (ShapeUtils.evalDimsToExclude rank [d])).shape = [n] ∧
    (a.subArray t (ShapeUtils.evalDimsToExclude rank [d])).strides = [sd] ∧
    (a.subArray t (ShapeUtils.evalDimsToExclude rank [d])).dataType = a.dataType ∧
    (a.subArray t (ShapeUtils.evalDimsToExclude rank [d])).buffer
      = ⟨a.buffer.block, a.buffer.offset
        + shape.getOffset 0 (spre ++ spost)
            ((unravel (pre ++ post) t).map (fun (k : Nat) => (k : Int)))⟩ := by
  have hr : rank = (pre ++ n :: post).length := by rw [hrank, NDArray.rankOf, hsh]
  have hr2 : rank = (spre ++ sd :: spost).length := by
    rw [hr]; simp only [List.length_append, List.length_cons]; omega
  have hc1 := keepAxes_compl (ShapeUtils.evalDimsToExclude rank [d]) [d] (pre ++ n :: post) 0
    (fun i _ h2 => mem_evalDimsToExclude rank d i (by omega))
  have hc2 := keepAxes_compl (ShapeUtils.evalDimsToExclude rank [d]) [d] (spre ++ sd :: spost) 0
    (fun i _ h2 => mem_evalDimsToExclude rank d i (by omega))
  have hk1 := keepAxes_split d pre n post 0 (by omega)
  have hk2 := keepAxes_split d spre sd spost 0 (by omega)
  refine ⟨?_, ?_, ?_, rfl, ?_⟩
  · simp only [ShapeUtils.getNumOfSubArrs, hsh, hc1.1, hk1.2]
  · simp only [NDArray.subArray, hsh, hc1.2, hk1.1]
  · simp only [NDArray.subArray, hst, hc2.2, hk2.1]
  · simp only [NDArray.subArray, NDArray.bufferWithOffset, hsh, hst, hc1.1, hc2.1, hk1.2, hk2.2,
      ind2subC_natCast]


/-- What `repeat(d, target)` does on numeric arrays whose extents and strides are split
at the axis `d`, the number of sub-arrays and the extent of the target along `d` being
at most `INT_MAX`: it returns normally, after the stores of `repeatTadAs` on each pair of
sub-arrays. -/
theorem repeatInto_eq (convert : DataType → DataType → α → α) (m : Memory α)
    (a target : NDArray) (d : Nat) (pre post : List Nat)
    (n N : Nat) (spre spost rpre rpost : List Int) (sd rd : Int)
    (hsh : a.shape = pre ++ n :: post) (hst : a.strides = spre ++ sd :: spost)
    (htsh : target.shape = pre ++ N :: post) (htst : target.strides = rpre ++ rd :: rpost)
    (hpre : pre.length = d) (hspre : spre.length = d) (hspost : spost.length = post.length)
    (hrpre : rpre.length = d) (hrpost : rpost.length = post.length)
    (hnum : a.dataType ∈ LIBND4J_TYPES) (hnumT : target.dataType ∈ LIBND4J_TYPES)
    (hn : 1 ≤ n) (hN : n ≤ N) (hfitN : N ≤ INT_MAX) (hfitS : prodLong (pre ++ post) ≤ INT_MAX) :
    a.repeatInto convert m d target
      = .ret ((List.range (prodLong (pre ++ post))).foldl
            (fun s (t : Nat) => NDArray.repeatTadAs
              (fun v => convert (if a.isR then .DOUBLE else .INT64) target.dataType
                (convert a.dataType (if a.isR then .DOUBLE else .INT64) v)) (N / n)
              (a.subArray t (ShapeUtils.evalDimsToExclude a.rankOf [d]))
              (target.subArray t (ShapeUtils.evalDimsToExclude a.rankOf [d])) s) m) () := by
  have hrank : a.rankOf = target.rankOf := by
    simp only [NDArray.rankOf, hsh, htsh, List.length_append, List.length_cons]
  have hsa : a.sizeAt d = n := by
    simp only [NDArray.sizeAt, hsh, ← hpre, (getD_split pre post n 0).1]
  have hst' : target.sizeAt d = N := by
    simp only [NDArray.sizeAt, htsh, ← hpre, (getD_split pre post N 0).1]
  have hdelta : ¬ N / n = 0 := Nat.pos_iff_ne_zero.mp (Nat.div_pos hN hn)
  have hn0 : ¬ n = 0 := by omega
  have hA := fun t => subArray_split a d t pre post n spre spost sd hsh hst hpre hspre hspost
    a.rankOf rfl
  have hR := fun t => subArray_split target d t pre post N rpre rpost rd htsh htst hpre hrpre
    hrpost a.rankOf hrank
  have hr : ¬ a.rankOf ≠ target.rankOf := not_not.mpr hrank
  simp only [NDArray.repeatInto, hr, if_false, hsa, hst', hn0, hdelta, (hA 0).1]
  rw [forInt_of_le _ _ _ hfitS]
  apply forEach_eq_foldl
  intro t _ s
  have h := fun T => repeatIntoTensor_eq convert T s
    (a.subArray t (ShapeUtils.evalDimsToExclude a.rankOf [d]))
    (target.subArray t (ShapeUtils.evalDimsToExclude a.rankOf [d])) (N / n)
    (by rw [(hA t).2.2.2.1]; exact hnum) (by rw [(hR t).2.2.2.1]; exact hnumT)
    (by
      rw [(rank1 _ _ _ (hR t).2.1 (hR t).2.2.1).1, (rank1 _ _ _ (hA t).2.1 (hA t).2.2.1).1]
      exact Nat.mul_div_le N n)
    (by rw [(rank1 _ _ _ (hA t).2.1 (hA t).2.2.1).1]; omega)
    (by rw [(rank1 _ _ _ (hR t).2.1 (hR t).2.2.1).1]; exact hfitN)
  rw [(hA t).2.2.2.1, (hR t).2.2.2.1] at h
  by_cases hisR : a.isR = true
  · simp only [hisR, if_true]
    exact h .DOUBLE
  · simp only [hisR, if_false, Bool.false_eq_true]
    exact h .INT64

/-- The state `repeat(d, target)` leaves, as one run of stores over the triples
(sub-array, source index, repetition), each reading the source and writing the
target. -/
theorem repeatInto_state (g : α → α) (m : Memory α) (a target : NDArray) (d k : Nat)
    (pre post : List Nat)
    (n N : Nat) (spre spost rpre rpost : List Int) (sd rd : Int)
    (hsh : a.shape = pre ++ n :: post) (hst : a.strides = spre ++ sd :: spost)
    (htsh : target.shape = pre ++ N :: post) (htst : target.strides = rpre ++ rd :: rpost)
    (hpre : pre.length = d) (hspre : spre.length = d) (hspost : spost.length = post.length)
    (hrpre : rpre.length = d) (hrpost : rpost.length = post.length)
    (hblock : target.buffer.block ≠ a.buffer.block) :
    (List.range (prodLong (pre ++ post))).foldl
        (fun s (t : Nat) => NDArray.repeatTadAs g k
          (a.subArray t (ShapeUtils.evalDimsToExclude a.rankOf [d]))
          (target.subArray t (ShapeUtils.evalDimsToExclude a.rankOf [d])) s) m
      = ((List.range (prodLong (pre ++ post))).product
          ((List.range n).product (List.range k))).foldl
          (fun s (q : Nat × Nat × Nat) =>
            s.write target.buffer
              (shape.getOffset 0 (rpre ++ rpost)
                  ((unravel (pre ++ post) q.1).map (fun (i : Nat) => (i : Int)))
                + ((q.2.1 * k + q.2.2 : Nat) : Int) * rd)
              (g (s.read a.buffer
                (shape.getOffset 0 (spre ++ spost)
                    ((unravel (pre ++ post) q.1).map (fun (i : Nat) => (i : Int)))
                  + (q.2.1 : Int) * sd))))
          m := by
  have hrank : a.rankOf = target.rankOf := by
    simp only [NDArray.rankOf, hsh, htsh, List.length_append, List.length_cons]
  have hA := fun t => subArray_split a d t pre post n spre spost sd hsh hst hpre hspre hspost
    a.rankOf rfl
  have hR := fun t => subArray_split target d t pre post N rpre rpost rd htsh htst hpre hrpre
    hrpost a.rankOf hrank
  rw [foldl_product]
  apply List.foldl_ext
  intro s t _
  exact repeatTadAs_stores g k n N sd rd _ _ a.buffer target.buffer _ _ s
    (hA t).2.1 (hA t).2.2.1 (hR t).2.1 (hR t).2.2.1 (hA t).2.2.2.2 (hR t).2.2.2.2
    (fun h => hblock h.symm)

theorem ext_getD (l l' : List Nat) (hlen : l'.length = l.length)
    (h : ∀ i : Nat, l'.getD i 0 = l.getD i 0) : l' = l := by
  apply List.ext_getElem hlen
  intro i h1 h2
  have := h i
  rwa [List.getD_eq_getElem _ _ h1, List.getD_eq_getElem _ _ h2] at this

/-- Two lists of extents of the same length that agree off the axis `d` split at `d`
with the same parts before and after. -/
theorem split_of_getD_eq (l l' : List Nat) (d : Nat) (hd : d < l.length)
    (hlen : l'.length = l.length) (h : ∀ d' : Nat, d' ≠ d → l'.getD d' 0 = l.getD d' 0) :
    ∃ pre n N post, l = pre ++ n :: post ∧ l' = pre ++ N :: post ∧ pre.length = d := by
  induction d generalizing l l' with
  | zero =>
    cases l with
    | nil => simp at hd
    | cons n post =>
      cases l' with
      | nil => simp at hlen
      | cons N post' =>
        have hp : post' = post := ext_getD post post' (by simpa using hlen)
          (fun i => by simpa using h (i + 1) (by omega))
        exact ⟨[], n, N, post, rfl, by rw [hp]; rfl, rfl⟩
  | succ d ih =>
    cases l with
    | nil => simp at hd
    | cons x xs =>
      cases l' with
      | nil => simp at hlen
      | cons x' xs' =>
        obtain ⟨pre, n, N, post, h1, h2, h3⟩ := ih xs xs' (by simpa using hd)
          (by simpa using hlen) (fun d' hd' => by simpa using h (d' + 1) (by omega))
        have hx : x' = x := by simpa using h 0 (by omega)
        exact ⟨x :: pre, n, N, post, by rw [h1]; rfl, by rw [h2, hx]; rfl, by simp [h3]⟩

theorem validIndex_of_validNat (sh idx : List Nat) (h : validNat sh idx) :
    validIndex sh (idx.map (fun (k : Nat) => (k : Int))) := by
  induction h with
  | nil => exact List.Forall₂.nil
  | cons hx _ ih => exact List.Forall₂.cons ⟨Int.natCast_nonneg _, Int.ofNat_lt.mpr hx⟩ ih

/-- The cell a store of `repeat(d, target)` addresses, as the offset of a multi-index
of the target. -/
theorem repeatInto_store_cell (pre post : List Nat) (N : Nat) (rpre rpost : List Int) (rd : Int)
    (hrpre : rpre.length = pre.length)
    (t x : Nat) (ht : t < prodLong (pre ++ post)) (hx : x < N) :
    ∃ upre upost, unravel (pre ++ post) t = upre ++ upost ∧ upre.length = pre.length ∧
      validNat (pre ++ N :: post) (upre ++ x :: upost) ∧
      shape.getOffset 0 (rpre ++ rpost)
          ((unravel (pre ++ post) t).map (fun (k : Nat) => (k : Int)))
          + (x : Int) * rd
        = shape.getOffset 0 (rpre ++ rd :: rpost)
            ((upre ++ x :: upost).map (fun (k : Nat) => (k : Int))) := by
  obtain ⟨upre, upost, hu, hv1, hv2⟩ := validNat_split pre post _ (unravel_valid _ t ht)
  have hlen : upre.length = pre.length := validNat_length pre upre hv1
  have hvalid : validNat (pre ++ N :: post) (upre ++ x :: upost) :=
    validNat_append pre (N :: post) upre (x :: upost) hv1 (List.Forall₂.cons hx hv2)
  refine ⟨upre, upost, hu, hlen, hvalid, ?_⟩
  rw [hu, getOffset_insert upre upost x rpre rpost rd (by omega)]

/-- Stores of `repeat(d, target)` to distinct places of the target go to distinct
cells, when the strides of the target send distinct multi-indices to distinct
offsets. -/
theorem repeatInto_store_injective (pre post : List Nat) (N : Nat) (rpre rpost : List Int)
    (rd : Int) (hrpre : rpre.length = pre.length)
    (hinj : ∀ idx idx', validIndex (pre ++ N :: post) idx → validIndex (pre ++ N :: post) idx' →
      shape.getOffset 0 (rpre ++ rd :: rpost) idx = shape.getOffset 0 (rpre ++ rd :: rpost) idx' →
      idx = idx')
    (t t' x x' : Nat) (ht : t < prodLong (pre ++ post)) (ht' : t' < prodLong (pre ++ post))
    (hx : x < N) (hx' : x' < N)
    (h : shape.getOffset 0 (rpre ++ rpost)
          ((unravel (pre ++ post) t).map (fun (i : Nat) => (i : Int))) + (x : Int) * rd
        = shape.getOffset 0 (rpre ++ rpost)
          ((unravel (pre ++ post) t').map (fun (i : Nat) => (i : Int))) + (x' : Int) * rd) :
    t = t' ∧ x = x' := by
  obtain ⟨upre, upost, hu, hlen, hvalid, hcell⟩ :=
    repeatInto_store_cell pre post N rpre rpost rd hrpre t x ht hx
  obtain ⟨upre', upost', hu', hlen', hvalid', hcell'⟩ :=
    repeatInto_store_cell pre post N rpre rpost rd hrpre t' x' ht' hx'
  rw [hcell, hcell'] at h
  have hM := hinj _ _ (validIndex_of_validNat _ _ hvalid) (validIndex_of_validNat _ _ hvalid') h
  have hM' : upre ++ x :: upost = upre' ++ x' :: upost' :=
    List.map_injective_iff.mpr (fun a b hab => by exact_mod_cast hab) hM
  obtain ⟨h1, h2⟩ := List.append_inj hM' (by omega)
  simp only [List.cons.injEq] at h2
  exact ⟨unravel_injective _ t t' ht ht' (by rw [hu, hu', h1, h2.2]), h2.1⟩

theorem mul_add_lt (n k a b : Nat) (ha : a < n) (hb : b < k) : a * k + b < n * k := by
  calc a * k + b < a * k + k := by omega
    _ = (a + 1) * k := by ring
    _ ≤ n * k := Nat.mul_le_mul_right _ ha

theorem mul_add_inj (k a b a' b' : Nat) (hb : b < k) (hb' : b' < k)
    (h : a * k + b = a' * k + b') : a = a' ∧ b = b' := by
  have hk : 0 < k := by omega
  have hdiv : (a * k + b) / k = (a' * k + b') / k := by rw [h]
  have hmod : (a * k + b) % k = (a' * k + b') % k := by rw [h]
  rw [Nat.add_comm, Nat.add_mul_div_right _ _ hk, Nat.div_eq_of_lt hb, Nat.add_comm (a' * k),
    Nat.add_mul_div_right _ _ hk, Nat.div_eq_of_lt hb'] at hdiv
  rw [Nat.add_comm, Nat.add_mul_mod_self_right, Nat.mod_eq_of_lt hb, Nat.add_comm (a' * k),
    Nat.add_mul_mod_self_right, Nat.mod_eq_of_lt hb'] at hmod
  exact ⟨by omega, hmod⟩

/-- With more than `INT_MAX` sub-arrays along the axis, `repeat(dimension, target)` does
not return normally: the `int` counter of the outer loop cannot reach its bound. -/
theorem repeatInto_beyond_int (convert : DataType → DataType → α → α)
    (m : Memory α) (a target : NDArray) (d : Nat)
    (h : INT_MAX < ShapeUtils.getNumOfSubArrs a.toShapeInfo
      (ShapeUtils.evalDimsToExclude a.rankOf [d])) :
    ∃ ex, (a.repeatInto convert m d target).value = .error ex := by
  unfold NDArray.repeatInto
  by_cases h1 : a.rankOf ≠ target.rankOf
  · rw [if_pos h1]; exact ⟨_, rfl⟩
  · rw [if_neg h1]
    by_cases h2 : a.sizeAt d = 0
    · rw [if_pos h2]; exact ⟨_, rfl⟩
    · rw [if_neg h2]
      dsimp only
      by_cases h3 : target.sizeAt d / a.sizeAt d = 0
      · rw [if_pos h3]; exact ⟨_, rfl⟩
      · rw [if_neg h3]
        exact forInt_gt _ _ _ h

/-- The array of `2^31` rows of one cell has `2^31` sub-arrays along axis 1, and
`repeat(1, target)` does not return normally on it, whatever the target is. -/
theorem repeatInto_on_long_array :
    ShapeUtils.getNumOfSubArrs rows2G.toShapeInfo
      (ShapeUtils.evalDimsToExclude rows2G.rankOf [1]) = 2147483648 ∧
    ∀ (m : Memory Int) (target : NDArray), ∃ ex,
      (rows2G.repeatInto staticCast m 1 target).value = .error ex :=
  ⟨by decide, fun m target => repeatInto_beyond_int staticCast m rows2G target 1 (by decide)⟩

/-- C28 (amended): for a numeric array and a numeric target of the same rank (each with
one stride per axis) whose extents off the axis `d` are those of the array, whose strides
send distinct multi-indices to distinct offsets and whose buffer is another one than the
array's, and `1 ≤ sizeAt(d)`: if `target.sizeAt(d) < sizeAt(d)` (`delta == 0`) the call
raises `std::invalid_argument` and leaves the memory as it was; if
`sizeAt(d) ≤ target.sizeAt(d) ≤ INT_MAX` and the number of sub-arrays is at most
`INT_MAX`, then with `delta = target.sizeAt(d) / sizeAt(d)`:
`sizeAt(d) * delta ≤ target.sizeAt(d)`, the call returns normally (no store is out of
range and no `int` overflows), the element of the target at a multi-index `(…, j, …)`
with `j < sizeAt(d) * delta` is the element the array had at `(…, j / delta, …)` before
the call, converted to the type `T` of the branch (`double` for a real array, `Nd4jLong`
otherwise) and from `T` to the type of the target, and the elements of the target with
`j ≥ sizeAt(d) * delta` are as before the call. -/
theorem repeatInto_fills_target (convert : DataType → DataType → α → α) (m : Memory α)
    (a target : NDArray) (d : Nat)
    (hnum : a.dataType ∈ LIBND4J_TYPES) (hnumT : target.dataType ∈ LIBND4J_TYPES)
    (hrank : target.rankOf = a.rankOf)
    (hstr : a.strides.length = a.shape.length)
    (hstrT : target.strides.length = target.shape.length)
    (hext : ∀ d' : Nat, d' ≠ d → target.sizeAt d' = a.sizeAt d')
    (hn : 1 ≤ a.sizeAt d)
    (hinj : target.DistinctOffsets) (hblock : target.buffer.block ≠ a.buffer.block) :
    (target.sizeAt d < a.sizeAt d →
      (a.repeatInto convert m d target).value = .error .invalid_argument ∧
      (a.repeatInto convert m d target).state = m) ∧
    (a.sizeAt d ≤ target.sizeAt d → target.sizeAt d ≤ INT_MAX →
      ShapeUtils.getNumOfSubArrs a.toShapeInfo (ShapeUtils.evalDimsToExclude a.rankOf [d])
        ≤ INT_MAX →
      a.sizeAt d * (target.sizeAt d / a.sizeAt d) ≤ target.sizeAt d ∧
      (a.repeatInto convert m d target).value = .ok () ∧
      ∀ idx : List Nat, validNat target.shape idx →
        (idx.getD d 0 < a.sizeAt d * (target.sizeAt d / a.sizeAt d) →
          (a.repeatInto convert m d target).state.read target.buffer
              (shape.getOffset 0 target.strides (idx.map (fun (i : Nat) => (i : Int))))
            = convert (if a.isR then .DOUBLE else .INT64) target.dataType
                (convert a.dataType (if a.isR then .DOUBLE else .INT64)
                  (m.read a.buffer
                    (shape.getOffset 0 a.strides
                      ((idx.modify (fun j => j / (target.sizeAt d / a.sizeAt d)) d).map
                        (fun (i : Nat) => (i : Int))))))) ∧
        (a.sizeAt d * (target.sizeAt d / a.sizeAt d) ≤ idx.getD d 0 →
          (a.repeatInto convert m d target).state.read target.buffer
              (shape.getOffset 0 target.strides (idx.map (fun (i : Nat) => (i : Int))))
            = m.read target.buffer
              (shape.getOffset 0 target.strides (idx.map (fun (i : Nat) => (i : Int)))))) := by
  have hd : d < a.shape.length := by
    by_contra hcon
    have h0 : a.sizeAt d = 0 := by
      simp only [NDArray.sizeAt]
      exact List.getD_eq_default _ _ (by omega)
    omega
  obtain ⟨pre, n, N, post, hsh, htsh, hpre⟩ := split_of_getD_eq a.shape target.shape d hd
    hrank (fun d' hd' => hext d' hd')
  obtain ⟨spre, sd, spost, hst, hspre⟩ := exists_split a.strides d (by rw [hstr]; exact hd)
  obtain ⟨rpre, rd, rpost, htst, hrpre⟩ := exists_split target.strides d
    (by rw [hstrT]; have := hrank; simp only [NDArray.rankOf] at this; omega)
  have hspost : spost.length = post.length := by
    have := hstr
    rw [hst, hsh] at this
    simp only [List.length_append, List.length_cons] at this
    omega
  have hrpost : rpost.length = post.length := by
    have := hstrT
    rw [htst, htsh] at this
    simp only [List.length_append, List.length_cons] at this
    omega
  have hsa : a.sizeAt d = n := by
    simp only [NDArray.sizeAt, hsh, ← hpre, (getD_split pre post n 0).1]
  have hsT : target.sizeAt d = N := by
    simp only [NDArray.sizeAt, htsh, ← hpre, (getD_split pre post N 0).1]
  have hsub := (subArray_split a d 0 pre post n spre spost sd hsh hst hpre hspre hspost
    a.rankOf rfl).1
  rw [hsa, hsT, hsub]
  rw [hsa] at hn
  have hr : ¬ a.rankOf ≠ target.rankOf := not_not.mpr hrank.symm
  have hn0 : ¬ n = 0 := by omega
  constructor
  · intro hlt
    have h0 : N / n = 0 := Nat.div_eq_of_lt hlt
    simp only [NDArray.repeatInto, hr, if_false, hsa, hsT, hn0, h0, if_true, Outcome.raise]
    exact ⟨trivial, trivial⟩
  · intro hle hfitN hfitS
    have hk : 0 < N / n := Nat.div_pos hle hn
    have hnk : n * (N / n) ≤ N := Nat.mul_div_le N n
    have heq := repeatInto_eq convert m a target d pre post n N spre spost rpre rpost sd rd hsh
      hst htsh htst hpre hspre hspost hrpre hrpost hnum hnumT hn hle hfitN hfitS
    have hstate := repeatInto_state
      (fun v => convert (if a.isR then .DOUBLE else .INT64) target.dataType
        (convert a.dataType (if a.isR then .DOUBLE else .INT64) v))
      m a target d (N / n) pre post n N spre spost rpre rpost sd rd
      hsh hst htsh htst hpre hspre hspost hrpre hrpost hblock
    have hinj' : ∀ idx idx', validIndex (pre ++ N :: post) idx →
        validIndex (pre ++ N :: post) idx' →
        shape.getOffset 0 (rpre ++ rd :: rpost) idx = shape.getOffset 0 (rpre ++ rd :: rpost) idx' →
        idx = idx' := by
      intro idx idx' h1 h2 h3
      exact hinj idx idx' (by rw [htsh]; exact h1) (by rw [htsh]; exact h2) (by rw [htst]; exact h3)
    refine ⟨hnk, by rw [heq]; rfl, ?_⟩
    intro idx hv
    rw [htsh] at hv
    obtain ⟨ipre, rest, hidx, hv1, hv2⟩ := validNat_split pre (N :: post) idx hv
    cases hv2 with
    | cons hx hv3 =>
      rename_i x ipost
      have hilen : ipre.length = pre.length := validNat_length pre ipre hv1
      have hvo : validNat (pre ++ post) (ipre ++ ipost) := validNat_append _ _ _ _ hv1 hv3
      have ht : ravel (pre ++ post) (ipre ++ ipost) < prodLong (pre ++ post) := ravel_lt _ _ hvo
      have hut := unravel_ravel _ _ hvo
      have hgx : idx.getD d 0 = x := by
        rw [hidx, ← hpre, ← hilen]
        exact (getD_split ipre ipost x 0).1
      have hW : shape.getOffset 0 target.strides (idx.map (fun (i : Nat) => (i : Int)))
          = shape.getOffset 0 (rpre ++ rpost)
              ((unravel (pre ++ post) (ravel (pre ++ post) (ipre ++ ipost))).map
                (fun (i : Nat) => (i : Int)))
            + (x : Int) * rd := by
        rw [htst, hidx, hut, getOffset_insert ipre ipost x rpre rpost rd (by omega)]
      rw [heq]
      simp only [Outcome.ret]
      rw [hstate, hgx]
      constructor
      · intro hxlt
        have hkk : x / (N / n) < n := Nat.div_lt_of_lt_mul (by rw [Nat.mul_comm]; exact hxlt)
        have hj : x % (N / n) < N / n := Nat.mod_lt _ hk
        have hmain := foldl_write_read
          ((List.range (prodLong (pre ++ post))).product
            ((List.range n).product (List.range (N / n))))
          target.buffer a.buffer
          (fun (q : Nat × Nat × Nat) =>
            shape.getOffset 0 (rpre ++ rpost)
                ((unravel (pre ++ post) q.1).map (fun (i : Nat) => (i : Int)))
              + ((q.2.1 * (N / n) + q.2.2 : Nat) : Int) * rd)
          (fun (q : Nat × Nat × Nat) =>
            shape.getOffset 0 (spre ++ spost)
                ((unravel (pre ++ post) q.1).map (fun (i : Nat) => (i : Int)))
              + (q.2.1 : Int) * sd)
          (fun _ v => convert (if a.isR then .DOUBLE else .INT64) target.dataType
            (convert a.dataType (if a.isR then .DOUBLE else .INT64) v)) m
          (List.Nodup.product (List.nodup_range _)
            (List.Nodup.product (List.nodup_range _) (List.nodup_range _)))
          (by
            rintro ⟨t, kk, j⟩ hq ⟨t', kk', j'⟩ hq' hne hWq
            obtain ⟨h1, h2⟩ := List.pair_mem_product.mp hq
            obtain ⟨h3, h4⟩ := List.pair_mem_product.mp h2
            obtain ⟨h1', h2'⟩ := List.pair_mem_product.mp hq'
            obtain ⟨h3', h4'⟩ := List.pair_mem_product.mp h2'
            obtain ⟨e1, e2⟩ := repeatInto_store_injective pre post N rpre rpost rd
              (by omega) hinj' t t' (kk * (N / n) + j) (kk' * (N / n) + j')
              (List.mem_range.mp h1) (List.mem_range.mp h1')
              (lt_of_lt_of_le (mul_add_lt n (N / n) kk j (List.mem_range.mp h3)
                (List.mem_range.mp h4)) hnk)
              (lt_of_lt_of_le (mul_add_lt n (N / n) kk' j' (List.mem_range.mp h3')
                (List.mem_range.mp h4')) hnk) hWq
            obtain ⟨e3, e4⟩ := mul_add_inj (N / n) kk j kk' j' (List.mem_range.mp h4)
              (List.mem_range.mp h4') e2
            exact hne (by rw [e1, e3, e4]))
          (fun _ _ _ _ _ hcon => hblock hcon.1.symm)
          (ravel (pre ++ post) (ipre ++ ipost), x / (N / n), x % (N / n))
          (List.pair_mem_product.mpr ⟨List.mem_range.mpr ht,
            List.pair_mem_product.mpr ⟨List.mem_range.mpr hkk, List.mem_range.mpr hj⟩⟩)
        have hR : shape.getOffset 0 a.strides
              ((idx.modify (fun j => j / (N / n)) d).map (fun (i : Nat) => (i : Int)))
            = shape.getOffset 0 (spre ++ spost)
                ((unravel (pre ++ post) (ravel (pre ++ post) (ipre ++ ipost))).map
                  (fun (i : Nat) => (i : Int)))
              + ((x / (N / n) : Nat) : Int) * sd := by
          rw [hst, hidx, hut, modify_split _ ipre x ipost d (by omega),
            getOffset_insert ipre ipost (x / (N / n)) spre spost sd (by omega)]
        rw [hW, hR]
        have hxx : x / (N / n) * (N / n) + x % (N / n) = x := Nat.div_add_mod' x (N / n)
        simp only [hxx] at hmain
        exact hmain
      · intro hxge
        rw [hW]
        simp only [Memory.read]
        apply foldl_write_frame
        rintro ⟨t, kk, j⟩ hq hcon
        obtain ⟨h1, h2⟩ := List.pair_mem_product.mp hq
        obtain ⟨h3, h4⟩ := List.pair_mem_product.mp h2
        have hlt := mul_add_lt n (N / n) kk j (List.mem_range.mp h3) (List.mem_range.mp h4)
        obtain ⟨_, e2⟩ := repeatInto_store_injective pre post N rpre rpost rd
          (by omega) hinj' t (ravel (pre ++ post) (ipre ++ ipost)) (kk * (N / n) + j) x
          (List.mem_range.mp h1) ht (lt_of_lt_of_le hlt hnk) hx
          (by have := hcon.2; simp only at this; omega)
        omega

theorem out27_distinctOffsets : out27.DistinctOffsets := by
  intro idx idx' h h' hoff
  have hform : ∀ l : List Int, shape.validIndex out27.shape l →
      ∃ i j : Int, l = [i, j] ∧ 0 ≤ i ∧ i < 2 ∧ 0 ≤ j ∧ j < 7 := by
    intro l hl
    cases hl with
    | cons h0 hl' =>
      cases hl' with
      | cons h1 hl'' =>
        cases hl''
        exact ⟨_, _, rfl, h0.1, by simpa using h0.2, h1.1, by simpa using h1.2⟩
  obtain ⟨i, j, rfl, hi0, hi1, hj0, hj1⟩ := hform idx h
  obtain ⟨i', j', rfl, hi0', hi1', hj0', hj1'⟩ := hform idx' h'
  simp only [shape.getOffset, out27, List.zipWith_cons_cons, List.zipWith_nil_left, List.sum_cons,
    List.sum_nil] at hoff
  have h1 : i = i' := by omega
  have h2 : j = j' := by omega
  rw [h1, h2]

theorem out27_extents (d' : Nat) (h : d' ≠ 1) : out27.sizeAt d' = mat23.sizeAt d' := by
  match d', h with
  | 0, _ => rfl
  | 1, h => exact absurd rfl h
  | _ + 2, _ => rfl

/-- Witness of C28 (amended): the matrix `[[1, 2, 3], [4, 5, 6]]` of block 1 repeated
along its axis 1 into a 2×7 matrix of block 3 (`delta = 2`), both `INT32`. -/
theorem repeatInto_fills_target_witness :
    (out27.sizeAt 1 < mat23.sizeAt 1 →
      (mat23.repeatInto staticCast mem123456 1 out27).value = .error .invalid_argument ∧
      (mat23.repeatInto staticCast mem123456 1 out27).state = mem123456) ∧
    (mat23.sizeAt 1 ≤ out27.sizeAt 1 → out27.sizeAt 1 ≤ INT_MAX →
      ShapeUtils.getNumOfSubArrs mat23.toShapeInfo
          (ShapeUtils.evalDimsToExclude mat23.rankOf [1]) ≤ INT_MAX →
      mat23.sizeAt 1 * (out27.sizeAt 1 / mat23.sizeAt 1) ≤ out27.sizeAt 1 ∧
      (mat23.repeatInto staticCast mem123456 1 out27).value = .ok () ∧
      ∀ idx : List Nat, validNat out27.shape idx →
        (idx.getD 1 0 < mat23.sizeAt 1 * (out27.sizeAt 1 / mat23.sizeAt 1) →
          (mat23.repeatInto staticCast mem123456 1 out27).state.read out27.buffer
              (shape.getOffset 0 out27.strides (idx.map (fun (i : Nat) => (i : Int))))
            = staticCast (if mat23.isR then .DOUBLE else .INT64) out27.dataType
                (staticCast mat23.dataType (if mat23.isR then .DOUBLE else .INT64)
                  (mem123456.read mat23.buffer
                    (shape.getOffset 0 mat23.strides
                      ((idx.modify (fun j => j / (out27.sizeAt 1 / mat23.sizeAt 1)) 1).map
                        (fun (i : Nat) => (i : Int))))))) ∧
        (mat23.sizeAt 1 * (out27.sizeAt 1 / mat23.sizeAt 1) ≤ idx.getD 1 0 →
          (mat23.repeatInto staticCast mem123456 1 out27).state.read out27.buffer
              (shape.getOffset 0 out27.strides (idx.map (fun (i : Nat) => (i : Int))))
            = mem123456.read out27.buffer
              (shape.getOffset 0 out27.strides (idx.map (fun (i : Nat) => (i : Int)))))) :=
  repeatInto_fills_target staticCast mem123456 mat23 out27 1 (by decide) (by decide) rfl rfl rfl
    out27_extents (by decide) out27_distinctOffsets (by decide)

/-- C28 (counterexample): each pair below has equal ranks and `1 ≤ sizeAt(0) = 3 ≤
target.sizeAt(0) = 6`, so `delta = 2`.  On a string array with a string target the call
raises `std::runtime_error` (the selector of `e` has no case for strings) and nothing
is stored.  On the vector `1, 2, 3` and a target view whose six elements are one cell
(stride 0) the call returns normally and every element of the target reads `3`, while
the elements of the array at `j / 2` are `1, 1, 2, 2, 3, 3` before and after the call.
On the vector and a six-element target over the same buffer every element of the
target reads `1` after the call.  On the `INT32` vector `300, 301, 302` and a target of
six `INT8` cells the target reads `44, 44, 45, 45, 46, 46`: each value went through
`Nd4jLong` into `int8_t`. -/
theorem repeatInto_string_or_aliased_target :
    (str3.rankOf = str6.rankOf ∧ 1 ≤ str3.sizeAt 0 ∧ str3.sizeAt 0 ≤ str6.sizeAt 0 ∧
      str6.sizeAt 0 / str3.sizeAt 0 = 2) ∧
    (str3.repeatInto staticCast mem123456 0 str6).value = .error .runtime_error ∧
    (vec3.rankOf = sameCell6.rankOf ∧ 1 ≤ vec3.sizeAt 0 ∧ vec3.sizeAt 0 ≤ sameCell6.sizeAt 0 ∧
      sameCell6.sizeAt 0 / vec3.sizeAt 0 = 2) ∧
    (vec3.repeatInto staticCast mem123456 0 sameCell6).value = .ok () ∧
    (List.range 6).map (fun (j : Nat) =>
      (vec3.repeatInto staticCast mem123456 0 sameCell6).state.read sameCell6.buffer
        (sameCell6.getOffset j)) = [3, 3, 3, 3, 3, 3] ∧
    (List.range 6).map (fun (j : Nat) =>
      mem123456.read vec3.buffer (vec3.getOffset ((j / 2 : Nat) : Int))) = [1, 1, 2, 2, 3, 3] ∧
    (List.range 6).map (fun (j : Nat) =>
      (vec3.repeatInto staticCast mem123456 0 sameCell6).state.read vec3.buffer
        (vec3.getOffset ((j / 2 : Nat) : Int))) = [1, 1, 2, 2, 3, 3] ∧
    (vec3.rankOf = vec6.rankOf ∧ 1 ≤ vec3.sizeAt 0 ∧ vec3.sizeAt 0 ≤ vec6.sizeAt 0 ∧
      vec6.sizeAt 0 / vec3.sizeAt 0 = 2) ∧
    (List.range 6).map (fun (j : Nat) =>
      (vec3.repeatInto staticCast mem123456 0 vec6).state.read vec6.buffer (vec6.getOffset j))
        = [1, 1, 1, 1, 1, 1] ∧
    (vec3.rankOf = bytes6.rankOf ∧ 1 ≤ vec3.sizeAt 0 ∧ vec3.sizeAt 0 ≤ bytes6.sizeAt 0 ∧
      bytes6.sizeAt 0 / vec3.sizeAt 0 = 2) ∧
    (vec3.repeatInto staticCast mem300 0 bytes6).value = .ok () ∧
    (List.range 6).map (fun (j : Nat) =>
      (vec3.repeatInto staticCast mem300 0 bytes6).state.read bytes6.buffer
        (bytes6.getOffset j)) = [44, 44, 45, 45, 46, 46] ∧
    (List.range 6).map (fun (j : Nat) =>
      mem300.read vec3.buffer (vec3.getOffset ((j / 2 : Nat) : Int)))
        = [300, 300, 301, 301, 302, 302] := by
  decide

end RepeatInto

end nd4j
